import Mathlib

/-!
# Descriptor table and pipe buffer of `kern/fs/file.c`

A shallow embedding of the slot state machine (`filemap_*`), the descriptor
operations (`file_*`) and the pipe buffer (`pipe*`) of `kern/fs/file.c` and
`kern/fs/file.h`, followed by the properties established about them.

Conventions of the embedding.

* A `struct file *` into the process table is the index of the slot; a
  `struct inode *` or `struct pipe *` is a natural number, `NULL` being `0`.
* A failed `assert` panics the kernel: the operation yields `none`.
* `atomic_t open_count` and `size_t` are declared outside the two source
  files; they are embedded as unbounded integers / naturals.  `off_t` is
  declared there too: its range is `[-OFF_MAX - 1, OFF_MAX]` with `OFF_MAX` a
  field of `Config`, and a sum stored into an `off_t` is reduced to that range
  (see `wrapOff`).  The pipe counters are declared `int` in `file.h` and are
  embedded as 32-bit two-complement values (see `wrap32`).
* The constants `FS_STRUCT_NENTRY`, `NO_FD`, `E_INVAL`, `E_BUSY`,
  `E_MAX_OPEN`, `LSEEK_*` and `O_*` come from headers that are not part of the
  two source files; they are the fields of `Config`.
* The file-system collaborators (`vfs_close`, `vop_read`, ...) are the fields
  of `Vfs`.  Every call made by `file.c` is also appended to a trace, so that
  the number and the order of the calls can be stated.
* `get_filemap` asserts that the current process has a live `fs_struct`; the
  process structure is outside the two source files and a live `fs_struct` is
  assumed throughout.
* `do_yield()` ends the run of a pipe call in the embedding: the outcome
  `yielded` carries the state in which the scheduler is entered.
* User memory is a function from addresses to bytes.  The sums `addr + w` and
  `addr + r` of `pipewrite` and `piperead` are formed in the naturals: user
  addresses of the 32-bit target are far below the range of `uint64_t`.
-/

namespace Ucore

/-! ## Data model -/

/-- The anonymous `enum` of `struct file` (file.h:32-34). -/
inductive Status
  | FD_NONE
  | FD_INIT
  | FD_OPENED
  | FD_CLOSED
  | FD_PIPE
deriving DecidableEq, Repr

open Status

/-- The record `struct file` (file.h:31-43). -/
structure File where
  status : Status
  readable : Bool
  writable : Bool
  fd : Int
  pos : Int
  node : Nat
  pipe : Nat
  open_count : Int
deriving DecidableEq, Repr

/-- Constants taken from headers outside the two source files; `OFF_MAX` is the
largest value of the type `off_t`, which is declared there too. -/
structure Config where
  FS_STRUCT_NENTRY : Nat
  NO_FD : Int
  E_INVAL : Int
  E_BUSY : Int
  E_MAX_OPEN : Int
  LSEEK_SET : Int
  LSEEK_CUR : Int
  LSEEK_END : Int
  O_RDONLY : Nat
  O_WRONLY : Nat
  O_RDWR : Nat
  O_ACCMODE : Nat
  O_APPEND : Nat
  OFF_MAX : Int
deriving DecidableEq, Repr

/-- The part of `struct stat` that `file.c` reads. -/
structure Stat where
  st_size : Int
deriving DecidableEq, Repr

/-- The arguments that `iobuf_init(iob, base, len, offset)` records. -/
structure Iobuf where
  io_base : Nat
  io_len : Nat
  io_offset : Int
deriving DecidableEq, Repr

/-- The part of `struct dirent` that `file_getdirentry` uses: the caller-owned
offset, the address of the `name` array and `sizeof(direntp->name)`. -/
structure Dirent where
  offset : Int
  name : Nat
  name_size : Nat
deriving DecidableEq, Repr

/-- One call from `file.c` into the file-system collaborator. -/
inductive Event
  | vfs_close (node : Nat)
  | vop_ref_inc (node : Nat)
  | vop_open_inc (node : Nat)
  | vop_read (node : Nat) (iob : Iobuf)
  | vop_write (node : Nat) (iob : Iobuf)
  | vop_fstat (node : Nat)
  | vop_fsync (node : Nat)
  | vop_tryseek (node : Nat) (pos : Int)
  | vop_getdirentry (node : Nat) (iob : Iobuf)
  | vfs_open (path : Nat) (open_flags : Nat)
deriving DecidableEq, Repr

/-- The constant `PIPESIZE` (file.h:21). -/
def PIPESIZE : Int := 512

/-- The record `struct pipe` (file.h:23-29).  Only the indices below
`PIPESIZE` of `data` belong to the array. -/
structure Pipe where
  data : Nat → UInt8
  nread : Int
  nwrite : Int
  readopen : Int
  writeopen : Int

/-- What a collaborator that may block can see and change: the descriptor
table of the process (other operations on the table may run while the call is
blocked) and the collaborator-owned state. -/
structure Sys (σ : Type) where
  filemap : Nat → File
  vfs : σ

/-- The state that `file.c` runs on: `Sys`, the trace of collaborator calls
made so far and the kernel pages viewed as `struct pipe`. -/
structure World (σ : Type) extends Sys σ where
  log : List Event
  pipes : Nat → Pipe

/-- The file-system collaborators.  `vfs_open`, `vfs_close`, `vop_ref_inc`
and `vop_open_inc` are only called on a slot that no other operation can
resolve (status `FD_INIT` or `FD_CLOSED`, or on a node); they act on the
collaborator state; `vfs_open` returns the C return value and the node stored
in `*node_store`.  The `vop_*` calls made on an acquired `FD_OPENED` slot may block, so
they transform the whole `Sys`.  A call returns the C return value and, where
the source reads it back, `iobuf_used(iob)` or the filled `struct stat`. -/
structure Vfs (σ : Type) where
  vfs_close : Nat → σ → σ
  vop_ref_inc : Nat → σ → σ
  vop_open_inc : Nat → σ → σ
  vop_read : Nat → Iobuf → Sys σ → Int × Nat × Sys σ
  vop_write : Nat → Iobuf → Sys σ → Int × Nat × Sys σ
  vop_fstat : Nat → Sys σ → Int × Stat × Sys σ
  vop_fsync : Nat → Sys σ → Int × Sys σ
  vop_tryseek : Nat → Int → Sys σ → Int × Sys σ
  vop_getdirentry : Nat → Iobuf → Sys σ → Int × Nat × Sys σ
  vfs_open : Nat → Nat → σ → Int × Nat × σ

section Slots

variable {σ : Type}

/-- Store `f` into slot `i` of the table. -/
def World.setSlot (W : World σ) (i : Nat) (f : File) : World σ :=
  { W with filemap := Function.update W.filemap i f }

/-- Append a collaborator call to the trace. -/
def World.emit (W : World σ) (e : Event) : World σ :=
  { W with log := W.log ++ [e] }

/-- The macro `testfd(fd)` (file.c:17). -/
def testfd (c : Config) (fd : Int) : Bool :=
  decide (0 ≤ fd) && decide (fd < (c.FS_STRUCT_NENTRY : Int))

/-- The function `fopen_count` (file.h:79-82). -/
def fopen_count (f : File) : Int := f.open_count

/-- The function `fopen_count_inc` (file.h:84-87): the slot after the atomic
add; the value returned by the source is its new `open_count`. -/
def fopen_count_inc (f : File) : File := { f with open_count := f.open_count + 1 }

/-- The function `fopen_count_dec` (file.h:89-92): the slot after the atomic
subtract; the value returned by the source is its new `open_count`. -/
def fopen_count_dec (f : File) : File := { f with open_count := f.open_count - 1 }

/-- The function `filemap_init` (file.c:27-35): only `open_count`, `status`
and `fd` of the first `FS_STRUCT_NENTRY` records are written. -/
def filemap_init (c : Config) (filemap : Nat → File) : Nat → File :=
  fun i =>
    if i < c.FS_STRUCT_NENTRY then
      { filemap i with open_count := 0, status := FD_NONE, fd := (i : Int) }
    else filemap i

/-- The scan of `filemap_alloc` for `fd == NO_FD` (file.c:42-46): the first
index at or after `fd`, among the next `k` ones, whose status is `FD_NONE`. -/
def filemap_scan (filemap : Nat → File) : Nat → Nat → Option Nat
  | _, 0 => none
  | fd, k + 1 =>
    if (filemap fd).status = FD_NONE then some fd else filemap_scan filemap (fd + 1) k

/-- The label `found:` of `filemap_alloc` (file.c:59-63). -/
def filemap_alloc_found (W : World σ) (i : Nat) : Option (Int × Option Nat × World σ) :=
  if fopen_count (W.filemap i) = 0 then
    some (0, some i, W.setSlot i { W.filemap i with status := FD_INIT, node := 0 })
  else none

/-- The function `filemap_alloc` (file.c:37-64).  The result is the return
value, the slot stored in `*file_store` (if any) and the new state. -/
def filemap_alloc (c : Config) (fd : Int) (W : World σ) :
    Option (Int × Option Nat × World σ) :=
  if fd = c.NO_FD then
    match filemap_scan W.filemap 0 c.FS_STRUCT_NENTRY with
    | some i => filemap_alloc_found W i
    | none => some (-c.E_MAX_OPEN, none, W)
  else if testfd c fd then
    if (W.filemap fd.toNat).status = FD_NONE then filemap_alloc_found W fd.toNat
    else some (-c.E_BUSY, none, W)
  else some (-c.E_INVAL, none, W)

/-- The function `filemap_free` (file.c:66-74). -/
def filemap_free (env : Vfs σ) (i : Nat) (W : World σ) : Option (World σ) :=
  let f := W.filemap i
  if (f.status = FD_INIT ∨ f.status = FD_CLOSED) ∧ fopen_count f = 0 then
    let W1 : World σ :=
      if f.status = FD_CLOSED then
        { (W.emit (Event.vfs_close f.node)) with vfs := env.vfs_close f.node W.vfs }
      else W
    some (W1.setSlot i { W1.filemap i with status := FD_NONE })
  else none

/-- The function `filemap_acquire` (file.c:76-80). -/
def filemap_acquire (i : Nat) (W : World σ) : Option (World σ) :=
  if (W.filemap i).status = FD_OPENED then
    some (W.setSlot i (fopen_count_inc (W.filemap i)))
  else none

/-- The function `filemap_release` (file.c:82-89). -/
def filemap_release (env : Vfs σ) (i : Nat) (W : World σ) : Option (World σ) :=
  let f := W.filemap i
  if (f.status = FD_OPENED ∨ f.status = FD_CLOSED) ∧ 0 < fopen_count f then
    let W1 := W.setSlot i (fopen_count_dec f)
    if fopen_count (W1.filemap i) = 0 then filemap_free env i W1 else some W1
  else none

/-- The function `filemap_open` (file.c:91-96). -/
def filemap_open (i : Nat) (W : World σ) : Option (World σ) :=
  let f := W.filemap i
  if f.status = FD_INIT ∧ f.node ≠ 0 then
    some (W.setSlot i (fopen_count_inc { f with status := FD_OPENED }))
  else none

/-- The function `filemap_close` (file.c:98-106). -/
def filemap_close (env : Vfs σ) (i : Nat) (W : World σ) : Option (World σ) :=
  let f := W.filemap i
  if f.status = FD_OPENED ∧ 0 < fopen_count f then
    let W1 := W.setSlot i (fopen_count_dec { f with status := FD_CLOSED })
    if fopen_count (W1.filemap i) = 0 then filemap_free env i W1 else some W1
  else none

/-- The function `filemap_dup` (file.c:108-119). -/
def filemap_dup (env : Vfs σ) (t fr : Nat) (W : World σ) : Option (World σ) :=
  if (W.filemap t).status = FD_INIT ∧ (W.filemap fr).status = FD_OPENED then
    let src := W.filemap fr
    let W1 := W.setSlot t
      { W.filemap t with pos := src.pos, readable := src.readable, writable := src.writable }
    let node := (W1.filemap fr).node
    let W2 : World σ :=
      { ((W1.emit (Event.vop_ref_inc node)).emit (Event.vop_open_inc node)) with
        vfs := env.vop_open_inc node (env.vop_ref_inc node W1.vfs) }
    let W3 := W2.setSlot t { W2.filemap t with node := node }
    filemap_open t W3
  else none

end Slots

/-! ## Descriptor operations -/

section Ops

variable {σ : Type}

/-- A value of type `off_t`: reduction to the two-complement range
`[-OFF_MAX - 1, OFF_MAX]`, which is what the target computes when a sum
overflows `off_t` or is converted to it from a wider or an unsigned type. -/
def wrapOff (c : Config) (x : Int) : Int :=
  (x + (c.OFF_MAX + 1)) % (2 * (c.OFF_MAX + 1)) - (c.OFF_MAX + 1)

/-- The function `fd2file` (file.c:121-131): the return value and the slot
stored in `*file_store`, which stays unset on the failing path. -/
def fd2file (c : Config) (fd : Int) (W : World σ) : Int × Option Nat :=
  if testfd c fd then
    let file := W.filemap fd.toNat
    if file.status = FD_OPENED ∧ file.fd = fd then (0, some fd.toNat)
    else (-c.E_INVAL, none)
  else (-c.E_INVAL, none)

/-- The function `file_testfd` (file.c:133-147). -/
def file_testfd (c : Config) (fd : Int) (readable writable : Bool) (W : World σ) : Bool :=
  if (fd2file c fd W).1 ≠ 0 then false
  else
    match (fd2file c fd W).2 with
    | none => false
    | some i =>
      if readable && !(W.filemap i).readable then false
      else if writable && !(W.filemap i).writable then false
      else true

/-- The end of `file_open` (file.c:185-189): the slot is bound and activated,
and its recorded index is returned. -/
def file_open_finish (file node : Nat) (readable writable : Bool) (W : World σ) :
    Option (Int × World σ) :=
  let W1 := W.setSlot file
    { W.filemap file with node := node, readable := readable, writable := writable }
  (filemap_open file W1).map (fun W2 => ((W2.filemap file).fd, W2))

/-- Replace the collaborator state. -/
def World.withVfs (W : World σ) (v : σ) : World σ := { W with vfs := v }

/-- Replace the table and the collaborator state by what a blocking
collaborator call left. -/
def World.withSys (W : World σ) (S : Sys σ) : World σ := { W with toSys := S }

/-- The `O_APPEND` branch of `file_open` (file.c:176-183) followed by the end
of the function: `vop_fstat` on the node just opened; on failure the node is
closed and the slot freed, otherwise the position is the size reported. -/
def file_open_append (env : Vfs σ) (file node : Nat) (readable writable : Bool)
    (W : World σ) : Option (Int × World σ) :=
  let s := env.vop_fstat node (W.emit (Event.vop_fstat node)).toSys
  let W1 := (W.emit (Event.vop_fstat node)).withSys s.2.2
  if s.1 ≠ 0 then
    let W2 := (W1.emit (Event.vfs_close node)).withVfs (env.vfs_close node W1.vfs)
    (filemap_free env file W2).map (fun W3 => (s.1, W3))
  else
    file_open_finish file node readable writable
      (W1.setSlot file { W1.filemap file with pos := s.2.1.st_size })

/-- The part of `file_open` after the slot `file` was allocated
(file.c:168-189): `vfs_open`, whose failure frees the slot; then the position
is set to 0 and the slot is bound and activated, through `vop_fstat` when
`O_APPEND` is set. -/
def file_open_bind (env : Vfs σ) (c : Config) (path open_flags : Nat)
    (readable writable : Bool) (file : Nat) (W : World σ) : Option (Int × World σ) :=
  let r := env.vfs_open path open_flags W.vfs
  let W1 := (W.emit (Event.vfs_open path open_flags)).withVfs r.2.2
  if r.1 ≠ 0 then (filemap_free env file W1).map (fun W2 => (r.1, W2))
  else
    let W2 := W1.setSlot file { W1.filemap file with pos := 0 }
    if open_flags &&& c.O_APPEND ≠ 0 then
      file_open_append env file r.2.1 readable writable W2
    else file_open_finish file r.2.1 readable writable W2

/-- The part of `file_open` after the `switch` on the access mode
(file.c:162-189), with the `readable` and `writable` that the `switch` set. -/
def file_open_body (env : Vfs σ) (c : Config) (path open_flags : Nat)
    (readable writable : Bool) (W : World σ) : Option (Int × World σ) :=
  (filemap_alloc c c.NO_FD W).bind fun a =>
    if a.1 ≠ 0 then some (a.1, a.2.2)
    else
      match a.2.1 with
      | none => none
      | some file => file_open_bind env c path open_flags readable writable file a.2.2

/-- The function `file_open` (file.c:149-190); `path` is the address of the
path string. -/
def file_open (env : Vfs σ) (c : Config) (path open_flags : Nat) (W : World σ) :
    Option (Int × World σ) :=
  if open_flags &&& c.O_ACCMODE = c.O_RDONLY then
    file_open_body env c path open_flags true false W
  else if open_flags &&& c.O_ACCMODE = c.O_WRONLY then
    file_open_body env c path open_flags false true W
  else if open_flags &&& c.O_ACCMODE = c.O_RDWR then
    file_open_body env c path open_flags true true W
  else some (-c.E_INVAL, W)

/-- The function `file_close` (file.c:192-201).  Reading `file` after a
`fd2file` that returned 0 without storing it is undefined: `none`. -/
def file_close (env : Vfs σ) (c : Config) (fd : Int) (W : World σ) :
    Option (Int × World σ) :=
  if (fd2file c fd W).1 ≠ 0 then some ((fd2file c fd W).1, W)
  else
    match (fd2file c fd W).2 with
    | none => none
    | some i => (filemap_close env i W).map (fun W1 => (0, W1))

/-- The common tail of `file_read` and `file_write` after the transfer
(file.c:219-225, 244-250): the position is advanced only while the slot is
still `FD_OPENED`, then the slot is released.  The statement `file->pos +=
copied` stores a value of `off_t`. -/
def file_rw_finish (env : Vfs σ) (c : Config) (i : Nat) (ret : Int) (copied : Nat)
    (W : World σ) : Option (Int × Nat × World σ) :=
  let W1 :=
    if (W.filemap i).status = FD_OPENED then
      W.setSlot i { W.filemap i with pos := wrapOff c ((W.filemap i).pos + (copied : Int)) }
    else W
  (filemap_release env i W1).map (fun W2 => (ret, copied, W2))

/-- The function `file_read` (file.c:203-226).  The result is the return
value, the final `*copied_store` and the new state. -/
def file_read (env : Vfs σ) (c : Config) (fd : Int) (base len : Nat) (W : World σ) :
    Option (Int × Nat × World σ) :=
  if (fd2file c fd W).1 ≠ 0 then some ((fd2file c fd W).1, 0, W)
  else
    match (fd2file c fd W).2 with
    | none => none
    | some i =>
      if !(W.filemap i).readable then some (-c.E_INVAL, 0, W)
      else
        (filemap_acquire i W).bind fun W1 =>
          let node := (W1.filemap i).node
          let iob : Iobuf := ⟨base, len, (W1.filemap i).pos⟩
          let r := env.vop_read node iob (W1.emit (Event.vop_read node iob)).toSys
          file_rw_finish env c i r.1 r.2.1
            { (W1.emit (Event.vop_read node iob)) with toSys := r.2.2 }

/-- The function `file_write` (file.c:228-251). -/
def file_write (env : Vfs σ) (c : Config) (fd : Int) (base len : Nat) (W : World σ) :
    Option (Int × Nat × World σ) :=
  if (fd2file c fd W).1 ≠ 0 then some ((fd2file c fd W).1, 0, W)
  else
    match (fd2file c fd W).2 with
    | none => none
    | some i =>
      if !(W.filemap i).writable then some (-c.E_INVAL, 0, W)
      else
        (filemap_acquire i W).bind fun W1 =>
          let node := (W1.filemap i).node
          let iob : Iobuf := ⟨base, len, (W1.filemap i).pos⟩
          let r := env.vop_write node iob (W1.emit (Event.vop_write node iob)).toSys
          file_rw_finish env c i r.1 r.2.1
            { (W1.emit (Event.vop_write node iob)) with toSys := r.2.2 }

/-- The `switch (whence)` of `file_seek` (file.c:263-272): the new values of
`ret` and `pos` and the state after the `vop_fstat` that `LSEEK_END` makes.
The two statements `pos += ...` store a value of `off_t`. -/
def file_seek_whence (env : Vfs σ) (c : Config) (i : Nat) (pos whence : Int)
    (W : World σ) : Int × Int × World σ :=
  if whence = c.LSEEK_SET then (0, pos, W)
  else if whence = c.LSEEK_CUR then (0, wrapOff c (pos + (W.filemap i).pos), W)
  else if whence = c.LSEEK_END then
    let node := (W.filemap i).node
    let r := env.vop_fstat node (W.emit (Event.vop_fstat node)).toSys
    let W1 : World σ := { (W.emit (Event.vop_fstat node)) with toSys := r.2.2 }
    if r.1 = 0 then (r.1, wrapOff c (pos + r.2.1.st_size), W1) else (r.1, pos, W1)
  else (-c.E_INVAL, pos, W)

/-- The end of `file_seek` (file.c:274-281): `vop_tryseek` is called only
while `ret` is 0, the position is stored only when it returns 0, and the slot
is released on both paths. -/
def file_seek_commit (env : Vfs σ) (i : Nat) (ret pos : Int) (W : World σ) :
    Option (Int × World σ) :=
  if ret = 0 then
    let node := (W.filemap i).node
    let r := env.vop_tryseek node pos (W.emit (Event.vop_tryseek node pos)).toSys
    let W1 : World σ := { (W.emit (Event.vop_tryseek node pos)) with toSys := r.2 }
    let W2 := if r.1 = 0 then W1.setSlot i { W1.filemap i with pos := pos } else W1
    (filemap_release env i W2).map (fun W3 => (r.1, W3))
  else (filemap_release env i W).map (fun W3 => (ret, W3))

/-- The function `file_seek` (file.c:253-282). -/
def file_seek (env : Vfs σ) (c : Config) (fd : Int) (pos whence : Int) (W : World σ) :
    Option (Int × World σ) :=
  if (fd2file c fd W).1 ≠ 0 then some ((fd2file c fd W).1, W)
  else
    match (fd2file c fd W).2 with
    | none => none
    | some i =>
      (filemap_acquire i W).bind fun W1 =>
        let s := file_seek_whence env c i pos whence W1
        file_seek_commit env i s.1 s.2.1 s.2.2

/-- The function `file_fstat` (file.c:284-295).  The second component is the
content of `*stat` on return. -/
def file_fstat (env : Vfs σ) (c : Config) (fd : Int) (stat : Stat) (W : World σ) :
    Option (Int × Stat × World σ) :=
  if (fd2file c fd W).1 ≠ 0 then some ((fd2file c fd W).1, stat, W)
  else
    match (fd2file c fd W).2 with
    | none => none
    | some i =>
      (filemap_acquire i W).bind fun W1 =>
        let node := (W1.filemap i).node
        let r := env.vop_fstat node (W1.emit (Event.vop_fstat node)).toSys
        (filemap_release env i { (W1.emit (Event.vop_fstat node)) with toSys := r.2.2 }).map
          (fun W2 => (r.1, r.2.1, W2))

/-- The function `file_fsync` (file.c:297-308). -/
def file_fsync (env : Vfs σ) (c : Config) (fd : Int) (W : World σ) :
    Option (Int × World σ) :=
  if (fd2file c fd W).1 ≠ 0 then some ((fd2file c fd W).1, W)
  else
    match (fd2file c fd W).2 with
    | none => none
    | some i =>
      (filemap_acquire i W).bind fun W1 =>
        let node := (W1.filemap i).node
        let r := env.vop_fsync node (W1.emit (Event.vop_fsync node)).toSys
        (filemap_release env i { (W1.emit (Event.vop_fsync node)) with toSys := r.2 }).map
          (fun W2 => (r.1, W2))

/-- The function `file_getdirentry` (file.c:310-325).  The second component
is the content of `*direntp` on return. -/
def file_getdirentry (env : Vfs σ) (c : Config) (fd : Int) (direntp : Dirent)
    (W : World σ) : Option (Int × Dirent × World σ) :=
  if (fd2file c fd W).1 ≠ 0 then some ((fd2file c fd W).1, direntp, W)
  else
    match (fd2file c fd W).2 with
    | none => none
    | some i =>
      (filemap_acquire i W).bind fun W1 =>
        let node := (W1.filemap i).node
        let iob : Iobuf := ⟨direntp.name, direntp.name_size, direntp.offset⟩
        let r := env.vop_getdirentry node iob (W1.emit (Event.vop_getdirentry node iob)).toSys
        let d : Dirent :=
          if r.1 = 0 then
            { direntp with offset := wrapOff c (direntp.offset + (r.2.1 : Int)) }
          else direntp
        (filemap_release env i
            { (W1.emit (Event.vop_getdirentry node iob)) with toSys := r.2.2 }).map
          (fun W2 => (r.1, d, W2))

/-- The function `file_dup` (file.c:327-339). -/
def file_dup (env : Vfs σ) (c : Config) (fd1 fd2 : Int) (W : World σ) :
    Option (Int × World σ) :=
  if (fd2file c fd1 W).1 ≠ 0 then some ((fd2file c fd1 W).1, W)
  else
    match (fd2file c fd1 W).2 with
    | none => none
    | some file1 =>
      (filemap_alloc c fd2 W).bind fun a =>
        if a.1 ≠ 0 then some (a.1, a.2.2)
        else
          match a.2.1 with
          | none => none
          | some file2 =>
            (filemap_dup env file2 file1 a.2.2).map
              (fun W1 => ((W1.filemap file2).fd, W1))

end Ops

/-! ## Pipe buffer -/

section Pipes

variable {σ : Type}

/-- The function `pipealloc` (file.c:342-363).  The page returned by
`alloc_page()` is the argument `pi`; its `data` bytes are left as they are. -/
def pipealloc (f0 f1 pi : Nat) (W : World σ) : Int × World σ :=
  let pg : Pipe :=
    { W.pipes pi with readopen := 1, writeopen := 1, nwrite := 0, nread := 0 }
  let W1 : World σ := { W with pipes := Function.update W.pipes pi pg }
  let W2 := W1.setSlot f0
    { W1.filemap f0 with status := FD_PIPE, readable := true, writable := false, pipe := pi }
  let W3 := W2.setSlot f1
    { W2.filemap f1 with status := FD_PIPE, readable := false, writable := true, pipe := pi }
  (0, W3)

/-- The function `pipeclose` (file.c:365-375): the record after the call and
whether `kfree` was called on it. -/
def pipeclose (p : Pipe) (writable : Int) : Pipe × Bool :=
  let p1 : Pipe := if writable ≠ 0 then { p with writeopen := 0 } else { p with readopen := 0 }
  (p1, decide (p1.readopen = 0 ∧ p1.writeopen = 0))

/-- A value of type `int`: reduction to the 32-bit two-complement range, which
is what the 32-bit target computes on signed overflow and on conversion from a
wider type. -/
def wrap32 (x : Int) : Int := (x + 2147483648) % 4294967296 - 2147483648

/-- Conversion of an integer value to `uint64_t`. -/
def toU64 (x : Int) : Int := x % 18446744073709551616

/-- The macro `MIN` (file.c:14). -/
def MIN (x y : Int) : Int := if x < y then x else y

/-- The statement `x += size` for `int x` and `uint64_t size`: the sum is
formed in `uint64_t` and converted back to `int`. -/
def addSize (x size : Int) : Int := wrap32 (toU64 (toU64 x + size))

/-- The chunk size of `pipewrite` (file.c:392-395), an `int` expression
converted to `uint64_t`. -/
def pipewrite_size (p : Pipe) (n w : Int) : Int :=
  toU64 (MIN (MIN (wrap32 (n - w)) (wrap32 (wrap32 (p.nread + PIPESIZE) - p.nwrite)))
    (wrap32 (PIPESIZE - Int.tmod p.nwrite PIPESIZE)))

/-- The chunk size of `piperead` (file.c:417-418 and 425-428). -/
def piperead_size (p : Pipe) (n r : Int) : Int :=
  toU64 (MIN (MIN (wrap32 (n - r)) (wrap32 (p.nwrite - p.nread)))
    (wrap32 (PIPESIZE - Int.tmod p.nread PIPESIZE)))

/-- Modelled from the spec: `copy_from_user`, which is not in the two source
files; the spec gives `copyIn(addressSpace, userAddress, kernelBuffer,
length)`.  It copies `size` bytes of user memory starting at `uaddr` to
`data[idx ..]`. -/
def copy_from_user (umem : Nat → UInt8) (uaddr : Nat) (data : Nat → UInt8) (idx size : Nat) :
    Nat → UInt8 :=
  fun k => if idx ≤ k ∧ k < idx + size then umem (uaddr + (k - idx)) else data k

/-- Modelled from the spec: `copy_to_user`, which is not in the two source
files; the spec gives `copyOut(addressSpace, kernelBuffer, userAddress,
length)`.  It copies `size` bytes from `data[idx ..]` to user memory starting
at `uaddr`. -/
def copy_to_user (data : Nat → UInt8) (idx : Nat) (umem : Nat → UInt8) (uaddr size : Nat) :
    Nat → UInt8 :=
  fun a => if uaddr ≤ a ∧ a < uaddr + size then data (idx + (a - uaddr)) else umem a

/-- The outcome of one iteration of the loop of `pipewrite`. -/
inductive WIter
  | broken (p : Pipe)
  | full (p : Pipe)
  | copied (p : Pipe) (w : Int)
  | fault

/-- One iteration of the `while` loop of `pipewrite` (file.c:382-400) with
`w < n`: `broken` is the `return -1`, `full` the branch that calls
`do_yield()`, `copied` the branch that copies a chunk, and `fault` a chunk
that does not lie inside `data[0 .. PIPESIZE)`. -/
def pipewrite_iter (p : Pipe) (umem : Nat → UInt8) (addr : Nat) (n w : Int) : WIter :=
  if p.readopen = 0 then WIter.broken p
  else if p.nwrite = wrap32 (p.nread + PIPESIZE) then WIter.full p
  else
    let size := pipewrite_size p n w
    let idx := Int.tmod p.nwrite PIPESIZE
    if 0 ≤ idx ∧ idx + size ≤ PIPESIZE then
      WIter.copied
        { p with
          data := copy_from_user umem (addr + w.toNat) p.data idx.toNat size.toNat
          nwrite := addSize p.nwrite size }
        (addSize w size)
    else WIter.fault

/-- How a call of `pipewrite` or `piperead` ends in a run without any other
thread: it returns, it reaches `do_yield()` (with `done` bytes transferred so
far), or it accesses memory outside `data`. -/
inductive PipeRes
  | ret (v : Int) (p : Pipe) (umem : Nat → UInt8)
  | yielded (done : Int) (p : Pipe) (umem : Nat → UInt8)
  | fault

/-- The value returned by the call, if it returned. -/
def PipeRes.retval : PipeRes → Option Int
  | PipeRes.ret v _ _ => some v
  | _ => none

/-- The pipe record when the call returned or yielded. -/
def PipeRes.pipe : PipeRes → Option Pipe
  | PipeRes.ret _ p _ => some p
  | PipeRes.yielded _ p _ => some p
  | PipeRes.fault => none

/-- The user memory when the call returned or yielded. -/
def PipeRes.umem : PipeRes → Option (Nat → UInt8)
  | PipeRes.ret _ _ m => some m
  | PipeRes.yielded _ _ m => some m
  | PipeRes.fault => none

/-- The `while (w < n)` loop of `pipewrite` (file.c:381-402), started with the
running count `w`; `fuel` bounds the number of iterations (`none` when it runs
out). -/
def pipewrite_loop : Nat → Pipe → (Nat → UInt8) → Nat → Int → Int → Option PipeRes
  | 0, _, _, _, _, _ => none
  | fuel + 1, p, umem, addr, n, w =>
    if w < n then
      match pipewrite_iter p umem addr n w with
      | WIter.broken p1 => some (PipeRes.ret (-1) p1 umem)
      | WIter.full p1 => some (PipeRes.yielded w p1 umem)
      | WIter.copied p1 w1 => pipewrite_loop fuel p1 umem addr n w1
      | WIter.fault => some PipeRes.fault
    else some (PipeRes.ret w p umem)

/-- The function `pipewrite` (file.c:377-403). -/
def pipewrite (fuel : Nat) (p : Pipe) (umem : Nat → UInt8) (addr : Nat) (n : Int) :
    Option PipeRes :=
  pipewrite_loop fuel p umem addr n 0

/-- The outcome of one iteration of the second loop of `piperead`. -/
inductive RIter
  | stop (p : Pipe) (umem : Nat → UInt8)
  | copied (p : Pipe) (umem : Nat → UInt8) (r : Int)
  | fault

/-- One iteration of the second `while` loop of `piperead` (file.c:419-433)
with `r < n`: `stop` is the `break`, `copied` the copy of a chunk, `fault` a
chunk that does not lie inside `data[0 .. PIPESIZE)`. -/
def piperead_iter (p : Pipe) (umem : Nat → UInt8) (addr : Nat) (n r : Int) : RIter :=
  if p.nread = p.nwrite then RIter.stop p umem
  else
    let size := piperead_size p n r
    let idx := Int.tmod p.nread PIPESIZE
    if 0 ≤ idx ∧ idx + size ≤ PIPESIZE then
      RIter.copied
        { p with nread := addSize p.nread size }
        (copy_to_user p.data idx.toNat umem (addr + r.toNat) size.toNat)
        (addSize r size)
    else RIter.fault

/-- The second `while` loop of `piperead` (file.c:419-434); `size` is the
variable declared at file.c:417, which the loop tests and never updates. -/
def piperead_loop : Nat → Int → Pipe → (Nat → UInt8) → Nat → Int → Int → Option PipeRes
  | 0, _, _, _, _, _, _ => none
  | fuel + 1, size, p, umem, addr, n, r =>
    if r < n ∧ size ≠ 0 then
      match piperead_iter p umem addr n r with
      | RIter.stop p1 m1 => some (PipeRes.ret r p1 m1)
      | RIter.copied p1 m1 r1 => piperead_loop fuel size p1 m1 addr n r1
      | RIter.fault => some PipeRes.fault
    else some (PipeRes.ret r p umem)

/-- The function `piperead` (file.c:405-435).  The first loop
(file.c:410-415) either returns -1, calls `do_yield()` or is skipped. -/
def piperead (fuel : Nat) (p : Pipe) (umem : Nat → UInt8) (addr : Nat) (n : Int) :
    Option PipeRes :=
  if p.nread = p.nwrite then
    if p.writeopen ≠ 0 then some (PipeRes.yielded 0 p umem)
    else some (PipeRes.ret (-1) p umem)
  else piperead_loop fuel (piperead_size p n 0) p umem addr n 0

end Pipes

/-! ## Sequences of calls on one slot -/

section SlotRuns

variable {σ : Type}

/-- A call on one fixed slot that is already activated: `filemap_acquire`,
`filemap_release` or `filemap_close`. -/
inductive SlotOp
  | acquire
  | release
  | close
deriving DecidableEq, Repr

/-- The effect of one such call on slot `i`. -/
def SlotOp.step (env : Vfs σ) (i : Nat) : SlotOp → World σ → Option (World σ)
  | SlotOp.acquire, W => filemap_acquire i W
  | SlotOp.release, W => filemap_release env i W
  | SlotOp.close, W => filemap_close env i W

/-- A sequence of calls on slot `i`, run in order; `none` as soon as an assertion
fails. -/
def runSlotOps (env : Vfs σ) (i : Nat) : List SlotOp → World σ → Option (World σ)
  | [], W => some W
  | op :: ops, W => (op.step env i W).bind (runSlotOps env i ops)

/-- What holds of slot `i` after the calls `ops` that followed its activation:
the binding is still `node`, `open_count` counts the owner plus the acquires
minus the releases and the close, and the slot is `FD_OPENED` before the close,
`FD_CLOSED` after it while operations are in flight, and `FD_NONE` (with the one
`vfs_close` in the trace) once the count is 0. -/
def SlotInv (i : Nat) (node : Nat) (log0 : List Event) (ops : List SlotOp) (W : World σ) : Prop :=
  (W.filemap i).node = node ∧
  (W.filemap i).open_count
    = 1 + (ops.count SlotOp.acquire : Int) - ops.count SlotOp.release - ops.count SlotOp.close ∧
  (((W.filemap i).status = FD_OPENED ∧ ops.count SlotOp.close = 0 ∧ 0 < (W.filemap i).open_count
      ∧ W.log = log0) ∨
   ((W.filemap i).status = FD_CLOSED ∧ ops.count SlotOp.close = 1 ∧ 0 < (W.filemap i).open_count
      ∧ W.log = log0) ∨
   ((W.filemap i).status = FD_NONE ∧ ops.count SlotOp.close = 1 ∧ (W.filemap i).open_count = 0
      ∧ W.log = log0 ++ [Event.vfs_close node]))

/-- A sample table: slot 3 is `FD_INIT` and bound to node 7, every other slot
is `FD_NONE`; no collaborator call has been made. -/
def sampleInitWorld : World Unit :=
  { filemap := fun i =>
      ⟨if i = 3 then FD_INIT else FD_NONE, true, true, i, 0, if i = 3 then 7 else 0, 0, 0⟩
    vfs := ()
    log := []
    pipes := fun _ => ⟨fun _ => 0, 0, 0, 0, 0⟩ }

/-- A sample collaborator without state: a transfer moves all the bytes asked
for, the table is left alone, and every call succeeds, except that `vfs_open`
of the null path fails with -16; the node of a path is the path itself. -/
def sampleVfs : Vfs Unit :=
  { vfs_close := fun _ s => s
    vop_ref_inc := fun _ s => s
    vop_open_inc := fun _ s => s
    vop_read := fun _ iob S => (0, iob.io_len, S)
    vop_write := fun _ iob S => (0, iob.io_len, S)
    vop_fstat := fun _ S => (0, ⟨0⟩, S)
    vop_fsync := fun _ S => (0, S)
    vop_tryseek := fun _ _ S => (0, S)
    vop_getdirentry := fun _ _ S => (0, 0, S)
    vfs_open := fun path _ s => if path = 0 then (-16, 0, s) else (0, path, s) }

end SlotRuns

/-! ## Sequences of slot operations on the table -/

section TableRuns

variable {σ : Type}

/-- A call of one of the slot operations of `file.c`.  `setup` stands for the
stores that a caller makes into an allocated slot before activating it
(file.c:174-187: `pos`, `node`, `readable`, `writable`); `activate` is
`filemap_open`, and `pipe` is `pipealloc` on two slots and a fresh page. -/
inductive TableCall
  | alloc (fd : Int)
  | setup (i node : Nat) (pos : Int) (readable writable : Bool)
  | activate (i : Nat)
  | acquire (i : Nat)
  | release (i : Nat)
  | close (i : Nat)
  | dup (t fr : Nat)
  | free (i : Nat)
  | pipe (f0 f1 pi : Nat)
deriving DecidableEq, Repr

/-- The effect of one call on the state; `none` when an assertion fails. -/
def TableCall.step (env : Vfs σ) (c : Config) : TableCall → World σ → Option (World σ)
  | TableCall.alloc fd, W => (filemap_alloc c fd W).map (fun r => r.2.2)
  | TableCall.setup i node pos rd wr, W =>
    some (W.setSlot i { W.filemap i with pos := pos, node := node, readable := rd, writable := wr })
  | TableCall.activate i, W => filemap_open i W
  | TableCall.acquire i, W => filemap_acquire i W
  | TableCall.release i, W => filemap_release env i W
  | TableCall.close i, W => filemap_close env i W
  | TableCall.dup t fr, W => filemap_dup env t fr W
  | TableCall.free i, W => filemap_free env i W
  | TableCall.pipe f0 f1 pi, W => some (pipealloc f0 f1 pi W).2

/-- A sequence of slot operations, run in order; `none` as soon as an
assertion fails. -/
def runCalls (env : Vfs σ) (c : Config) : List TableCall → World σ → Option (World σ)
  | [], W => some W
  | call :: calls, W => (call.step env c W).bind (runCalls env c calls)

/-- The slot invariant: an Empty slot has no reference. -/
def EmptyHasNoRef (f : File) : Prop := f.status = FD_NONE → f.open_count = 0

/-- Sample values for the constants of `Config`. -/
def sampleConfig : Config :=
  { FS_STRUCT_NENTRY := 8
    NO_FD := -38183
    E_INVAL := 3
    E_BUSY := 15
    E_MAX_OPEN := 22
    LSEEK_SET := 0
    LSEEK_CUR := 1
    LSEEK_END := 2
    O_RDONLY := 0
    O_WRONLY := 1
    O_RDWR := 2
    O_ACCMODE := 3
    O_APPEND := 32
    OFF_MAX := 2147483647 }

/-- A sample run from `filemap_init`: a slot is allocated, bound, activated,
used by one operation while it is closed, and two further slots become the
ends of a pipe. -/
def sampleCalls : List TableCall :=
  [TableCall.alloc (-38183), TableCall.setup 0 7 0 true true, TableCall.activate 0,
   TableCall.acquire 0, TableCall.close 0, TableCall.release 0, TableCall.pipe 1 2 5]

end TableRuns

/-! ## Views of the pipe buffer used in the statements -/

section PipeViews

/-- The unread bytes of a pipe, oldest first: `data[(nread + k) % PIPESIZE]`
for `k` below the occupancy `nwrite - nread`. -/
def Pipe.contents (p : Pipe) : List UInt8 :=
  (List.range (p.nwrite - p.nread).toNat).map (fun k => p.data ((p.nread.toNat + k) % 512))

/-- The `len` bytes of user memory that start at `addr`. -/
def ubytes (umem : Nat → UInt8) (addr len : Nat) : List UInt8 :=
  (List.range len).map (fun k => umem (addr + k))

/-- The chunk of a `pipewrite` iteration as a plain integer: the minimum of
the bytes still to write, the free capacity and the room before the physical
end of the buffer. -/
def wchunk (p : Pipe) (n w : Int) : Int :=
  min (min (n - w) (p.nread + 512 - p.nwrite)) (512 - p.nwrite % 512)

/-- The chunk of a `piperead` iteration as a plain integer: the minimum of the
bytes still to read, the occupancy and the room before the physical end of the
buffer. -/
def rchunk (p : Pipe) (n r : Int) : Int :=
  min (min (n - r) (p.nwrite - p.nread)) (512 - p.nread % 512)

end PipeViews

/-! ## Sequences of writes and sample pipes -/

section PipeRuns

/-- One call `pipewrite(pi, addr, n)` together with the user memory it reads. -/
structure WriteReq where
  umem : Nat → UInt8
  addr : Nat
  n : Nat

/-- The byte string that the request asks to write. -/
def WriteReq.bytes (q : WriteReq) : List UInt8 := ubytes q.umem q.addr q.n

/-- Successive calls of `pipewrite` on the same pipe with no other thread in
between: the values they return and the final pipe, or `none` as soon as a call
does not return (it reaches `do_yield()`, faults or runs out of fuel). -/
def pipewrite_all (fuel : Nat) : List WriteReq → Pipe → Option (List Int × Pipe)
  | [], p => some ([], p)
  | q :: qs, p =>
    match pipewrite fuel p q.umem q.addr q.n with
    | some (PipeRes.ret v p1 _) => (pipewrite_all fuel qs p1).map (fun r => (v :: r.1, r.2))
    | _ => none

/-- The pipe record that `pipealloc` leaves in a zeroed page. -/
def freshPipe : Pipe :=
  { data := fun _ => 0, nread := 0, nwrite := 0, readopen := 1, writeopen := 1 }

/-- User memory holding `"ab"` at address 100. -/
def abMem : Nat → UInt8 := fun a => if a = 100 then 97 else if a = 101 then 98 else 0

/-- The pipe of the scenario of the spec after `pipewrite` of `"ab"`. -/
def pipeAfterWrite : Pipe :=
  match pipewrite 8 freshPipe abMem 100 2 with
  | some (PipeRes.ret _ p _) => p
  | _ => freshPipe

/-- The same pipe after `piperead` of 2 bytes to address 200. -/
def pipeAfterRead : Pipe :=
  match piperead 8 pipeAfterWrite abMem 200 2 with
  | some (PipeRes.ret _ p _) => p
  | _ => freshPipe

/-- The same pipe after `pipeclose` of the write end. -/
def pipeAfterClose : Pipe := (pipeclose pipeAfterRead 1).1

/-- An empty pipe whose counters are at the largest `int`. -/
def pipeAtIntMax : Pipe :=
  { data := fun _ => 0, nread := 2147483647, nwrite := 2147483647, readopen := 1,
    writeopen := 1 }

/-- An empty pipe whose counters are negative. -/
def pipeNegative : Pipe :=
  { data := fun _ => 0, nread := -1, nwrite := -1, readopen := 1, writeopen := 1 }

/-- An empty pipe whose counters are two bytes before the physical end of the
buffer. -/
def pipeNearEnd : Pipe :=
  { data := fun _ => 0, nread := 510, nwrite := 510, readopen := 1, writeopen := 1 }

/-- Two writes, of `"ab"` and of `"a"`, which together wrap around the end of
the buffer of `pipeNearEnd`. -/
def wrapReqs : List WriteReq := [⟨abMem, 100, 2⟩, ⟨abMem, 100, 1⟩]

/-- The pipe of a `copied` write iteration, if that is how the iteration ended. -/
def WIter.pipe : WIter → Option Pipe
  | WIter.copied p _ => some p
  | _ => none

/-- Whether the write iteration ended in an access outside `data`. -/
def WIter.isFault : WIter → Bool
  | WIter.fault => true
  | _ => false

end PipeRuns

/-! ## Assumptions on collaborators and sample states for the operations -/

section OpViews

variable {σ : Type}

/-- The collaborator calls made on an acquired slot leave slot `i` of the
table as they found it (no other operation on that slot runs while they
block). -/
def Vfs.keepsSlot (env : Vfs σ) (i : Nat) : Prop :=
  (∀ nd iob S, (env.vop_read nd iob S).2.2.filemap i = S.filemap i) ∧
  (∀ nd iob S, (env.vop_write nd iob S).2.2.filemap i = S.filemap i) ∧
  (∀ nd S, (env.vop_fstat nd S).2.2.filemap i = S.filemap i) ∧
  (∀ nd S, (env.vop_fsync nd S).2.filemap i = S.filemap i) ∧
  (∀ nd pos S, (env.vop_tryseek nd pos S).2.filemap i = S.filemap i) ∧
  (∀ nd iob S, (env.vop_getdirentry nd iob S).2.2.filemap i = S.filemap i)

/-- What `vop_read` returns when `file_read` calls it on slot `i` of `W`: the
slot has been acquired, the call is in the trace, and the transfer is for
`len` bytes at the position that the slot had on entry. -/
def readTransfer (env : Vfs σ) (W : World σ) (i base len : Nat) : Int × Nat × Sys σ :=
  env.vop_read (W.filemap i).node ⟨base, len, (W.filemap i).pos⟩
    ((W.setSlot i (fopen_count_inc (W.filemap i))).emit
      (Event.vop_read (W.filemap i).node ⟨base, len, (W.filemap i).pos⟩)).toSys

/-- What `vop_write` returns when `file_write` calls it on slot `i` of `W`. -/
def writeTransfer (env : Vfs σ) (W : World σ) (i base len : Nat) : Int × Nat × Sys σ :=
  env.vop_write (W.filemap i).node ⟨base, len, (W.filemap i).pos⟩
    ((W.setSlot i (fopen_count_inc (W.filemap i))).emit
      (Event.vop_write (W.filemap i).node ⟨base, len, (W.filemap i).pos⟩)).toSys

/-- What `vop_fstat` returns when `file_seek` calls it for `LSEEK_END` on slot
`i` of `W`. -/
def seekStat (env : Vfs σ) (W : World σ) (i : Nat) : Int × Stat × Sys σ :=
  env.vop_fstat (W.filemap i).node
    ((W.setSlot i (fopen_count_inc (W.filemap i))).emit
      (Event.vop_fstat (W.filemap i).node)).toSys

/-- A sample table: slot 3 is `FD_OPENED` with `open_count` 1, position 0,
readable and writable, bound to node 7; slot 4 is `FD_OPENED` but neither
readable nor writable; every other slot is `FD_NONE`. -/
def sampleOpenWorld : World Unit :=
  { filemap := fun i =>
      ⟨if i = 3 ∨ i = 4 then FD_OPENED else FD_NONE, decide (i = 3), decide (i = 3), i, 0,
        if i = 3 ∨ i = 4 then 7 else 0, 0, if i = 3 ∨ i = 4 then 1 else 0⟩
    vfs := ()
    log := []
    pipes := fun _ => ⟨fun _ => 0, 0, 0, 0, 0⟩ }

end OpViews

/-! ## Repeated allocation and sample tables for `file_open` and `file_dup` -/

section AllocRuns

variable {σ : Type}

/-- Successive calls `filemap_alloc(NO_FD, &file)`: the return value and the
slot stored in `*file_store` of each call, in order, and the final state. -/
def alloc_many (c : Config) : Nat → World σ → Option (List (Int × Option Nat) × World σ)
  | 0, W => some ([], W)
  | k + 1, W =>
    (filemap_alloc c c.NO_FD W).bind fun a =>
      (alloc_many c k a.2.2).map fun r => ((a.1, a.2.1) :: r.1, r.2)

/-- A sample table in which slots 0, 1 and 2 are in use (`FD_OPENED`, bound
to node 9, `open_count` 1, position 40) and every other slot is `FD_NONE`;
each slot records its own index. -/
def sampleBusyWorld : World Unit :=
  { filemap := fun i =>
      ⟨if i < 3 then FD_OPENED else FD_NONE, true, decide (i = 0), i, if i < 3 then 40 else 0,
        if i < 3 then 9 else 0, 0, if i < 3 then 1 else 0⟩
    vfs := ()
    log := []
    pipes := fun _ => ⟨fun _ => 0, 0, 0, 0, 0⟩ }

end AllocRuns
section OpenViews

variable {σ : Type}

/-- What `vop_fstat` returns when it is called on `node` in state `W`. -/
def statAt (env : Vfs σ) (W : World σ) (node : Nat) : Int × Stat × Sys σ :=
  env.vop_fstat node (W.emit (Event.vop_fstat node)).toSys

/-- The state of `file_open` after slot `i` was allocated, `vfs_open` returned
and the position was set to 0 (file.c:174). -/
def afterOpen (env : Vfs σ) (W : World σ) (i path open_flags : Nat) : World σ :=
  World.setSlot
    (((W.setSlot i { W.filemap i with status := FD_INIT, node := 0 }).emit
      (Event.vfs_open path open_flags)).withVfs (env.vfs_open path open_flags W.vfs).2.2)
    i { W.filemap i with status := FD_INIT, node := 0, pos := 0 }

/-- What `vop_fstat` returns to `file_open` under `O_APPEND`. -/
def appendStat (env : Vfs σ) (W : World σ) (i path open_flags : Nat) : Int × Stat × Sys σ :=
  statAt env (afterOpen env W i path open_flags) (env.vfs_open path open_flags W.vfs).2.1

/-- A collaborator like `sampleVfs` whose `vop_fstat` fails with -5. -/
def failingStatVfs : Vfs Unit := { sampleVfs with vop_fstat := fun _ S => (-5, ⟨0⟩, S) }

end OpenViews

section DupViews

/-- A sample table in which every slot is in use (`FD_OPENED`, bound to node
9, `open_count` 1). -/
def sampleFullWorld : World Unit :=
  { filemap := fun i => ⟨FD_OPENED, true, true, i, 0, 9, 0, 1⟩
    vfs := ()
    log := []
    pipes := fun _ => ⟨fun _ => 0, 0, 0, 0, 0⟩ }

end DupViews

section ClosingViews

/-- The table and collaborator state of a blocked call, viewed as a state on
which another thread runs an operation of `file.c`. -/
def worldOf (S : Sys Unit) : World Unit :=
  { toSys := S, log := [], pipes := fun _ => ⟨fun _ => 0, 0, 0, 0, 0⟩ }

/-- A collaborator like `sampleVfs` during whose `vop_read` and `vop_write`
another thread runs `filemap_close` on slot 3. -/
def closingVfs : Vfs Unit :=
  { sampleVfs with
    vop_read := fun _ iob S =>
      match filemap_close sampleVfs 3 (worldOf S) with
      | some Wc => (0, iob.io_len, Wc.toSys)
      | none => (0, iob.io_len, S)
    vop_write := fun _ iob S =>
      match filemap_close sampleVfs 3 (worldOf S) with
      | some Wc => (0, iob.io_len, Wc.toSys)
      | none => (0, iob.io_len, S) }

/-- The state in which the close of the sample scenario runs: slot 3 of
`sampleOpenWorld` acquired by `file_read`. -/
def sampleMidWorld : World Unit :=
  worldOf
    ((sampleOpenWorld.setSlot 3 (fopen_count_inc (sampleOpenWorld.filemap 3))).emit
      (Event.vop_read 7 ⟨0, 5, 0⟩)).toSys

end ClosingViews
section FrameViews

variable {σ : Type}

/-- The frame that an operation leaves on slot `i` when its acquire is
matched by one release that does not finalize: the slot has the `open_count`
it had on entry, it is still `FD_OPENED`, and no `vfs_close` was added to the
trace. -/
def Balanced (W W1 : World σ) (i : Nat) : Prop :=
  (W1.filemap i).open_count = (W.filemap i).open_count ∧
  (W1.filemap i).status = FD_OPENED ∧
  ∀ nd, W1.log.count (Event.vfs_close nd) = W.log.count (Event.vfs_close nd)

end FrameViews

/-! ## Sequences of calls of the operations of `file.c` -/

section CallRuns

variable {σ : Type}

/-- A call of one of the slot operations or of one of the public descriptor
operations of `file.c`. -/
inductive FileCall
  | slot (call : TableCall)
  | file_open (path open_flags : Nat)
  | file_close (fd : Int)
  | file_read (fd : Int) (base len : Nat)
  | file_write (fd : Int) (base len : Nat)
  | file_seek (fd pos whence : Int)
  | file_fstat (fd : Int) (stat : Stat)
  | file_fsync (fd : Int)
  | file_getdirentry (fd : Int) (direntp : Dirent)
  | file_dup (fd1 fd2 : Int)
deriving DecidableEq, Repr

/-- The state that one call leaves; `none` when an assertion fails. -/
def FileCall.step (env : Vfs σ) (c : Config) : FileCall → World σ → Option (World σ)
  | FileCall.slot call, W => call.step env c W
  | FileCall.file_open path open_flags, W =>
    (Ucore.file_open env c path open_flags W).map (fun r => r.2)
  | FileCall.file_close fd, W => (Ucore.file_close env c fd W).map (fun r => r.2)
  | FileCall.file_read fd base len, W =>
    (Ucore.file_read env c fd base len W).map (fun r => r.2.2)
  | FileCall.file_write fd base len, W =>
    (Ucore.file_write env c fd base len W).map (fun r => r.2.2)
  | FileCall.file_seek fd pos whence, W =>
    (Ucore.file_seek env c fd pos whence W).map (fun r => r.2)
  | FileCall.file_fstat fd stat, W => (Ucore.file_fstat env c fd stat W).map (fun r => r.2.2)
  | FileCall.file_fsync fd, W => (Ucore.file_fsync env c fd W).map (fun r => r.2)
  | FileCall.file_getdirentry fd direntp, W =>
    (Ucore.file_getdirentry env c fd direntp W).map (fun r => r.2.2)
  | FileCall.file_dup fd1 fd2, W => (Ucore.file_dup env c fd1 fd2 W).map (fun r => r.2)

/-- A sequence of calls, run in order; `none` as soon as an assertion fails. -/
def runFileCalls (env : Vfs σ) (c : Config) : List FileCall → World σ → Option (World σ)
  | [], W => some W
  | call :: calls, W => (call.step env c W).bind (runFileCalls env c calls)

/-- The collaborator calls that may block leave the recorded index of every
slot as they found it: whatever runs meanwhile is an operation of `file.c`,
none of which stores into `fd`. -/
def Vfs.keepsFd (env : Vfs σ) : Prop :=
  ∀ (j : Nat) (S : Sys σ),
    (∀ nd iob, ((env.vop_read nd iob S).2.2.filemap j).fd = (S.filemap j).fd) ∧
    (∀ nd iob, ((env.vop_write nd iob S).2.2.filemap j).fd = (S.filemap j).fd) ∧
    (∀ nd, ((env.vop_fstat nd S).2.2.filemap j).fd = (S.filemap j).fd) ∧
    (∀ nd, ((env.vop_fsync nd S).2.filemap j).fd = (S.filemap j).fd) ∧
    (∀ nd pos, ((env.vop_tryseek nd pos S).2.filemap j).fd = (S.filemap j).fd) ∧
    (∀ nd iob, ((env.vop_getdirentry nd iob S).2.2.filemap j).fd = (S.filemap j).fd)

/-- A sample run from `filemap_init`: a file is opened, closed, and another
file is opened. -/
def sampleReopen : List FileCall :=
  [FileCall.file_open 7 0, FileCall.file_close 0, FileCall.file_open 9 0]

end CallRuns

/-! ## Status moves -/

section StatusMoves

variable {σ : Type}

/-- One step of a slot's status: an edge of `FD_NONE → FD_INIT → FD_OPENED →
FD_CLOSED → FD_NONE` or of `FD_NONE → FD_INIT → FD_PIPE`. -/
def PathEdge (a b : Status) : Prop :=
  (a = FD_NONE ∧ b = FD_INIT) ∨ (a = FD_INIT ∧ b = FD_OPENED) ∨
  (a = FD_OPENED ∧ b = FD_CLOSED) ∨ (a = FD_CLOSED ∧ b = FD_NONE) ∨
  (a = FD_INIT ∧ b = FD_PIPE)

/-- The steps that the code makes: the edges of `PathEdge` and the step
`FD_INIT → FD_NONE` of `filemap_free` on a slot that was allocated and never
activated. -/
def StatusEdge (a b : Status) : Prop :=
  PathEdge a b ∨ (a = FD_INIT ∧ b = FD_NONE)

/-- The status `b` is `a`, or is one or two consecutive steps of `StatusEdge`
away from `a`. -/
def StatusMove (a b : Status) : Prop :=
  a = b ∨ StatusEdge a b ∨ ∃ m, StatusEdge a m ∧ StatusEdge m b

/-- The collaborator calls that may block leave the status of every slot as
they found it. -/
def Vfs.keepsStatus (env : Vfs σ) : Prop :=
  ∀ (j : Nat) (S : Sys σ),
    (∀ nd iob, ((env.vop_read nd iob S).2.2.filemap j).status = (S.filemap j).status) ∧
    (∀ nd iob, ((env.vop_write nd iob S).2.2.filemap j).status = (S.filemap j).status) ∧
    (∀ nd, ((env.vop_fstat nd S).2.2.filemap j).status = (S.filemap j).status) ∧
    (∀ nd, ((env.vop_fsync nd S).2.filemap j).status = (S.filemap j).status) ∧
    (∀ nd pos, ((env.vop_tryseek nd pos S).2.filemap j).status = (S.filemap j).status) ∧
    (∀ nd iob, ((env.vop_getdirentry nd iob S).2.2.filemap j).status = (S.filemap j).status)

/-- The two slots handed to `pipealloc` are `FD_INIT`, as slots obtained from
`filemap_alloc` are; every other call is unconstrained. -/
def FileCall.onInitSlots : FileCall → World σ → Prop
  | FileCall.slot (TableCall.pipe f0 f1 _), W =>
    (W.filemap f0).status = FD_INIT ∧ (W.filemap f1).status = FD_INIT
  | _, _ => True

/-- No slot has another status in `W1` than in `W`. -/
@[reducible]
def SameStatus (W W1 : World σ) : Prop :=
  ∀ j, (W1.filemap j).status = (W.filemap j).status

/-- Slot `i` has status `a` in `W` and `b` in `W1`, and no other slot has
another status in `W1` than in `W`. -/
@[reducible]
def MovesSlot (W W1 : World σ) (i : Nat) (a b : Status) : Prop :=
  (W.filemap i).status = a ∧ (W1.filemap i).status = b ∧
    ∀ j, j ≠ i → (W1.filemap j).status = (W.filemap j).status

end StatusMoves

/-! ## Long runs of one pipe -/

section WrapRuns

/-- The pipe and the user memory after a call that returned `v`; `none` for
any other outcome. -/
def PipeRes.returned (v : Int) : PipeRes → Option (Pipe × (Nat → UInt8))
  | PipeRes.ret v1 p m => if v1 = v then some (p, m) else none
  | _ => none

/-- One round on a pipe: `pipewrite` of `n` bytes from `waddr`, then
`piperead` of `n` bytes to `raddr`, each returning `n`. -/
def pipeRound (fuel waddr raddr : Nat) (n : Int) (s : Pipe × (Nat → UInt8)) :
    Option (Pipe × (Nat → UInt8)) :=
  ((pipewrite fuel s.1 s.2 waddr n).bind (PipeRes.returned n)).bind fun s1 =>
    (piperead fuel s1.1 s1.2 raddr n).bind (PipeRes.returned n)

/-- The round repeated `k` times. -/
def pipeRounds (fuel waddr raddr : Nat) (n : Int) :
    Nat → Pipe × (Nat → UInt8) → Option (Pipe × (Nat → UInt8))
  | 0, s => some s
  | k + 1, s => (pipeRound fuel waddr raddr n s).bind (pipeRounds fuel waddr raddr n k)

/-- The page that `pipealloc` set up for slots 1 and 2 of the sample table. -/
def samplePagePipe : Pipe := (pipealloc 1 2 5 sampleInitWorld).2.pipes 5

end WrapRuns

/-! ## Properties -/

/-! ### Slot life cycle -/

section SlotProps

variable {σ : Type}

@[simp]
theorem setSlot_filemap_same (W : World σ) (i : Nat) (f : File) :
    (W.setSlot i f).filemap i = f := by
  simp [World.setSlot]

theorem setSlot_filemap_ne (W : World σ) (i j : Nat) (f : File) (h : j ≠ i) :
    (W.setSlot i f).filemap j = W.filemap j := by
  simp [World.setSlot, Function.update, h]

@[simp]
theorem setSlot_log (W : World σ) (i : Nat) (f : File) :
    (W.setSlot i f).log = W.log := rfl

@[simp]
theorem setSlot_vfs (W : World σ) (i : Nat) (f : File) :
    (W.setSlot i f).vfs = W.vfs := rfl

@[simp]
theorem setSlot_pipes (W : World σ) (i : Nat) (f : File) :
    (W.setSlot i f).pipes = W.pipes := rfl

@[simp]
theorem emit_filemap (W : World σ) (e : Event) : (W.emit e).filemap = W.filemap := rfl

@[simp]
theorem emit_log (W : World σ) (e : Event) : (W.emit e).log = W.log ++ [e] := rfl

@[simp]
theorem emit_vfs (W : World σ) (e : Event) : (W.emit e).vfs = W.vfs := rfl

@[simp]
theorem emit_pipes (W : World σ) (e : Event) : (W.emit e).pipes = W.pipes := rfl

theorem runSlotOps_append (env : Vfs σ) (i : Nat) (l1 l2 : List SlotOp) (W : World σ) :
    runSlotOps env i (l1 ++ l2) W = (runSlotOps env i l1 W).bind (runSlotOps env i l2) := by
  induction l1 generalizing W with
  | nil => simp [runSlotOps]
  | cons op l ih =>
    simp only [List.cons_append, runSlotOps]
    cases h : op.step env i W with
    | none => simp
    | some W1 => simp [ih]

theorem SlotInv_step (env : Vfs σ) (i node : Nat) (log0 : List Event) (ops : List SlotOp)
    (op : SlotOp) (W W1 : World σ) (hinv : SlotInv i node log0 ops W)
    (hstep : op.step env i W = some W1) : SlotInv i node log0 (ops ++ [op]) W1 := by
  obtain ⟨hn, hc, hs⟩ := hinv
  cases op with
  | acquire =>
    simp only [SlotOp.step, filemap_acquire] at hstep
    split at hstep
    · rename_i hst
      injection hstep with hstep
      subst hstep
      rcases hs with ⟨_, h0, hpos, hlog⟩ | ⟨h, _⟩ | ⟨h, _⟩
      · refine ⟨by simpa [fopen_count_inc] using hn, ?_, Or.inl ?_⟩
        · simp [fopen_count_inc, hc, List.count_append]; ring
        · simp [fopen_count_inc, hst, List.count_append, h0, hlog]; omega
      · rw [h] at hst; exact absurd hst (by decide)
      · rw [h] at hst; exact absurd hst (by decide)
    · exact absurd hstep (by simp)
  | release =>
    simp only [SlotOp.step, filemap_release, fopen_count] at hstep
    split at hstep
    · rename_i hst
      obtain ⟨hst, hpos⟩ := hst
      rcases hs with ⟨h, h0, _, hlog⟩ | ⟨h, h1, _, hlog⟩ | ⟨h, _⟩
      · split at hstep
        · simp [filemap_free, fopen_count_dec, h] at hstep
        · rename_i hne
          injection hstep with hstep
          subst hstep
          simp only [setSlot_filemap_same, fopen_count_dec] at hne
          refine ⟨by simpa [fopen_count_dec] using hn, ?_, Or.inl ?_⟩
          · simp [fopen_count_dec, hc, List.count_append]; ring
          · simp [fopen_count_dec, h, List.count_append, h0, hlog]; omega
      · split at hstep
        · rename_i heq
          simp only [setSlot_filemap_same, fopen_count_dec] at heq
          simp only [filemap_free, fopen_count, setSlot_filemap_same, fopen_count_dec, h, heq,
            or_true, and_self, if_true, Option.some.injEq] at hstep
          subst hstep
          refine ⟨by simpa using hn, ?_, Or.inr (Or.inr ?_)⟩
          · simp [hc, List.count_append] at heq ⊢; omega
          · simp [List.count_append, h1, hlog, World.emit, hn]
        · rename_i hne
          injection hstep with hstep
          subst hstep
          simp only [setSlot_filemap_same, fopen_count_dec] at hne
          refine ⟨by simpa [fopen_count_dec] using hn, ?_, Or.inr (Or.inl ?_)⟩
          · simp [fopen_count_dec, hc, List.count_append]; ring
          · simp [fopen_count_dec, h, List.count_append, h1, hlog]; omega
      · rw [h] at hst; simp at hst
    · exact absurd hstep (by simp)
  | close =>
    simp only [SlotOp.step, filemap_close, fopen_count] at hstep
    split at hstep
    · rename_i hst
      obtain ⟨hst, hpos⟩ := hst
      rcases hs with ⟨h, h0, _, hlog⟩ | ⟨h, _⟩ | ⟨h, _⟩
      · split at hstep
        · rename_i heq
          simp only [setSlot_filemap_same, fopen_count_dec] at heq
          simp only [filemap_free, fopen_count, setSlot_filemap_same, fopen_count_dec, heq,
            or_true, and_self, if_true, Option.some.injEq] at hstep
          subst hstep
          refine ⟨by simpa using hn, ?_, Or.inr (Or.inr ?_)⟩
          · simp [hc, List.count_append] at heq ⊢; omega
          · simp [List.count_append, h0, hlog, World.emit, hn]
        · rename_i hne
          injection hstep with hstep
          subst hstep
          simp only [setSlot_filemap_same, fopen_count_dec] at hne
          refine ⟨by simpa [fopen_count_dec] using hn, ?_, Or.inr (Or.inl ?_)⟩
          · simp [fopen_count_dec, hc, List.count_append]; ring
          · simp [fopen_count_dec, List.count_append, h0, hlog]; omega
      · rw [h] at hst; simp at hst
      · rw [h] at hst; simp at hst
    · exact absurd hstep (by simp)

theorem SlotInv_open (i : Nat) (W0 W1 : World σ) (hcnt : (W0.filemap i).open_count = 0)
    (hopen : filemap_open i W0 = some W1) :
    SlotInv i (W0.filemap i).node W0.log [] W1 := by
  simp only [filemap_open] at hopen
  split at hopen
  · injection hopen with hopen
    subst hopen
    refine ⟨by simp [fopen_count_inc], by simp [fopen_count_inc, hcnt], Or.inl ?_⟩
    simp [fopen_count_inc, hcnt]
  · exact absurd hopen (by simp)

theorem SlotInv_run (env : Vfs σ) (i node : Nat) (log0 : List Event) (W1 : World σ)
    (h1 : SlotInv i node log0 [] W1) (ops : List SlotOp) :
    ∀ W, runSlotOps env i ops W1 = some W → SlotInv i node log0 ops W := by
  induction ops using List.reverseRecOn with
  | nil =>
    intro W h
    simp only [runSlotOps, Option.some.injEq] at h
    subst h
    exact h1
  | append_singleton l op ih =>
    intro W h
    rw [runSlotOps_append] at h
    cases hl : runSlotOps env i l W1 with
    | none => simp [hl] at h
    | some Wl =>
      simp only [hl, Option.some_bind, runSlotOps] at h
      cases hs : op.step env i Wl with
      | none => simp [hs] at h
      | some Ws =>
        simp only [hs, Option.some_bind, Option.some.injEq] at h
        subst h
        exact SlotInv_step env i node log0 l op Wl Ws (ih Wl hl) hs

theorem SlotOp_step_none_of_empty (env : Vfs σ) (i : Nat) (W : World σ)
    (h : (W.filemap i).status = FD_NONE) (op : SlotOp) : op.step env i W = none := by
  cases op <;> simp [SlotOp.step, filemap_acquire, filemap_release, filemap_close, h]

/-- C1: a slot activated by `filemap_open` (with the `open_count` of 0 that
`filemap_alloc` asserts) and then driven by any sequence of `filemap_acquire`,
`filemap_release` and `filemap_close` calls in which no assertion fails is, at
every point `pre` of the sequence, Empty exactly when `filemap_close` has been
called and `open_count` is 0; `open_count` is 1 plus the acquires minus the
releases and the close, so at that point no acquire is unreleased; `vfs_close`
on the slot's node has been called exactly once when the slot is Empty and not
at all before; and once the slot is Empty no further call passes its
assertions. -/
theorem filemap_finalize_once (env : Vfs σ) (i : Nat) (W0 W1 : World σ) (ops : List SlotOp)
    (hcnt : (W0.filemap i).open_count = 0)
    (hopen : filemap_open i W0 = some W1)
    (hrun : (runSlotOps env i ops W1).isSome) :
    ∀ pre post, ops = pre ++ post →
      ∃ Wp, runSlotOps env i pre W1 = some Wp ∧
        ((Wp.filemap i).status = FD_NONE ↔
          (SlotOp.close ∈ pre ∧ (Wp.filemap i).open_count = 0)) ∧
        (Wp.filemap i).open_count
          = 1 + (pre.count SlotOp.acquire : Int) - pre.count SlotOp.release
              - pre.count SlotOp.close ∧
        ((Wp.filemap i).status = FD_NONE →
          pre.count SlotOp.acquire = pre.count SlotOp.release) ∧
        (Wp.log = W0.log ++
          if (Wp.filemap i).status = FD_NONE then [Event.vfs_close (W0.filemap i).node]
          else []) ∧
        ((Wp.filemap i).status = FD_NONE → ∀ op : SlotOp, op.step env i Wp = none) := by
  intro pre post hsplit
  subst hsplit
  rw [runSlotOps_append] at hrun
  cases hp : runSlotOps env i pre W1 with
  | none => simp [hp] at hrun
  | some Wp =>
    have hinv := SlotInv_run env i _ _ W1 (SlotInv_open i W0 W1 hcnt hopen) pre Wp hp
    obtain ⟨_, hc, hs⟩ := hinv
    refine ⟨Wp, rfl, ?_, hc, ?_, ?_, fun h op => SlotOp_step_none_of_empty env i Wp h op⟩
    · rcases hs with ⟨h, h0, hpos, _⟩ | ⟨h, h1, hpos, _⟩ | ⟨h, h1, hz, _⟩
      · rw [h]
        exact ⟨fun hh => absurd hh (by decide),
          fun hh => absurd (List.count_pos_iff.mpr hh.1) (by omega)⟩
      · rw [h]
        exact ⟨fun hh => absurd hh (by decide), fun hh => absurd hh.2 (by omega)⟩
      · exact ⟨fun _ => ⟨List.count_pos_iff.mp (by omega), hz⟩, fun _ => h⟩
    · intro hnone
      rcases hs with ⟨h, _⟩ | ⟨h, _⟩ | ⟨_, h1, hz, _⟩
      · rw [h] at hnone; exact absurd hnone (by decide)
      · rw [h] at hnone; exact absurd hnone (by decide)
      · rw [hz, h1] at hc
        omega
    · rcases hs with ⟨h, _, _, hl⟩ | ⟨h, _, _, hl⟩ | ⟨h, _, _, hl⟩
      · simp [h, hl]
      · simp [h, hl]
      · simp [h, hl]

/-- An instance of C1 on the sample table: slot 3 is activated, acquired once,
closed and released; the release finalizes it and the trace holds the one
`vfs_close` of node 7. -/
theorem filemap_finalize_once_witness :
    ∃ Wp, runSlotOps sampleVfs 3 [SlotOp.acquire, SlotOp.close, SlotOp.release]
        (sampleInitWorld.setSlot 3 (fopen_count_inc { sampleInitWorld.filemap 3 with status := FD_OPENED })) = some Wp ∧
      (Wp.filemap 3).status = FD_NONE ∧ Wp.log = [Event.vfs_close 7] := by
  obtain ⟨Wp, h1, h2, h3, _, h4, _⟩ :=
    filemap_finalize_once sampleVfs 3 sampleInitWorld _ [SlotOp.acquire, SlotOp.close, SlotOp.release]
      (by decide) (by rfl) (by decide) [SlotOp.acquire, SlotOp.close, SlotOp.release] [] (by simp)
  have hst : (Wp.filemap 3).status = FD_NONE := h2.mpr ⟨by simp, by simpa using h3⟩
  exact ⟨Wp, h1, hst, by simpa [hst, sampleInitWorld] using h4⟩

end SlotProps

/-! ### Table invariant -/

section TableProps

variable {σ : Type}

theorem filemap_free_inv (env : Vfs σ) (i : Nat) (W W1 : World σ)
    (h : filemap_free env i W = some W1) (j : Nat) (hj : EmptyHasNoRef (W.filemap j)) :
    EmptyHasNoRef (W1.filemap j) := by
  simp only [filemap_free, fopen_count] at h
  split at h
  · rename_i hc
    injection h with h
    subst h
    by_cases hji : j = i
    · subst hji
      intro _
      split <;> simpa using hc.2
    · rw [setSlot_filemap_ne _ _ _ _ hji]
      split <;> simpa using hj
  · exact absurd h (by simp)

theorem filemap_alloc_found_inv (i : Nat) (W : World σ) (r : Int × Option Nat × World σ)
    (h : filemap_alloc_found W i = some r) (j : Nat) (hj : EmptyHasNoRef (W.filemap j)) :
    EmptyHasNoRef (r.2.2.filemap j) := by
  simp only [filemap_alloc_found] at h
  split at h
  · injection h with h
    subst h
    by_cases hji : j = i
    · subst hji
      intro hs
      simp at hs
    · simpa [setSlot_filemap_ne _ _ _ _ hji] using hj
  · exact absurd h (by simp)

theorem filemap_alloc_inv (c : Config) (fd : Int) (W : World σ) (r : Int × Option Nat × World σ)
    (h : filemap_alloc c fd W = some r) (j : Nat) (hj : EmptyHasNoRef (W.filemap j)) :
    EmptyHasNoRef (r.2.2.filemap j) := by
  simp only [filemap_alloc] at h
  split at h
  · split at h
    · exact filemap_alloc_found_inv _ W r h j hj
    · injection h with h
      subst h
      exact hj
  · split at h
    · split at h
      · exact filemap_alloc_found_inv _ W r h j hj
      · injection h with h
        subst h
        exact hj
    · injection h with h
      subst h
      exact hj

theorem filemap_open_inv (i : Nat) (W W1 : World σ)
    (h : filemap_open i W = some W1) (j : Nat) (hj : EmptyHasNoRef (W.filemap j)) :
    EmptyHasNoRef (W1.filemap j) := by
  simp only [filemap_open] at h
  split at h
  · injection h with h
    subst h
    by_cases hji : j = i
    · subst hji
      intro hs
      simp [fopen_count_inc] at hs
    · simpa [setSlot_filemap_ne _ _ _ _ hji] using hj
  · exact absurd h (by simp)

theorem filemap_acquire_inv (i : Nat) (W W1 : World σ)
    (h : filemap_acquire i W = some W1) (j : Nat) (hj : EmptyHasNoRef (W.filemap j)) :
    EmptyHasNoRef (W1.filemap j) := by
  simp only [filemap_acquire] at h
  split at h
  · rename_i hst
    injection h with h
    subst h
    by_cases hji : j = i
    · subst hji
      intro hs
      simp [fopen_count_inc, hst] at hs
    · simpa [setSlot_filemap_ne _ _ _ _ hji] using hj
  · exact absurd h (by simp)

theorem setSlot_inv (i : Nat) (W : World σ) (f : File) (hf : f.status ≠ FD_NONE) (j : Nat)
    (hj : EmptyHasNoRef (W.filemap j)) : EmptyHasNoRef ((W.setSlot i f).filemap j) := by
  by_cases hji : j = i
  · subst hji
    intro hs
    simp at hs
    exact absurd hs hf
  · simpa [setSlot_filemap_ne _ _ _ _ hji] using hj

theorem filemap_release_inv (env : Vfs σ) (i : Nat) (W W1 : World σ)
    (h : filemap_release env i W = some W1) (j : Nat) (hj : EmptyHasNoRef (W.filemap j)) :
    EmptyHasNoRef (W1.filemap j) := by
  simp only [filemap_release] at h
  split at h
  · rename_i hc
    have hne : (fopen_count_dec (W.filemap i)).status ≠ FD_NONE := by
      rcases hc.1 with h1 | h1 <;> simp [fopen_count_dec, h1]
    split at h
    · exact filemap_free_inv env i _ W1 h j (setSlot_inv i W _ hne j hj)
    · injection h with h
      subst h
      exact setSlot_inv i W _ hne j hj
  · exact absurd h (by simp)

theorem filemap_close_inv (env : Vfs σ) (i : Nat) (W W1 : World σ)
    (h : filemap_close env i W = some W1) (j : Nat) (hj : EmptyHasNoRef (W.filemap j)) :
    EmptyHasNoRef (W1.filemap j) := by
  simp only [filemap_close] at h
  split at h
  · have hne : (fopen_count_dec { W.filemap i with status := FD_CLOSED }).status ≠ FD_NONE := by
      simp [fopen_count_dec]
    split at h
    · exact filemap_free_inv env i _ W1 h j (setSlot_inv i W _ hne j hj)
    · injection h with h
      subst h
      exact setSlot_inv i W _ hne j hj
  · exact absurd h (by simp)

theorem filemap_dup_inv (env : Vfs σ) (t fr : Nat) (W W1 : World σ)
    (h : filemap_dup env t fr W = some W1) (j : Nat) (hj : EmptyHasNoRef (W.filemap j)) :
    EmptyHasNoRef (W1.filemap j) := by
  simp only [filemap_dup] at h
  split at h
  · rename_i hc
    refine filemap_open_inv t _ W1 h j ?_
    by_cases hjt : j = t
    · subst hjt
      intro hs
      simp [hc.1] at hs
    · simpa [setSlot_filemap_ne _ _ _ _ hjt] using hj
  · exact absurd h (by simp)

theorem pipealloc_inv (f0 f1 pi : Nat) (W : World σ) (j : Nat)
    (hj : EmptyHasNoRef (W.filemap j)) : EmptyHasNoRef ((pipealloc f0 f1 pi W).2.filemap j) := by
  simp only [pipealloc]
  refine setSlot_inv f1 _ _ (by simp) j (setSlot_inv f0 _ _ (by simp) j ?_)
  exact hj

theorem TableCall_step_inv (env : Vfs σ) (c : Config) (call : TableCall) (W W1 : World σ)
    (h : call.step env c W = some W1) (j : Nat) (hj : EmptyHasNoRef (W.filemap j)) :
    EmptyHasNoRef (W1.filemap j) := by
  cases call with
  | alloc fd =>
    simp only [TableCall.step, Option.map_eq_some'] at h
    obtain ⟨r, hr, hW⟩ := h
    subst hW
    exact filemap_alloc_inv c fd W r hr j hj
  | setup i node pos rd wr =>
    simp only [TableCall.step, Option.some.injEq] at h
    subst h
    by_cases hji : j = i
    · subst hji
      intro hs
      simp at hs
      simpa using hj hs
    · simpa [setSlot_filemap_ne _ _ _ _ hji] using hj
  | activate i => exact filemap_open_inv i W W1 h j hj
  | acquire i => exact filemap_acquire_inv i W W1 h j hj
  | release i => exact filemap_release_inv env i W W1 h j hj
  | close i => exact filemap_close_inv env i W W1 h j hj
  | dup t fr => exact filemap_dup_inv env t fr W W1 h j hj
  | free i => exact filemap_free_inv env i W W1 h j hj
  | pipe f0 f1 pi =>
    simp only [TableCall.step, Option.some.injEq] at h
    subst h
    exact pipealloc_inv f0 f1 pi W j hj

theorem runCalls_inv (env : Vfs σ) (c : Config) (calls : List TableCall) (j : Nat) :
    ∀ W W1 : World σ, runCalls env c calls W = some W1 → EmptyHasNoRef (W.filemap j) →
      EmptyHasNoRef (W1.filemap j) := by
  induction calls with
  | nil =>
    intro W W1 h hj
    simp only [runCalls, Option.some.injEq] at h
    subst h
    exact hj
  | cons call calls ih =>
    intro W W1 h hj
    simp only [runCalls] at h
    cases hs : call.step env c W with
    | none => simp [hs] at h
    | some W2 =>
      simp only [hs, Option.some_bind] at h
      exact ih W2 W1 h (TableCall_step_inv env c call W W2 hs j hj)

/-- C2: in every table reached from `filemap_init` by any sequence of slot
operations (`filemap_alloc`, the caller's binding stores, `filemap_open`,
`filemap_acquire`, `filemap_release`, `filemap_close`, `filemap_dup`,
`filemap_free`, `pipealloc`) in which no assertion fails, every slot of the
table has one of the five enumerated statuses, and every slot whose status is
`FD_NONE` has `open_count` 0. -/
theorem filemap_empty_has_no_ref (env : Vfs σ) (c : Config) (calls : List TableCall)
    (W0 W : World σ)
    (hrun : runCalls env c calls { W0 with filemap := filemap_init c W0.filemap } = some W)
    (i : Nat) (hi : i < c.FS_STRUCT_NENTRY) :
    (W.filemap i).status ∈ [FD_NONE, FD_INIT, FD_OPENED, FD_CLOSED, FD_PIPE] ∧
      ((W.filemap i).status = FD_NONE → (W.filemap i).open_count = 0) := by
  constructor
  · cases (W.filemap i).status <;> simp
  · refine runCalls_inv env c calls i _ W hrun ?_
    intro _
    simp [filemap_init, hi]

/-- An instance of C2: after the sample run from `filemap_init`, slot 0 is
Empty again and its `open_count` is 0. -/
theorem filemap_empty_has_no_ref_witness :
    ∃ W : World Unit,
      runCalls sampleVfs sampleConfig sampleCalls
          { sampleInitWorld with
            filemap := filemap_init sampleConfig sampleInitWorld.filemap } = some W ∧
        (W.filemap 0).status = FD_NONE ∧ (W.filemap 0).open_count = 0 :=
  have hsome : (runCalls sampleVfs sampleConfig sampleCalls
      { sampleInitWorld with
        filemap := filemap_init sampleConfig sampleInitWorld.filemap }).isSome = true := by
    decide
  have hst : (((runCalls sampleVfs sampleConfig sampleCalls
      { sampleInitWorld with
        filemap := filemap_init sampleConfig sampleInitWorld.filemap }).get hsome).filemap
        0).status = FD_NONE := rfl
  ⟨_, (Option.some_get hsome).symm, hst,
    (filemap_empty_has_no_ref sampleVfs sampleConfig sampleCalls sampleInitWorld _
      (Option.some_get hsome).symm 0 (by decide)).2 hst⟩

end TableProps

/-! ### Pipe buffer -/

section PipeProps

theorem wrap32_eq (x : Int) (h1 : -2147483648 ≤ x) (h2 : x < 2147483648) : wrap32 x = x := by
  unfold wrap32; omega

theorem toU64_eq (x : Int) (h1 : 0 ≤ x) (h2 : x < 18446744073709551616) : toU64 x = x := by
  unfold toU64; omega

theorem addSize_eq (x s : Int) (hx : 0 ≤ x) (hs : 0 ≤ s) (h : x + s < 2147483648) :
    addSize x s = x + s := by
  unfold addSize
  rw [toU64_eq x hx (by omega), toU64_eq (x + s) (by omega) (by omega),
    wrap32_eq (x + s) (by omega) h]

theorem tmod_PIPESIZE (x : Int) (h : 0 ≤ x) : Int.tmod x PIPESIZE = x % 512 := by
  unfold PIPESIZE
  exact Int.tmod_eq_emod h (by decide)

theorem MIN_eq_min (x y : Int) : MIN x y = min x y := by
  unfold MIN
  split <;> omega

theorem pipewrite_size_eq (p : Pipe) (n w : Int) (h0 : 0 ≤ p.nread) (h1 : p.nread ≤ p.nwrite)
    (h2 : p.nwrite ≤ p.nread + 512) (h3 : p.nread + 512 ≤ 2147483647)
    (hw0 : 0 ≤ w) (hwn : w ≤ n) (hn : n ≤ 2147483647) :
    pipewrite_size p n w = wchunk p n w := by
  unfold pipewrite_size wchunk
  rw [tmod_PIPESIZE _ (by omega), MIN_eq_min, MIN_eq_min]
  unfold PIPESIZE
  rw [wrap32_eq (n - w) (by omega) (by omega), wrap32_eq (p.nread + 512) (by omega) (by omega),
    wrap32_eq (p.nread + 512 - p.nwrite) (by omega) (by omega),
    wrap32_eq (512 - p.nwrite % 512) (by omega) (by omega)]
  exact toU64_eq _ (by omega) (by omega)

theorem piperead_size_eq (p : Pipe) (n r : Int) (h0 : 0 ≤ p.nread) (h1 : p.nread ≤ p.nwrite)
    (h2 : p.nwrite ≤ 2147483647)
    (hr0 : 0 ≤ r) (hrn : r ≤ n) (hn : n ≤ 2147483647) :
    piperead_size p n r = rchunk p n r := by
  unfold piperead_size rchunk
  rw [tmod_PIPESIZE _ (by omega), MIN_eq_min, MIN_eq_min]
  unfold PIPESIZE
  rw [wrap32_eq (n - r) (by omega) (by omega),
    wrap32_eq (p.nwrite - p.nread) (by omega) (by omega),
    wrap32_eq (512 - p.nread % 512) (by omega) (by omega)]
  exact toU64_eq _ (by omega) (by omega)

theorem pipewrite_iter_copied (p : Pipe) (umem : Nat → UInt8) (addr : Nat) (n w : Int)
    (hro : p.readopen ≠ 0)
    (h0 : 0 ≤ p.nread) (h1 : p.nread ≤ p.nwrite)
    (h2 : p.nwrite < p.nread + 512) (h3 : p.nread + 512 ≤ 2147483647)
    (hw0 : 0 ≤ w) (hwn : w < n) (hn : n ≤ 2147483647) :
    pipewrite_iter p umem addr n w =
      WIter.copied
        { p with
          data := copy_from_user umem (addr + w.toNat) p.data (p.nwrite % 512).toNat
            (wchunk p n w).toNat
          nwrite := p.nwrite + wchunk p n w }
        (w + wchunk p n w) := by
  have hs := pipewrite_size_eq p n w h0 h1 (by omega) h3 hw0 (by omega) hn
  have hc : 1 ≤ wchunk p n w ∧ wchunk p n w ≤ n - w ∧ wchunk p n w ≤ p.nread + 512 - p.nwrite ∧
      p.nwrite % 512 + wchunk p n w ≤ 512 := by
    unfold wchunk; omega
  unfold pipewrite_iter
  rw [if_neg hro, if_neg (by unfold PIPESIZE; rw [wrap32_eq _ (by omega) (by omega)]; omega)]
  simp only [hs, tmod_PIPESIZE _ (le_trans h0 h1)]
  rw [if_pos (by unfold PIPESIZE; omega), addSize_eq _ _ (by omega) (by omega) (by omega),
    addSize_eq _ _ hw0 (by omega) (by omega)]

theorem copy_in_old (data umem : Nat → UInt8) (ua R Wn S k : Nat) (hk : k < Wn - R)
    (h2 : Wn + S ≤ R + 512) :
    copy_from_user umem ua data (Wn % 512) S ((R + k) % 512) = data ((R + k) % 512) := by
  unfold copy_from_user
  rw [if_neg]
  omega

theorem copy_in_new (data umem : Nat → UInt8) (ua R Wn S j : Nat) (hR : R ≤ Wn) (hj : j < S)
    (h3 : Wn % 512 + S ≤ 512) :
    copy_from_user umem ua data (Wn % 512) S ((R + (Wn - R + j)) % 512) = umem (ua + j) := by
  unfold copy_from_user
  have e : (R + (Wn - R + j)) % 512 = Wn % 512 + j := by omega
  rw [e, if_pos (by omega)]
  congr 1
  omega

theorem contents_write (p : Pipe) (umem : Nat → UInt8) (ua : Nat) (s : Int)
    (h0 : 0 ≤ p.nread) (h1 : p.nread ≤ p.nwrite) (hs0 : 0 ≤ s)
    (hs : s ≤ p.nread + 512 - p.nwrite) (hl : p.nwrite % 512 + s ≤ 512) :
    Pipe.contents
      { p with
        data := copy_from_user umem ua p.data (p.nwrite % 512).toNat s.toNat
        nwrite := p.nwrite + s }
      = p.contents ++ ubytes umem ua s.toNat := by
  unfold Pipe.contents ubytes
  have e1 : (p.nwrite + s - p.nread).toNat = (p.nwrite - p.nread).toNat + s.toNat := by omega
  have e2 : (p.nwrite % 512).toNat = p.nwrite.toNat % 512 := by omega
  have e3 : (p.nwrite - p.nread).toNat = p.nwrite.toNat - p.nread.toNat := by omega
  simp only [e1, e2, e3, List.range_add, List.map_append, List.map_map]
  congr 1
  · apply List.map_congr_left
    intro k hk
    rw [List.mem_range] at hk
    exact copy_in_old p.data umem ua _ _ _ k hk (by omega)
  · apply List.map_congr_left
    intro j hj
    rw [List.mem_range] at hj
    simp only [Function.comp]
    exact copy_in_new p.data umem ua _ _ _ j (by omega) hj (by omega)
theorem ubytes_add (umem : Nat → UInt8) (a x y : Nat) :
    ubytes umem a (x + y) = ubytes umem a x ++ ubytes umem (a + x) y := by
  unfold ubytes
  simp only [List.range_add, List.map_append, List.map_map]
  congr 1
  apply List.map_congr_left
  intro j _
  simp [Function.comp, Nat.add_assoc]

theorem wchunk_bounds (p : Pipe) (n w : Int) (h1 : p.nread ≤ p.nwrite)
    (h2 : p.nwrite < p.nread + 512) (hwn : w < n) :
    1 ≤ wchunk p n w ∧ wchunk p n w ≤ n - w ∧ wchunk p n w ≤ p.nread + 512 - p.nwrite ∧
      p.nwrite % 512 + wchunk p n w ≤ 512 := by
  unfold wchunk; omega

theorem pipewrite_loop_spec (umem : Nat → UInt8) (addr : Nat) (n : Int) (hn : n ≤ 2147483647) :
    ∀ (fuel : Nat) (p : Pipe) (w : Int), p.readopen ≠ 0 → 0 ≤ p.nread → p.nread ≤ p.nwrite →
      p.nread + 512 ≤ 2147483647 → 0 ≤ w → w ≤ n → n - w ≤ p.nread + 512 - p.nwrite →
      (n - w).toNat < fuel →
      ∃ q : Pipe, pipewrite_loop fuel p umem addr n w = some (PipeRes.ret n q umem) ∧
        q.nread = p.nread ∧ q.nwrite = p.nwrite + (n - w) ∧ q.readopen = p.readopen ∧
        q.writeopen = p.writeopen ∧
        q.contents = p.contents ++ ubytes umem (addr + w.toNat) (n - w).toNat := by
  intro fuel
  induction fuel with
  | zero => intro p w _ _ _ _ _ _ _ hf; omega
  | succ fuel ih =>
    intro p w hro h0 h1 h3 hw0 hwn hfree hf
    unfold pipewrite_loop
    by_cases hlt : w < n
    · rw [if_pos hlt, pipewrite_iter_copied p umem addr n w hro h0 h1 (by omega) h3 hw0 hlt hn]
      obtain ⟨hc1, hc2, hc3, hc4⟩ := wchunk_bounds p n w h1 (by omega) hlt
      obtain ⟨q, hq, hq1, hq2, hq3, hq4, hq5⟩ :=
        ih { p with
            data := copy_from_user umem (addr + w.toNat) p.data (p.nwrite % 512).toNat
              (wchunk p n w).toNat
            nwrite := p.nwrite + wchunk p n w } (w + wchunk p n w) hro h0
          (by simp only; omega) h3 (by omega) (by omega) (by simp only; omega) (by omega)
      refine ⟨q, hq, hq1, by simp only [hq2]; omega, hq3, hq4, ?_⟩
      rw [hq5, contents_write p umem _ _ h0 h1 (by omega) hc3 hc4, List.append_assoc]
      congr 1
      have e : (n - w).toNat = (wchunk p n w).toNat + (n - (w + wchunk p n w)).toNat := by omega
      have e2 : addr + (w + wchunk p n w).toNat = addr + w.toNat + (wchunk p n w).toNat := by
        omega
      rw [e, ubytes_add, e2]
    · have e : w = n := by omega
      subst e
      rw [if_neg hlt]
      exact ⟨p, rfl, rfl, by omega, rfl, rfl, by simp [ubytes]⟩

theorem piperead_iter_copied (p : Pipe) (umem : Nat → UInt8) (addr : Nat) (n r : Int)
    (h0 : 0 ≤ p.nread) (h1 : p.nread < p.nwrite) (h2 : p.nwrite ≤ 2147483647)
    (hr0 : 0 ≤ r) (hrn : r < n) (hn : n ≤ 2147483647) :
    piperead_iter p umem addr n r =
      RIter.copied { p with nread := p.nread + rchunk p n r }
        (copy_to_user p.data (p.nread % 512).toNat umem (addr + r.toNat) (rchunk p n r).toNat)
        (r + rchunk p n r) := by
  have hs := piperead_size_eq p n r h0 (by omega) h2 hr0 (by omega) hn
  have hc : 1 ≤ rchunk p n r ∧ rchunk p n r ≤ n - r ∧ rchunk p n r ≤ p.nwrite - p.nread ∧
      p.nread % 512 + rchunk p n r ≤ 512 := by
    unfold rchunk; omega
  unfold piperead_iter
  rw [if_neg (by omega)]
  simp only [hs, tmod_PIPESIZE _ h0]
  rw [if_pos (by unfold PIPESIZE; omega), addSize_eq _ _ h0 (by omega) (by omega),
    addSize_eq _ _ hr0 (by omega) (by omega)]

theorem rchunk_bounds (p : Pipe) (n r : Int) (h1 : p.nread < p.nwrite) (hrn : r < n) :
    1 ≤ rchunk p n r ∧ rchunk p n r ≤ n - r ∧ rchunk p n r ≤ p.nwrite - p.nread ∧
      p.nread % 512 + rchunk p n r ≤ 512 := by
  unfold rchunk; omega

theorem copy_to_user_outside (data umem : Nat → UInt8) (idx ua S a : Nat)
    (h : a < ua ∨ ua + S ≤ a) : copy_to_user data idx umem ua S a = umem a := by
  unfold copy_to_user
  rw [if_neg (by omega)]

theorem copy_to_user_inside (data umem : Nat → UInt8) (idx ua S j : Nat) (h : j < S) :
    copy_to_user data idx umem ua S (ua + j) = data (idx + j) := by
  unfold copy_to_user
  rw [if_pos (by omega)]
  congr 1
  omega

theorem ubytes_congr (m1 m2 : Nat → UInt8) (a len : Nat)
    (h : ∀ x, a ≤ x → x < a + len → m1 x = m2 x) : ubytes m1 a len = ubytes m2 a len := by
  unfold ubytes
  apply List.map_congr_left
  intro j hj
  rw [List.mem_range] at hj
  exact h _ (by omega) (by omega)

theorem contents_take (p : Pipe) (umem : Nat → UInt8) (ua : Nat) (s : Int)
    (h0 : 0 ≤ p.nread) (hs : s ≤ p.nwrite - p.nread)
    (hl : p.nread % 512 + s ≤ 512) :
    ubytes (copy_to_user p.data (p.nread % 512).toNat umem ua s.toNat) ua s.toNat
      = p.contents.take s.toNat := by
  unfold Pipe.contents ubytes
  rw [← List.map_take, List.take_range, Nat.min_eq_left (by omega)]
  apply List.map_congr_left
  intro j hj
  rw [List.mem_range] at hj
  rw [copy_to_user_inside _ _ _ _ _ _ hj]
  congr 1
  omega

theorem contents_drop (p : Pipe) (s : Int)
    (h0 : 0 ≤ p.nread) (hs0 : 0 ≤ s) (hs : s ≤ p.nwrite - p.nread) :
    Pipe.contents { p with nread := p.nread + s } = p.contents.drop s.toNat := by
  unfold Pipe.contents
  apply List.ext_getElem
  · simp only [List.length_map, List.length_range, List.length_drop]
    omega
  · intro k hk1 hk2
    simp only [List.getElem_map, List.getElem_range, List.getElem_drop]
    congr 1
    omega

theorem Pipe_nread_add_zero (p : Pipe) : { p with nread := p.nread + 0 } = p := by
  cases p; simp

theorem piperead_loop_spec (addr : Nat) (n size0 : Int) (hn : n ≤ 2147483647) :
    ∀ (fuel : Nat) (p : Pipe) (umem : Nat → UInt8) (r : Int), 0 ≤ p.nread → p.nread ≤ p.nwrite →
      p.nwrite ≤ 2147483647 → 0 ≤ r → r ≤ n → (size0 = 0 → n ≤ r) →
      (min (n - r) (p.nwrite - p.nread)).toNat < fuel →
      ∃ m : Nat → UInt8,
        piperead_loop fuel size0 p umem addr n r
          = some (PipeRes.ret (r + min (n - r) (p.nwrite - p.nread))
              { p with nread := p.nread + min (n - r) (p.nwrite - p.nread) } m) ∧
        ubytes m (addr + r.toNat) (min (n - r) (p.nwrite - p.nread)).toNat
          = p.contents.take (min (n - r) (p.nwrite - p.nread)).toNat ∧
        ∀ a, (a < addr + r.toNat ∨
            addr + r.toNat + (min (n - r) (p.nwrite - p.nread)).toNat ≤ a) → m a = umem a := by
  intro fuel
  induction fuel with
  | zero => intro p umem r _ _ _ _ _ _ hf; omega
  | succ fuel ih =>
    intro p umem r h0 h1 h2 hr0 hrn hsz hf
    unfold piperead_loop
    by_cases hc : r < n ∧ size0 ≠ 0
    · rw [if_pos hc]
      by_cases hemp : p.nread = p.nwrite
      · have hM : min (n - r) (p.nwrite - p.nread) = 0 := by omega
        have hit : piperead_iter p umem addr n r = RIter.stop p umem := by
          simp [piperead_iter, hemp]
        rw [hit, hM]
        refine ⟨umem, ?_, by simp [ubytes], fun _ _ => rfl⟩
        simp [Pipe_nread_add_zero]
      · have hlt : p.nread < p.nwrite := by omega
        rw [piperead_iter_copied p umem addr n r h0 hlt h2 hr0 hc.1 hn]
        obtain ⟨hc1, hc2, hc3, hc4⟩ := rchunk_bounds p n r hlt hc.1
        have hM : min (n - r) (p.nwrite - p.nread)
            = rchunk p n r + min (n - (r + rchunk p n r))
                (p.nwrite - (p.nread + rchunk p n r)) := by omega
        obtain ⟨m, hm, hm1, hm2⟩ :=
          ih { p with nread := p.nread + rchunk p n r }
            (copy_to_user p.data (p.nread % 512).toNat umem (addr + r.toNat)
              (rchunk p n r).toNat)
            (r + rchunk p n r) (by simp only; omega) (by simp only; omega) h2 (by omega)
            (by omega) (fun h => absurd h hc.2) (by simp only; omega)
        simp only at hm hm1 hm2
        refine ⟨m, ?_, ?_, ?_⟩
        · show piperead_loop fuel size0 _ _ addr n _ = _
          rw [hm, hM]
          simp only [Int.add_assoc]
        · rw [hM]
          have e : (rchunk p n r + min (n - (r + rchunk p n r))
              (p.nwrite - (p.nread + rchunk p n r))).toNat
              = (rchunk p n r).toNat + (min (n - (r + rchunk p n r))
              (p.nwrite - (p.nread + rchunk p n r))).toNat := by omega
          have e2 : addr + (r + rchunk p n r).toNat = addr + r.toNat + (rchunk p n r).toNat := by
            omega
          rw [e, ubytes_add, List.take_add, ← e2, hm1,
            contents_drop p _ h0 (by omega) hc3]
          congr 1
          rw [← contents_take p umem (addr + r.toNat) _ h0 hc3 hc4]
          apply ubytes_congr
          intro x hx1 hx2
          exact hm2 x (Or.inl (by omega))
        · intro a ha
          rw [hm2 a (by omega)]
          exact copy_to_user_outside _ _ _ _ _ _ (by omega)
    · rw [if_neg hc]
      have hrn2 : n ≤ r := by
        by_cases hz : size0 = 0
        · exact hsz hz
        · by_contra hcon
          exact hc ⟨by omega, hz⟩
      have hM : min (n - r) (p.nwrite - p.nread) = 0 := by omega
      rw [hM]
      refine ⟨umem, ?_, by simp [ubytes], fun _ _ => rfl⟩
      simp [Pipe_nread_add_zero]

theorem piperead_core (fuel : Nat) (p : Pipe) (umem : Nat → UInt8) (addr : Nat) (n : Int)
    (h0 : 0 ≤ p.nread) (hk1 : 1 ≤ p.nwrite - p.nread)
    (hW : p.nwrite ≤ 2147483647) (hn0 : 0 ≤ n) (hn : n ≤ 2147483647)
    (hf : (min n (p.nwrite - p.nread)).toNat < fuel) :
    ∃ m : Nat → UInt8,
      piperead fuel p umem addr n
        = some (PipeRes.ret (min n (p.nwrite - p.nread))
            { p with nread := p.nread + min n (p.nwrite - p.nread) } m) ∧
      ubytes m addr (min n (p.nwrite - p.nread)).toNat
        = p.contents.take (min n (p.nwrite - p.nread)).toNat ∧
      ∀ a, (a < addr ∨ addr + (min n (p.nwrite - p.nread)).toNat ≤ a) → m a = umem a := by
  have hsz : piperead_size p n 0 = 0 → n ≤ 0 := by
    rw [piperead_size_eq p n 0 h0 (by omega) hW (le_refl 0) hn0 hn]
    unfold rchunk
    omega
  obtain ⟨m, hm, hm1, hm2⟩ :=
    piperead_loop_spec addr n (piperead_size p n 0) hn fuel p umem 0 h0 (by omega) hW
      (le_refl 0) hn0 hsz (by simpa using hf)
  refine ⟨m, ?_, by simpa using hm1, by simpa using hm2⟩
  unfold piperead
  rw [if_neg (by omega), hm]
  simp

/-- C7: for a pipe with non-negative counters and occupancy `k = nwrite -
nread` at least 1 (the bound `k ≤ PIPESIZE` is not needed) and any requested
length `0 ≤ n`, both within `int`, and with fuel for `min n k` iterations, a
`piperead` that runs alone returns `min n k`, stores in user memory at `addr`
the `min n k` oldest unread bytes in the order they were written, leaves the
rest of user memory alone, advances `nread` by `min n k` and changes no other
field of the pipe (`nwrite`, `readopen`, `writeopen`, `data`). -/
theorem piperead_returns_oldest (fuel : Nat) (p : Pipe) (umem : Nat → UInt8) (addr : Nat)
    (n : Int) (h0 : 0 ≤ p.nread) (hk1 : 1 ≤ p.nwrite - p.nread)
    (hW : p.nwrite ≤ 2147483647) (hn0 : 0 ≤ n)
    (hn : n ≤ 2147483647) (hf : (min n (p.nwrite - p.nread)).toNat < fuel) :
    ∃ m : Nat → UInt8,
      piperead fuel p umem addr n
        = some (PipeRes.ret (min n (p.nwrite - p.nread))
            { p with nread := p.nread + min n (p.nwrite - p.nread) } m) ∧
      ubytes m addr (min n (p.nwrite - p.nread)).toNat
        = (List.range (min n (p.nwrite - p.nread)).toNat).map
            (fun j => p.data ((p.nread.toNat + j) % 512)) ∧
      ∀ a, (a < addr ∨ addr + (min n (p.nwrite - p.nread)).toNat ≤ a) → m a = umem a := by
  obtain ⟨m, hm, hm1, hm2⟩ := piperead_core fuel p umem addr n h0 hk1 hW hn0 hn hf
  refine ⟨m, hm, ?_, hm2⟩
  rw [hm1]
  unfold Pipe.contents
  rw [← List.map_take, List.take_range, Nat.min_eq_left (by omega)]

/-- An instance of C7: reading 2 bytes from the pipe that holds `"ab"`. -/
theorem piperead_returns_oldest_witness :
    ∃ m : Nat → UInt8,
      piperead 8 pipeAfterWrite abMem 200 2
        = some (PipeRes.ret (min 2 (pipeAfterWrite.nwrite - pipeAfterWrite.nread))
            { pipeAfterWrite with
              nread := pipeAfterWrite.nread
                + min 2 (pipeAfterWrite.nwrite - pipeAfterWrite.nread) } m) ∧
      ubytes m 200 (min 2 (pipeAfterWrite.nwrite - pipeAfterWrite.nread)).toNat
        = (List.range (min 2 (pipeAfterWrite.nwrite - pipeAfterWrite.nread)).toNat).map
            (fun j => pipeAfterWrite.data ((pipeAfterWrite.nread.toNat + j) % 512)) ∧
      ∀ a, (a < 200 ∨ 200 + (min 2 (pipeAfterWrite.nwrite - pipeAfterWrite.nread)).toNat ≤ a) →
        m a = abMem a :=
  piperead_returns_oldest 8 pipeAfterWrite abMem 200 2 (by decide) (by decide) (by decide)
    (by decide) (by decide) (by decide)

theorem pipewrite_all_spec (fuel : Nat) :
    ∀ (qs : List WriteReq) (p : Pipe), p.readopen ≠ 0 → 0 ≤ p.nread → p.nread ≤ p.nwrite →
      p.nread + 512 ≤ 2147483647 →
      (((qs.map WriteReq.n).sum : Nat) : Int) ≤ p.nread + 512 - p.nwrite →
      (qs.map WriteReq.n).sum < fuel →
      ∃ q : Pipe, pipewrite_all fuel qs p = some (qs.map (fun x => (x.n : Int)), q) ∧
        q.nread = p.nread ∧ q.nwrite = p.nwrite + ((qs.map WriteReq.n).sum : Nat) ∧
        q.readopen = p.readopen ∧ q.writeopen = p.writeopen ∧
        q.contents = p.contents ++ (qs.map WriteReq.bytes).flatten := by
  intro qs
  induction qs with
  | nil =>
    intro p _ _ _ _ _ _
    exact ⟨p, rfl, rfl, by simp, rfl, rfl, by simp⟩
  | cons x qs ih =>
    intro p hro h0 h1 h3 hsum hf
    simp only [List.map_cons, List.sum_cons, Nat.cast_add] at hsum
    simp only [List.map_cons, List.sum_cons] at hf
    obtain ⟨q1, hq, hq1, hq2, hq3, hq4, hq5⟩ :=
      pipewrite_loop_spec x.umem x.addr (x.n : Int) (by omega) fuel p 0 hro h0 h1 h3
        (le_refl 0) (by omega) (by omega) (by omega)
    obtain ⟨q, hr, hr1, hr2, hr3, hr4, hr5⟩ :=
      ih q1 (by rw [hq3]; exact hro) (by omega) (by omega) (by omega) (by omega) (by omega)
    refine ⟨q, ?_, by omega, ?_, by rw [hr3, hq3], by rw [hr4, hq4], ?_⟩
    · simp only [pipewrite_all, pipewrite, hq, hr, Option.map_some', List.map_cons]
    · simp only [List.map_cons, List.sum_cons, Nat.cast_add]
      omega
    · rw [hr5, hq5]
      simp [WriteReq.bytes, List.append_assoc]

/-- C3: on an empty pipe (`nread = nwrite`, at any physical offset) whose
counters are non-negative and at least `PIPESIZE` below the largest `int`,
with the read end open, successive `pipewrite` calls for byte strings of
total length `T` with `1 ≤ T ≤ PIPESIZE` (and fuel for `T` iterations) each
return the length of their string (none reaches `do_yield()`), and a
following `piperead` of `T` bytes
returns `T` and stores at `addr` exactly the concatenation of the strings in
the order of the calls. -/
theorem pipe_fifo (fuel : Nat) (p : Pipe) (qs : List WriteReq) (umem : Nat → UInt8) (addr : Nat)
    (hemp : p.nread = p.nwrite) (h0 : 0 ≤ p.nread) (h3 : p.nread + PIPESIZE ≤ 2147483647)
    (hro : p.readopen ≠ 0) (hT1 : 1 ≤ (qs.map WriteReq.n).sum)
    (hT2 : (qs.map WriteReq.n).sum ≤ 512) (hf : (qs.map WriteReq.n).sum < fuel) :
    ∃ (q r : Pipe) (m : Nat → UInt8),
      pipewrite_all fuel qs p = some (qs.map (fun x => (x.n : Int)), q) ∧
      piperead fuel q umem addr ((qs.map WriteReq.n).sum : Nat)
        = some (PipeRes.ret ((qs.map WriteReq.n).sum : Nat) r m) ∧
      ubytes m addr (qs.map WriteReq.n).sum = (qs.map WriteReq.bytes).flatten := by
  unfold PIPESIZE at h3
  obtain ⟨q, hq, hq1, hq2, _, _, hq5⟩ :=
    pipewrite_all_spec fuel qs p hro h0 (by omega) h3 (by omega) hf
  have hocc : q.nwrite - q.nread = ((qs.map WriteReq.n).sum : Nat) := by omega
  have hmin : min (((qs.map WriteReq.n).sum : Nat) : Int) (q.nwrite - q.nread)
      = ((qs.map WriteReq.n).sum : Nat) := by omega
  obtain ⟨m, hm, hm1, _⟩ :=
    piperead_core fuel q umem addr ((qs.map WriteReq.n).sum : Nat) (by omega) (by omega)
      (by omega) (by omega) (by omega) (by omega)
  rw [hmin] at hm hm1
  refine ⟨q, _, m, hq, hm, ?_⟩
  have hlen : q.contents.length = (qs.map WriteReq.n).sum := by
    unfold Pipe.contents
    simp only [List.length_map, List.length_range]
    omega
  have hnil : p.contents = [] := by
    unfold Pipe.contents
    simp [hemp]
  simp only [Int.toNat_ofNat] at hm1
  rw [hm1, ← hlen, List.take_length, hq5, hnil, List.nil_append]

/-- An instance of C3: two writes that wrap around the physical end of the
buffer, followed by a read of their total length. -/
theorem pipe_fifo_witness :
    ∃ (q r : Pipe) (m : Nat → UInt8),
      pipewrite_all 4 wrapReqs pipeNearEnd
        = some (wrapReqs.map (fun x => (x.n : Int)), q) ∧
      piperead 4 q abMem 200 ((wrapReqs.map WriteReq.n).sum : Nat)
        = some (PipeRes.ret ((wrapReqs.map WriteReq.n).sum : Nat) r m) ∧
      ubytes m 200 (wrapReqs.map WriteReq.n).sum = (wrapReqs.map WriteReq.bytes).flatten :=
  pipe_fifo 4 pipeNearEnd wrapReqs abMem 200 (by decide) (by decide) (by decide) (by decide)
    (by decide) (by decide) (by decide)

/-- C6: when the read end is closed, `pipewrite` of `n ≥ 1` bytes returns the
negative value -1 in its first iteration, whatever the free capacity; the pipe
record (`nwrite`, `nread`, `data`, flags) is unchanged and nothing is copied. -/
theorem pipewrite_broken_pipe (fuel : Nat) (p : Pipe) (umem : Nat → UInt8) (addr : Nat)
    (n : Int) (hro : p.readopen = 0) (hn : 1 ≤ n) (hf : 1 ≤ fuel) :
    pipewrite fuel p umem addr n = some (PipeRes.ret (-1) p umem) ∧ (-1 : Int) < 0 ∧
      pipewrite_iter p umem addr n 0 = WIter.broken p := by
  obtain ⟨k, rfl⟩ : ∃ k, fuel = k + 1 := ⟨fuel - 1, by omega⟩
  have hit : pipewrite_iter p umem addr n 0 = WIter.broken p := by
    simp [pipewrite_iter, hro]
  refine ⟨?_, by decide, hit⟩
  unfold pipewrite pipewrite_loop
  rw [if_pos (by omega), hit]

/-- An instance of C6: a write of 2 bytes after the read end was closed. -/
theorem pipewrite_broken_pipe_witness :
    pipewrite 1 (pipeclose freshPipe 0).1 abMem 100 2
        = some (PipeRes.ret (-1) (pipeclose freshPipe 0).1 abMem) ∧ (-1 : Int) < 0 ∧
      pipewrite_iter (pipeclose freshPipe 0).1 abMem 100 2 0
        = WIter.broken (pipeclose freshPipe 0).1 :=
  pipewrite_broken_pipe 1 (pipeclose freshPipe 0).1 abMem 100 2 (by decide) (by decide)
    (by decide)

/-- C5 as amended: when the write end is closed and the buffer is empty,
`piperead` returns -1 for every requested length, and the pipe record and the
user memory are unchanged. -/
theorem piperead_closed_empty (fuel : Nat) (p : Pipe) (umem : Nat → UInt8) (addr : Nat)
    (n : Int) (hwo : p.writeopen = 0) (hemp : p.nread = p.nwrite) :
    piperead fuel p umem addr n = some (PipeRes.ret (-1) p umem) := by
  unfold piperead
  rw [if_pos hemp, if_neg (by simp [hwo])]

/-- An instance of C5 as amended: the last read of the scenario of the spec. -/
theorem piperead_closed_empty_witness :
    piperead 8 pipeAfterClose abMem 200 2 = some (PipeRes.ret (-1) pipeAfterClose abMem) :=
  piperead_closed_empty 8 pipeAfterClose abMem 200 2 (by decide) (by decide)

/-- C5 as stated fails: in the scenario of the spec (`pipewrite` of `"ab"`
returns 2, `piperead` of 2 bytes returns 2 and delivers `"ab"`, `pipeclose` of
the write end), the write end is closed and the buffer is empty, and the
further `piperead` of 2 bytes returns -1, not 0. -/
theorem piperead_closed_empty_not_zero :
    (pipewrite 8 freshPipe abMem 100 2).bind PipeRes.retval = some 2 ∧
      (piperead 8 pipeAfterWrite abMem 200 2).bind PipeRes.retval = some 2 ∧
      ((piperead 8 pipeAfterWrite abMem 200 2).bind PipeRes.umem).map (fun m => ubytes m 200 2)
        = some [97, 98] ∧
      pipeAfterClose.writeopen = 0 ∧ pipeAfterClose.nread = pipeAfterClose.nwrite ∧
      (piperead 8 pipeAfterClose abMem 200 2).bind PipeRes.retval = some (-1) ∧
      (piperead 8 pipeAfterClose abMem 200 2).bind PipeRes.retval ≠ some 0 := by
  decide

/-- The occupancy bound inside the range of `int`: for a pipe with
non-negative counters and `0 ≤ nwrite - nread ≤ PIPESIZE`, one iteration of the loop of `pipewrite` (provided `nread +
PIPESIZE` does not exceed the largest `int`) and one iteration of the second
loop of `piperead`, for any `n` and running count `0 ≤ w < n`, never faults
and keeps `0 ≤ nwrite - nread ≤ PIPESIZE`: the `return -1` and full branches
of `pipewrite`, the `break` of `piperead` and its first loop (empty buffer)
leave the record unchanged (full is taken exactly when `nwrite = nread +
PIPESIZE`); a write chunk `s` is at
least 1 and at most the free capacity `PIPESIZE - (nwrite - nread)` and only
`nwrite` and `data` change; a read chunk `s` is at least 1 and at most the
occupancy and only `nread` changes. -/
theorem pipe_iter_occupancy (p : Pipe) (umem : Nat → UInt8) (addr : Nat) (n w : Int)
    (h0 : 0 ≤ p.nread) (h1 : 0 ≤ p.nwrite - p.nread) (h2 : p.nwrite - p.nread ≤ PIPESIZE)
    (hW : p.nwrite ≤ 2147483647) (hw0 : 0 ≤ w) (hwn : w < n) (hn : n ≤ 2147483647) :
    (p.nread + PIPESIZE ≤ 2147483647 →
      (p.readopen = 0 → pipewrite_iter p umem addr n w = WIter.broken p) ∧
      (p.readopen ≠ 0 → p.nwrite = p.nread + PIPESIZE →
        pipewrite_iter p umem addr n w = WIter.full p) ∧
      (p.readopen ≠ 0 → p.nwrite ≠ p.nread + PIPESIZE →
        ∃ (s : Int) (d : Nat → UInt8), 1 ≤ s ∧ s ≤ PIPESIZE - (p.nwrite - p.nread) ∧
          s ≤ n - w ∧
          pipewrite_iter p umem addr n w
            = WIter.copied { p with data := d, nwrite := p.nwrite + s } (w + s) ∧
          0 ≤ p.nwrite + s - p.nread ∧ p.nwrite + s - p.nread ≤ PIPESIZE)) ∧
    (p.nread = p.nwrite → piperead_iter p umem addr n w = RIter.stop p umem) ∧
    (p.nread ≠ p.nwrite →
      ∃ (s : Int) (m : Nat → UInt8), 1 ≤ s ∧ s ≤ p.nwrite - p.nread ∧ s ≤ n - w ∧
        piperead_iter p umem addr n w
          = RIter.copied { p with nread := p.nread + s } m (w + s) ∧
        0 ≤ p.nwrite - (p.nread + s) ∧ p.nwrite - (p.nread + s) ≤ PIPESIZE) ∧
    (p.nread = p.nwrite →
      ∀ fuel, (piperead fuel p umem addr n).bind PipeRes.pipe = some p) := by
  unfold PIPESIZE at h2 ⊢
  refine ⟨fun h3 => ⟨?_, ?_, ?_⟩, ?_, ?_, ?_⟩
  · intro hro
    simp [pipewrite_iter, hro]
  · intro hro hfull
    unfold pipewrite_iter
    rw [if_neg hro, if_pos (by unfold PIPESIZE; rw [wrap32_eq _ (by omega) (by omega)]; exact hfull)]
  · intro hro hnf
    obtain ⟨hc1, hc2, hc3, hc4⟩ := wchunk_bounds p n w (by omega) (by omega) hwn
    exact ⟨wchunk p n w, _, hc1, by omega, hc2,
      pipewrite_iter_copied p umem addr n w hro h0 (by omega) (by omega) h3 hw0 hwn hn,
      by omega, by omega⟩
  · intro hemp
    simp [piperead_iter, hemp]
  · intro hne
    obtain ⟨hc1, hc2, hc3, hc4⟩ := rchunk_bounds p n w (by omega) hwn
    exact ⟨rchunk p n w, _, hc1, hc3, hc2,
      piperead_iter_copied p umem addr n w h0 (by omega) hW hw0 hwn hn, by omega, by omega⟩
  · intro hemp fuel
    unfold piperead
    rw [if_pos hemp]
    split <;> rfl

/-- An instance of the occupancy bound: one iteration of each loop on an empty
pipe two bytes before the physical end of the buffer, for `n = 3`. -/
theorem pipe_iter_occupancy_witness :
    (pipeNearEnd.nread + PIPESIZE ≤ 2147483647 →
      (pipeNearEnd.readopen = 0 → pipewrite_iter pipeNearEnd abMem 100 3 0
        = WIter.broken pipeNearEnd) ∧
      (pipeNearEnd.readopen ≠ 0 → pipeNearEnd.nwrite = pipeNearEnd.nread + PIPESIZE →
        pipewrite_iter pipeNearEnd abMem 100 3 0 = WIter.full pipeNearEnd) ∧
      (pipeNearEnd.readopen ≠ 0 → pipeNearEnd.nwrite ≠ pipeNearEnd.nread + PIPESIZE →
        ∃ (s : Int) (d : Nat → UInt8), 1 ≤ s ∧
          s ≤ PIPESIZE - (pipeNearEnd.nwrite - pipeNearEnd.nread) ∧ s ≤ 3 - 0 ∧
          pipewrite_iter pipeNearEnd abMem 100 3 0
            = WIter.copied { pipeNearEnd with data := d, nwrite := pipeNearEnd.nwrite + s }
                (0 + s) ∧
          0 ≤ pipeNearEnd.nwrite + s - pipeNearEnd.nread ∧
          pipeNearEnd.nwrite + s - pipeNearEnd.nread ≤ PIPESIZE)) ∧
    (pipeNearEnd.nread = pipeNearEnd.nwrite →
      piperead_iter pipeNearEnd abMem 100 3 0 = RIter.stop pipeNearEnd abMem) ∧
    (pipeNearEnd.nread ≠ pipeNearEnd.nwrite →
      ∃ (s : Int) (m : Nat → UInt8), 1 ≤ s ∧ s ≤ pipeNearEnd.nwrite - pipeNearEnd.nread ∧
        s ≤ 3 - 0 ∧
        piperead_iter pipeNearEnd abMem 100 3 0
          = RIter.copied { pipeNearEnd with nread := pipeNearEnd.nread + s } m (0 + s) ∧
        0 ≤ pipeNearEnd.nwrite - (pipeNearEnd.nread + s) ∧
        pipeNearEnd.nwrite - (pipeNearEnd.nread + s) ≤ PIPESIZE) ∧
    (pipeNearEnd.nread = pipeNearEnd.nwrite →
      ∀ fuel, (piperead fuel pipeNearEnd abMem 100 3).bind PipeRes.pipe = some pipeNearEnd) :=
  pipe_iter_occupancy pipeNearEnd abMem 100 3 0 (by decide) (by decide) (by decide) (by decide)
    (by decide) (by decide) (by decide)

/-- Counter values at which the occupancy bound is lost.  On the empty pipe
with `nread = nwrite = 2147483647`
(occupancy 0) one `pipewrite` iteration for `n = 1` copies one byte and leaves
`nwrite = -2147483648`, so that `nwrite - nread = -4294967295`.  On the empty
pipe with `nread = nwrite = -1` (occupancy 0) the iteration addresses
`data[-1]`. -/
theorem pipe_iter_occupancy_fails :
    (0 ≤ pipeAtIntMax.nwrite - pipeAtIntMax.nread ∧
      pipeAtIntMax.nwrite - pipeAtIntMax.nread ≤ PIPESIZE) ∧
    (pipewrite_iter pipeAtIntMax abMem 100 1 0).pipe.map
        (fun q => (q.nread, q.nwrite, q.nwrite - q.nread))
      = some (2147483647, -2147483648, -4294967295) ∧
    (pipewrite_iter pipeAtIntMax abMem 100 1 0).pipe.map
        (fun q => decide (0 ≤ q.nwrite - q.nread ∧ q.nwrite - q.nread ≤ PIPESIZE))
      = some false ∧
    (0 ≤ pipeNegative.nwrite - pipeNegative.nread ∧
      pipeNegative.nwrite - pipeNegative.nread ≤ PIPESIZE) ∧
    (pipewrite_iter pipeNegative abMem 100 1 0).isFault = true := by
  decide

end PipeProps

/-! ### Descriptor operations -/

section OpProps

variable {σ : Type}

theorem fd2file_bad (c : Config) (fd : Int) (W : World σ)
    (h : testfd c fd = false ∨ (W.filemap fd.toNat).status ≠ FD_OPENED ∨
      (W.filemap fd.toNat).fd ≠ fd) :
    fd2file c fd W = (-c.E_INVAL, none) := by
  unfold fd2file
  by_cases ht : testfd c fd = true
  · rw [if_pos ht]
    rcases h with h | h | h
    · rw [ht] at h; exact absurd h (by decide)
    · simp [h]
    · simp [h]
  · rw [if_neg ht]

theorem fd2file_some (c : Config) (fd : Int) (W : World σ) (i : Nat)
    (h : fd2file c fd W = (0, some i)) :
    i = fd.toNat ∧ testfd c fd = true ∧ (W.filemap i).status = FD_OPENED ∧
      (W.filemap i).fd = fd := by
  unfold fd2file at h
  split at h
  · rename_i ht
    simp only at h
    split at h
    · rename_i hc
      simp only [Prod.mk.injEq, Option.some.injEq, true_and] at h
      subst h
      exact ⟨rfl, ht, hc.1, hc.2⟩
    · simp at h
  · simp at h

@[simp]
theorem fopen_count_inc_node (f : File) : (fopen_count_inc f).node = f.node := rfl

@[simp]
theorem fopen_count_inc_pos (f : File) : (fopen_count_inc f).pos = f.pos := rfl

@[simp]
theorem fopen_count_inc_status (f : File) : (fopen_count_inc f).status = f.status := rfl

@[simp]
theorem fopen_count_inc_count (f : File) :
    (fopen_count_inc f).open_count = f.open_count + 1 := rfl

theorem filemap_acquire_open (i : Nat) (W : World σ) (h : (W.filemap i).status = FD_OPENED) :
    filemap_acquire i W = some (W.setSlot i (fopen_count_inc (W.filemap i))) := by
  simp [filemap_acquire, h]

theorem filemap_release_live (env : Vfs σ) (i : Nat) (W : World σ)
    (h : (W.filemap i).status = FD_OPENED) (hc : 1 < (W.filemap i).open_count) :
    filemap_release env i W = some (W.setSlot i (fopen_count_dec (W.filemap i))) := by
  unfold filemap_release
  simp only [fopen_count, h, true_or, true_and]
  rw [if_pos (by omega), if_neg]
  simp only [setSlot_filemap_same, fopen_count_dec]
  omega

theorem file_rw_finish_open (env : Vfs σ) (c : Config) (i : Nat) (ret : Int) (copied : Nat)
    (W : World σ) (h : (W.filemap i).status = FD_OPENED) (hc : 1 < (W.filemap i).open_count) :
    file_rw_finish env c i ret copied W
      = some (ret, copied,
          W.setSlot i { W.filemap i with
            pos := wrapOff c ((W.filemap i).pos + (copied : Int))
            open_count := (W.filemap i).open_count - 1 }) := by
  unfold file_rw_finish
  simp only [h, if_true]
  rw [filemap_release_live env i _ (by simp) (by simpa using hc)]
  simp [fopen_count_dec, World.setSlot]

theorem file_seek_commit_spec (env : Vfs σ) (i : Nat) (f : File) (t : Int) (Wc : World σ)
    (hq : env.keepsSlot i) (hst : f.status = FD_OPENED) (hcnt : 0 < f.open_count)
    (hslot : Wc.filemap i = fopen_count_inc f) :
    ∃ W1 : World σ,
      file_seek_commit env i 0 t Wc
        = some ((env.vop_tryseek f.node t (Wc.emit (Event.vop_tryseek f.node t)).toSys).1, W1) ∧
      W1.log = Wc.log ++ [Event.vop_tryseek f.node t] ∧
      W1.filemap i =
        { f with
          pos := if (env.vop_tryseek f.node t
            (Wc.emit (Event.vop_tryseek f.node t)).toSys).1 = 0 then t else f.pos } := by
  have hk := hq.2.2.2.2.1 f.node t (Wc.emit (Event.vop_tryseek f.node t)).toSys
  rw [show (Wc.emit (Event.vop_tryseek f.node t)).toSys.filemap i = fopen_count_inc f from hslot]
    at hk
  unfold file_seek_commit
  simp only [if_true, hslot, fopen_count_inc_node]
  by_cases hr : (env.vop_tryseek f.node t (Wc.emit (Event.vop_tryseek f.node t)).toSys).1 = 0
  · simp only [hr, if_true]
    rw [filemap_release_live env i _ (by simp [hk, hst]) (by simp [hk]; omega)]
    refine ⟨_, rfl, rfl, ?_⟩
    simp [hk, fopen_count_dec, fopen_count_inc]
  · simp only [hr, if_false]
    rw [filemap_release_live env i _ (by simp [hk, hst]) (by simp [hk]; omega)]
    refine ⟨_, rfl, rfl, ?_⟩
    simp [hk, fopen_count_dec, fopen_count_inc]

theorem file_seek_commit_error (env : Vfs σ) (i : Nat) (f : File) (ret t : Int) (Wc : World σ)
    (hret : ret ≠ 0) (hst : f.status = FD_OPENED) (hcnt : 0 < f.open_count)
    (hslot : Wc.filemap i = fopen_count_inc f) :
    ∃ W1 : World σ,
      file_seek_commit env i ret t Wc = some (ret, W1) ∧ W1.log = Wc.log ∧ W1.filemap i = f := by
  unfold file_seek_commit
  rw [if_neg hret, filemap_release_live env i _ (by simp [hslot, hst]) (by simp [hslot]; omega)]
  refine ⟨_, rfl, rfl, ?_⟩
  simp [hslot, fopen_count_dec, fopen_count_inc]

theorem sampleVfs_keepsSlot (i : Nat) : sampleVfs.keepsSlot i :=
  ⟨fun _ _ _ => rfl, fun _ _ _ => rfl, fun _ _ => rfl, fun _ _ => rfl, fun _ _ _ => rfl,
    fun _ _ _ => rfl⟩

/-- C10: when `fd` is outside `[0, FS_STRUCT_NENTRY)`, or its slot is not
`FD_OPENED`, or its slot records another index, each of `file_close`,
`file_read`, `file_write`, `file_seek`, `file_fstat`, `file_fsync`,
`file_getdirentry` and `file_dup` (with `fd` as source) returns `-E_INVAL`
and `file_testfd` returns false; `file_read` on an Open slot that is not
readable and `file_write` on one that is not writable return `-E_INVAL` too;
`*copied_store` is 0 in the read and write cases.  In all these cases the
state on return is the state on entry: no slot field has changed and no
collaborator call was made (the trace is the same). -/
theorem invalid_fd_rejected (env : Vfs σ) (c : Config) (fd : Int) (W : World σ)
    (hE : c.E_INVAL ≠ 0) :
    ((testfd c fd = false ∨ (W.filemap fd.toNat).status ≠ FD_OPENED ∨
        (W.filemap fd.toNat).fd ≠ fd) →
      file_close env c fd W = some (-c.E_INVAL, W) ∧
      (∀ base len, file_read env c fd base len W = some (-c.E_INVAL, 0, W)) ∧
      (∀ base len, file_write env c fd base len W = some (-c.E_INVAL, 0, W)) ∧
      (∀ pos whence, file_seek env c fd pos whence W = some (-c.E_INVAL, W)) ∧
      (∀ stat, file_fstat env c fd stat W = some (-c.E_INVAL, stat, W)) ∧
      file_fsync env c fd W = some (-c.E_INVAL, W) ∧
      (∀ d, file_getdirentry env c fd d W = some (-c.E_INVAL, d, W)) ∧
      (∀ fd2, file_dup env c fd fd2 W = some (-c.E_INVAL, W)) ∧
      (∀ rd wr, file_testfd c fd rd wr W = false)) ∧
    (∀ i, fd2file c fd W = (0, some i) → (W.filemap i).readable = false →
      ∀ base len, file_read env c fd base len W = some (-c.E_INVAL, 0, W)) ∧
    (∀ i, fd2file c fd W = (0, some i) → (W.filemap i).writable = false →
      ∀ base len, file_write env c fd base len W = some (-c.E_INVAL, 0, W)) := by
  have hne : -c.E_INVAL ≠ 0 := by simpa using hE
  refine ⟨fun hbad => ?_, ?_, ?_⟩
  · have hf := fd2file_bad c fd W hbad
    refine ⟨?_, ?_, ?_, ?_, ?_, ?_, ?_, ?_, ?_⟩
    · simp [file_close, hf, hE]
    · intro base len
      simp [file_read, hf, hE]
    · intro base len
      simp [file_write, hf, hE]
    · intro pos whence
      simp [file_seek, hf, hE]
    · intro stat
      simp [file_fstat, hf, hE]
    · simp [file_fsync, hf, hE]
    · intro d
      simp [file_getdirentry, hf, hE]
    · intro fd2
      simp [file_dup, hf, hE]
    · intro rd wr
      simp [file_testfd, hf, hE]
  · intro i hres hr base len
    simp [file_read, hres, hr]
  · intro i hres hw base len
    simp [file_write, hres, hw]

/-- Instances of C10 on the sample table: descriptor 9 is out of range,
descriptor 0 is Empty, descriptor -1 is negative, and descriptor 4 is Open but
not writable. -/
theorem invalid_fd_rejected_witness :
    file_close sampleVfs sampleConfig 9 sampleOpenWorld = some (-3, sampleOpenWorld) ∧
      file_read sampleVfs sampleConfig 0 0 5 sampleOpenWorld = some (-3, 0, sampleOpenWorld) ∧
      file_testfd sampleConfig (-1) false false sampleOpenWorld = false ∧
      file_write sampleVfs sampleConfig 4 0 5 sampleOpenWorld = some (-3, 0, sampleOpenWorld) :=
  ⟨((invalid_fd_rejected sampleVfs sampleConfig 9 sampleOpenWorld (by decide)).1
      (Or.inl (by decide))).1,
    ((invalid_fd_rejected sampleVfs sampleConfig 0 sampleOpenWorld (by decide)).1
      (Or.inr (Or.inl (by decide)))).2.1 0 5,
    ((invalid_fd_rejected sampleVfs sampleConfig (-1) sampleOpenWorld (by decide)).1
      (Or.inl (by decide))).2.2.2.2.2.2.2.2 false false,
    (invalid_fd_rejected sampleVfs sampleConfig 4 sampleOpenWorld (by decide)).2.2 4
      (by decide) (by decide) 0 5⟩

end OpProps

/-! ### Allocation and `file_open` -/

section AllocProps

variable {σ : Type}

theorem filemap_scan_some (fm : Nat → File) :
    ∀ (k s i : Nat), filemap_scan fm s k = some i →
      s ≤ i ∧ i < s + k ∧ (fm i).status = FD_NONE ∧
        ∀ j, s ≤ j → j < i → (fm j).status ≠ FD_NONE := by
  intro k
  induction k with
  | zero => intro s i h; simp [filemap_scan] at h
  | succ k ih =>
    intro s i h
    unfold filemap_scan at h
    split at h
    · rename_i hs
      injection h with h
      subst h
      exact ⟨le_refl _, by omega, hs, fun j h1 h2 => by omega⟩
    · rename_i hs
      obtain ⟨h1, h2, h3, h4⟩ := ih (s + 1) i h
      refine ⟨by omega, by omega, h3, fun j hj1 hj2 => ?_⟩
      by_cases hjs : j = s
      · subst hjs; exact hs
      · exact h4 j (by omega) hj2

theorem filemap_scan_none (fm : Nat → File) :
    ∀ (k s : Nat), filemap_scan fm s k = none →
      ∀ j, s ≤ j → j < s + k → (fm j).status ≠ FD_NONE := by
  intro k
  induction k with
  | zero => intro s _ j h1 h2; omega
  | succ k ih =>
    intro s h j h1 h2
    unfold filemap_scan at h
    split at h
    · simp at h
    · rename_i hs
      by_cases hjs : j = s
      · subst hjs; exact hs
      · exact ih (s + 1) h j (by omega) (by omega)

theorem filemap_scan_lowest (fm : Nat → File) (N i : Nat) (hi : i < N)
    (hst : (fm i).status = FD_NONE) (hlow : ∀ j, j < i → (fm j).status ≠ FD_NONE) :
    filemap_scan fm 0 N = some i := by
  cases h : filemap_scan fm 0 N with
  | none => exact absurd hst (filemap_scan_none fm N 0 h i (Nat.zero_le _) (by omega))
  | some k =>
    obtain ⟨_, h2, h3, h4⟩ := filemap_scan_some fm N 0 k h
    have : k = i := by
      rcases Nat.lt_trichotomy k i with hlt | heq | hgt
      · exact absurd h3 (hlow k hlt)
      · exact heq
      · exact absurd hst (h4 i (Nat.zero_le _) hgt)
    rw [this]

theorem filemap_scan_full (fm : Nat → File) (N : Nat)
    (h : ∀ j, j < N → (fm j).status ≠ FD_NONE) : filemap_scan fm 0 N = none := by
  cases hs : filemap_scan fm 0 N with
  | none => rfl
  | some k =>
    obtain ⟨_, h2, h3, _⟩ := filemap_scan_some fm N 0 k hs
    exact absurd h3 (h k (by omega))

theorem exists_lowest_empty (fm : Nat → File) (N : Nat)
    (h : ∃ j, j < N ∧ (fm j).status = FD_NONE) :
    ∃ i, i < N ∧ (fm i).status = FD_NONE ∧ ∀ j, j < i → (fm j).status ≠ FD_NONE := by
  cases hs : filemap_scan fm 0 N with
  | none =>
    obtain ⟨j, hj, hst⟩ := h
    exact absurd hst (filemap_scan_none fm N 0 hs j (Nat.zero_le _) (by omega))
  | some k =>
    obtain ⟨_, h2, h3, h4⟩ := filemap_scan_some fm N 0 k hs
    exact ⟨k, by omega, h3, fun j hj => h4 j (Nat.zero_le _) hj⟩

theorem filemap_alloc_any (c : Config) (W : World σ) (i : Nat) (hi : i < c.FS_STRUCT_NENTRY)
    (hst : (W.filemap i).status = FD_NONE) (hcnt : (W.filemap i).open_count = 0)
    (hlow : ∀ j, j < i → (W.filemap j).status ≠ FD_NONE) :
    filemap_alloc c c.NO_FD W
      = some (0, some i, W.setSlot i { W.filemap i with status := FD_INIT, node := 0 }) := by
  unfold filemap_alloc
  rw [if_pos rfl, filemap_scan_lowest W.filemap _ i hi hst hlow]
  simp [filemap_alloc_found, fopen_count, hcnt]

theorem filemap_alloc_any_full (c : Config) (W : World σ)
    (h : ∀ j, j < c.FS_STRUCT_NENTRY → (W.filemap j).status ≠ FD_NONE) :
    filemap_alloc c c.NO_FD W = some (-c.E_MAX_OPEN, none, W) := by
  unfold filemap_alloc
  rw [if_pos rfl, filemap_scan_full W.filemap _ h]

theorem filemap_alloc_at (c : Config) (W : World σ) (fd : Int) (hno : fd ≠ c.NO_FD)
    (ht : testfd c fd = true) (hst : (W.filemap fd.toNat).status = FD_NONE)
    (hcnt : (W.filemap fd.toNat).open_count = 0) :
    filemap_alloc c fd W
      = some (0, some fd.toNat,
          W.setSlot fd.toNat { W.filemap fd.toNat with status := FD_INIT, node := 0 }) := by
  unfold filemap_alloc
  rw [if_neg hno, if_pos ht, if_pos hst]
  simp [filemap_alloc_found, fopen_count, hcnt]

theorem filemap_alloc_busy (c : Config) (W : World σ) (fd : Int) (hno : fd ≠ c.NO_FD)
    (ht : testfd c fd = true) (hst : (W.filemap fd.toNat).status ≠ FD_NONE) :
    filemap_alloc c fd W = some (-c.E_BUSY, none, W) := by
  unfold filemap_alloc
  rw [if_neg hno, if_pos ht, if_neg hst]

theorem filemap_alloc_range (c : Config) (W : World σ) (fd : Int) (hno : fd ≠ c.NO_FD)
    (ht : testfd c fd = false) :
    filemap_alloc c fd W = some (-c.E_INVAL, none, W) := by
  unfold filemap_alloc
  rw [if_neg hno, if_neg (by simp [ht])]

theorem alloc_many_from (c : Config) :
    ∀ (m k : Nat) (W : World σ), k + m = c.FS_STRUCT_NENTRY →
      (∀ j, j < k → (W.filemap j).status ≠ FD_NONE) →
      (∀ j, k ≤ j → j < c.FS_STRUCT_NENTRY →
        (W.filemap j).status = FD_NONE ∧ (W.filemap j).open_count = 0) →
      ∃ W1 : World σ,
        alloc_many c (m + 1) W
          = some ((List.range' k m).map (fun i => ((0 : Int), some i))
              ++ [(-c.E_MAX_OPEN, none)], W1) := by
  intro m
  induction m with
  | zero =>
    intro k W hk h1 _
    refine ⟨W, ?_⟩
    have hfull := filemap_alloc_any_full c W (fun j hj => h1 j (by omega))
    simp [alloc_many, hfull]
  | succ m ih =>
    intro k W hk h1 h2
    have hk2 := h2 k (le_refl k) (by omega)
    have ha := filemap_alloc_any c W k (by omega) hk2.1 hk2.2 h1
    obtain ⟨W1, hW1⟩ := ih (k + 1)
      (W.setSlot k { W.filemap k with status := FD_INIT, node := 0 }) (by omega)
      (fun j hj => by
        by_cases hjk : j = k
        · subst hjk; simp
        · rw [setSlot_filemap_ne _ _ _ _ hjk]; exact h1 j (by omega))
      (fun j hj1 hj2 => by
        rw [setSlot_filemap_ne _ _ _ _ (by omega)]; exact h2 j (by omega) hj2)
    refine ⟨W1, ?_⟩
    rw [alloc_many, ha]
    simp only [Option.some_bind, hW1, Option.map_some', List.range'_succ, List.map_cons,
      List.cons_append]

/-- C13: in a table whose Empty slots have `open_count` 0 (the invariant of
C2, which the assertion of `filemap_alloc` relies on), `filemap_alloc(NO_FD)`
succeeds exactly when some slot below `FS_STRUCT_NENTRY` is Empty; it then
returns 0 and stores the Empty slot of lowest index, which becomes
`FD_INIT` with `open_count` 0 and `node == NULL`, while every other slot and
the trace are unchanged; when no slot is Empty it returns `-E_MAX_OPEN` and
the state is unchanged.  From a table set up by `filemap_init`,
`FS_STRUCT_NENTRY` successive calls return 0 with the slots 0, 1, ...,
`FS_STRUCT_NENTRY - 1` and the next call returns `-E_MAX_OPEN`. -/
theorem filemap_alloc_any_lowest (c : Config) (W : World σ)
    (hinv : ∀ j, j < c.FS_STRUCT_NENTRY → EmptyHasNoRef (W.filemap j)) :
    (∀ i, i < c.FS_STRUCT_NENTRY → (W.filemap i).status = FD_NONE →
      (∀ j, j < i → (W.filemap j).status ≠ FD_NONE) →
      ∃ W1 : World σ, filemap_alloc c c.NO_FD W = some (0, some i, W1) ∧
        (W1.filemap i).status = FD_INIT ∧ (W1.filemap i).open_count = 0 ∧
        (W1.filemap i).node = 0 ∧ (∀ j, j ≠ i → W1.filemap j = W.filemap j) ∧
        W1.log = W.log) ∧
    ((∀ j, j < c.FS_STRUCT_NENTRY → (W.filemap j).status ≠ FD_NONE) →
      filemap_alloc c c.NO_FD W = some (-c.E_MAX_OPEN, none, W)) ∧
    ((∃ j, j < c.FS_STRUCT_NENTRY ∧ (W.filemap j).status = FD_NONE) ↔
      ∃ (i : Nat) (W1 : World σ), filemap_alloc c c.NO_FD W = some (0, some i, W1)) ∧
    (∀ W0 : World σ, ∃ W1 : World σ,
      alloc_many c (c.FS_STRUCT_NENTRY + 1)
          { W0 with filemap := filemap_init c W0.filemap }
        = some ((List.range c.FS_STRUCT_NENTRY).map (fun i => ((0 : Int), some i))
            ++ [(-c.E_MAX_OPEN, none)], W1)) := by
  refine ⟨?_, ?_, ?_, ?_⟩
  · intro i hi hst hlow
    refine ⟨_, filemap_alloc_any c W i hi hst (hinv i hi hst) hlow, by simp, ?_, by simp,
      fun j hj => setSlot_filemap_ne _ _ _ _ hj, rfl⟩
    simpa using hinv i hi hst
  · exact filemap_alloc_any_full c W
  · constructor
    · intro h
      obtain ⟨i, hi, hst, hlow⟩ := exists_lowest_empty W.filemap _ h
      exact ⟨i, _, filemap_alloc_any c W i hi hst (hinv i hi hst) hlow⟩
    · rintro ⟨i, W1, h⟩
      by_contra hne
      have hfull := filemap_alloc_any_full c W (fun j hj hst => hne ⟨j, hj, hst⟩)
      rw [hfull] at h
      simp at h
  · intro W0
    have h := alloc_many_from c c.FS_STRUCT_NENTRY 0
      ({ W0 with filemap := filemap_init c W0.filemap } : World σ) (by omega)
      (fun j hj => by omega)
      (fun j _ hj => by simp [filemap_init, hj])
    rw [List.range_eq_range']
    exact h

/-- An instance of C13: on the sample table with slots 0 to 2 in use, the
lowest Empty slot is 3. -/
theorem filemap_alloc_any_lowest_witness :
    ∃ W1 : World Unit, filemap_alloc sampleConfig sampleConfig.NO_FD sampleBusyWorld
        = some (0, some 3, W1) ∧
      (W1.filemap 3).status = FD_INIT ∧ (W1.filemap 3).open_count = 0 ∧
      (W1.filemap 3).node = 0 ∧ (∀ j, j ≠ 3 → W1.filemap j = sampleBusyWorld.filemap j) ∧
      W1.log = sampleBusyWorld.log :=
  (filemap_alloc_any_lowest sampleConfig sampleBusyWorld
    (fun j _ h => by
      have h3 : ¬ j < 3 := fun hlt => by
        simp [sampleBusyWorld, hlt] at h
      simp [sampleBusyWorld, h3])).1 3 (by decide) (by decide)
    (fun j hj => by simp [sampleBusyWorld, hj])

@[simp]
theorem withVfs_filemap (W : World σ) (v : σ) : (W.withVfs v).filemap = W.filemap := rfl

@[simp]
theorem withVfs_log (W : World σ) (v : σ) : (W.withVfs v).log = W.log := rfl

@[simp]
theorem withVfs_vfs (W : World σ) (v : σ) : (W.withVfs v).vfs = v := rfl

@[simp]
theorem withSys_filemap (W : World σ) (S : Sys σ) : (W.withSys S).filemap = S.filemap := rfl

@[simp]
theorem withSys_log (W : World σ) (S : Sys σ) : (W.withSys S).log = W.log := rfl

@[simp]
theorem withSys_vfs (W : World σ) (S : Sys σ) : (W.withSys S).vfs = S.vfs := rfl

theorem filemap_free_init (env : Vfs σ) (i : Nat) (W : World σ)
    (hst : (W.filemap i).status = FD_INIT) (hcnt : (W.filemap i).open_count = 0) :
    filemap_free env i W = some (W.setSlot i { W.filemap i with status := FD_NONE }) := by
  simp [filemap_free, fopen_count, hst, hcnt]

theorem file_open_append_fail (env : Vfs σ) (file node : Nat) (rd wr : Bool) (W : World σ)
    (hst : (W.filemap file).status = FD_INIT) (hcnt : (W.filemap file).open_count = 0)
    (hstat : (statAt env W node).1 ≠ 0)
    (hkeep : (statAt env W node).2.2.filemap = W.filemap) :
    ∃ W1 : World σ,
      file_open_append env file node rd wr W = some ((statAt env W node).1, W1) ∧
      W1.filemap file = { W.filemap file with status := FD_NONE } ∧
      (∀ j, j ≠ file → W1.filemap j = W.filemap j) ∧
      W1.log = W.log ++ [Event.vop_fstat node, Event.vfs_close node] := by
  unfold statAt at hstat hkeep ⊢
  unfold file_open_append
  simp only [hstat, ne_eq, not_false_eq_true, if_true]
  rw [filemap_free_init env file _ (by simp [hkeep, hst]) (by simp [hkeep, hcnt])]
  simp [hkeep]
  intro j hj
  simp [setSlot_filemap_ne _ _ _ _ hj, hkeep]

theorem file_open_bind_fail (env : Vfs σ) (c : Config) (path open_flags : Nat) (rd wr : Bool)
    (file : Nat) (W : World σ)
    (hst : (W.filemap file).status = FD_INIT) (hcnt : (W.filemap file).open_count = 0)
    (hopen : (env.vfs_open path open_flags W.vfs).1 ≠ 0) :
    ∃ W1 : World σ,
      file_open_bind env c path open_flags rd wr file W
        = some ((env.vfs_open path open_flags W.vfs).1, W1) ∧
      W1.filemap file = { W.filemap file with status := FD_NONE } ∧
      (∀ j, j ≠ file → W1.filemap j = W.filemap j) ∧
      W1.log = W.log ++ [Event.vfs_open path open_flags] := by
  unfold file_open_bind
  simp only [hopen, ne_eq, not_false_eq_true, if_true]
  rw [filemap_free_init env file _ (by simp [hst]) (by simp [hcnt])]
  simp
  intro j hj
  simp [setSlot_filemap_ne _ _ _ _ hj]

theorem file_open_bind_eq_append (env : Vfs σ) (c : Config) (path open_flags : Nat)
    (rd wr : Bool) (file : Nat) (W : World σ)
    (hopen : (env.vfs_open path open_flags W.vfs).1 = 0)
    (happ : open_flags &&& c.O_APPEND ≠ 0) :
    file_open_bind env c path open_flags rd wr file W
      = file_open_append env file (env.vfs_open path open_flags W.vfs).2.1 rd wr
          (World.setSlot
            ((W.emit (Event.vfs_open path open_flags)).withVfs
              (env.vfs_open path open_flags W.vfs).2.2)
            file { W.filemap file with pos := 0 }) := by
  unfold file_open_bind
  simp only [hopen, happ, ne_eq, not_true_eq_false, not_false_eq_true, if_false, if_true]
  rfl

theorem file_open_body_alloc (env : Vfs σ) (c : Config) (path open_flags : Nat) (rd wr : Bool)
    (W : World σ) (i : Nat) (hi : i < c.FS_STRUCT_NENTRY)
    (hst : (W.filemap i).status = FD_NONE) (hcnt : (W.filemap i).open_count = 0)
    (hlow : ∀ j, j < i → (W.filemap j).status ≠ FD_NONE) :
    file_open_body env c path open_flags rd wr W
      = file_open_bind env c path open_flags rd wr i
          (W.setSlot i { W.filemap i with status := FD_INIT, node := 0 }) := by
  unfold file_open_body
  rw [filemap_alloc_any c W i hi hst hcnt hlow]
  rfl

theorem file_open_body_full (env : Vfs σ) (c : Config) (path open_flags : Nat) (rd wr : Bool)
    (W : World σ) (hE : c.E_MAX_OPEN ≠ 0)
    (h : ∀ j, j < c.FS_STRUCT_NENTRY → (W.filemap j).status ≠ FD_NONE) :
    file_open_body env c path open_flags rd wr W = some (-c.E_MAX_OPEN, W) := by
  unfold file_open_body
  rw [filemap_alloc_any_full c W h]
  simp [hE]

theorem file_open_eq_body (env : Vfs σ) (c : Config) (path open_flags : Nat) (W : World σ)
    (hmode : open_flags &&& c.O_ACCMODE = c.O_RDONLY ∨ open_flags &&& c.O_ACCMODE = c.O_WRONLY ∨
      open_flags &&& c.O_ACCMODE = c.O_RDWR)
    (hd : c.O_RDONLY ≠ c.O_WRONLY ∧ c.O_RDONLY ≠ c.O_RDWR ∧ c.O_WRONLY ≠ c.O_RDWR) :
    file_open env c path open_flags W
      = file_open_body env c path open_flags
          (decide (open_flags &&& c.O_ACCMODE = c.O_RDONLY ∨
            open_flags &&& c.O_ACCMODE = c.O_RDWR))
          (decide (open_flags &&& c.O_ACCMODE = c.O_WRONLY ∨
            open_flags &&& c.O_ACCMODE = c.O_RDWR)) W := by
  unfold file_open
  rcases hmode with h | h | h
  · simp [h, hd.1, hd.2.1]
  · simp [h, Ne.symm hd.1, hd.2.2]
  · simp [h, Ne.symm hd.2.1, Ne.symm hd.2.2]

theorem afterOpen_eq (env : Vfs σ) (W : World σ) (i path open_flags : Nat) :
    afterOpen env W i path open_flags
      = World.setSlot
          (((W.setSlot i { W.filemap i with status := FD_INIT, node := 0 }).emit
            (Event.vfs_open path open_flags)).withVfs
            (env.vfs_open path open_flags
              (W.setSlot i { W.filemap i with status := FD_INIT, node := 0 }).vfs).2.2)
          i
          { (W.setSlot i { W.filemap i with status := FD_INIT, node := 0 }).filemap i with
            pos := 0 } := by
  simp [afterOpen]

/-- C12: in a table whose Empty slots have `open_count` 0, with `E_MAX_OPEN`
non-zero and three distinct access-mode constants, every failing path of
`file_open` returns the error of the step that failed and leaves the status
and the `open_count` of every slot as they were.  An access mode outside
`O_RDONLY`, `O_WRONLY`, `O_RDWR` returns `-E_INVAL` and a table without Empty
slot returns `-E_MAX_OPEN`, both with the state (and so the trace) unchanged;
a failing `vfs_open` returns its own value, the trace gaining only that call;
under `O_APPEND` a failing `vop_fstat` (which leaves the table alone) returns
its own value, the trace gaining `vfs_open`, `vop_fstat` and one `vfs_close`
of the node just opened. -/
theorem file_open_failure_restores (env : Vfs σ) (c : Config) (path open_flags : Nat)
    (W : World σ) (hinv : ∀ j, j < c.FS_STRUCT_NENTRY → EmptyHasNoRef (W.filemap j))
    (hE : c.E_MAX_OPEN ≠ 0)
    (hd : c.O_RDONLY ≠ c.O_WRONLY ∧ c.O_RDONLY ≠ c.O_RDWR ∧ c.O_WRONLY ≠ c.O_RDWR) :
    ((open_flags &&& c.O_ACCMODE ≠ c.O_RDONLY ∧ open_flags &&& c.O_ACCMODE ≠ c.O_WRONLY ∧
        open_flags &&& c.O_ACCMODE ≠ c.O_RDWR) →
      file_open env c path open_flags W = some (-c.E_INVAL, W)) ∧
    ((open_flags &&& c.O_ACCMODE = c.O_RDONLY ∨ open_flags &&& c.O_ACCMODE = c.O_WRONLY ∨
        open_flags &&& c.O_ACCMODE = c.O_RDWR) →
      ((∀ j, j < c.FS_STRUCT_NENTRY → (W.filemap j).status ≠ FD_NONE) →
        file_open env c path open_flags W = some (-c.E_MAX_OPEN, W)) ∧
      (∀ i, i < c.FS_STRUCT_NENTRY → (W.filemap i).status = FD_NONE →
        (∀ j, j < i → (W.filemap j).status ≠ FD_NONE) →
        ((env.vfs_open path open_flags W.vfs).1 ≠ 0 →
          ∃ W1 : World σ,
            file_open env c path open_flags W
              = some ((env.vfs_open path open_flags W.vfs).1, W1) ∧
            W1.log = W.log ++ [Event.vfs_open path open_flags] ∧
            ∀ j, (W1.filemap j).status = (W.filemap j).status ∧
              (W1.filemap j).open_count = (W.filemap j).open_count) ∧
        ((env.vfs_open path open_flags W.vfs).1 = 0 → open_flags &&& c.O_APPEND ≠ 0 →
          (appendStat env W i path open_flags).1 ≠ 0 →
          (appendStat env W i path open_flags).2.2.filemap
            = (afterOpen env W i path open_flags).filemap →
          ∃ W1 : World σ,
            file_open env c path open_flags W
              = some ((appendStat env W i path open_flags).1, W1) ∧
            W1.log = W.log ++ [Event.vfs_open path open_flags,
              Event.vop_fstat (env.vfs_open path open_flags W.vfs).2.1,
              Event.vfs_close (env.vfs_open path open_flags W.vfs).2.1] ∧
            ∀ j, (W1.filemap j).status = (W.filemap j).status ∧
              (W1.filemap j).open_count = (W.filemap j).open_count))) := by
  constructor
  · intro hbad
    simp [file_open, hbad.1, hbad.2.1, hbad.2.2]
  · intro hmode
    have hbody := file_open_eq_body env c path open_flags W hmode hd
    refine ⟨fun hfull => ?_, fun i hi hst hlow => ⟨fun hopen => ?_, fun hopen happ hstat hkeep => ?_⟩⟩
    · rw [hbody]
      exact file_open_body_full env c path open_flags _ _ W hE hfull
    · have hcnt := hinv i hi hst
      obtain ⟨W1, h1, h2, h3, h4⟩ :=
        file_open_bind_fail env c path open_flags
          (decide (open_flags &&& c.O_ACCMODE = c.O_RDONLY ∨
            open_flags &&& c.O_ACCMODE = c.O_RDWR))
          (decide (open_flags &&& c.O_ACCMODE = c.O_WRONLY ∨
            open_flags &&& c.O_ACCMODE = c.O_RDWR)) i
          (W.setSlot i { W.filemap i with status := FD_INIT, node := 0 }) (by simp)
          (by simpa using hcnt) (by simpa using hopen)
      refine ⟨W1, ?_, by simpa using h4, fun j => ?_⟩
      · rw [hbody, file_open_body_alloc env c path open_flags _ _ W i hi hst hcnt hlow]
        simpa using h1
      · by_cases hj : j = i
        · subst hj
          rw [h2]
          simp [hst]
        · rw [h3 j hj, setSlot_filemap_ne _ _ _ _ hj]
          exact ⟨rfl, rfl⟩
    · have hcnt := hinv i hi hst
      have hbind := file_open_bind_eq_append env c path open_flags
        (decide (open_flags &&& c.O_ACCMODE = c.O_RDONLY ∨
          open_flags &&& c.O_ACCMODE = c.O_RDWR))
        (decide (open_flags &&& c.O_ACCMODE = c.O_WRONLY ∨
          open_flags &&& c.O_ACCMODE = c.O_RDWR)) i
        (W.setSlot i { W.filemap i with status := FD_INIT, node := 0 })
        (by simpa using hopen) happ
      rw [← afterOpen_eq env W i path open_flags] at hbind
      obtain ⟨W1, h1, h2, h3, h4⟩ :=
        file_open_append_fail env i (env.vfs_open path open_flags W.vfs).2.1
          (decide (open_flags &&& c.O_ACCMODE = c.O_RDONLY ∨
            open_flags &&& c.O_ACCMODE = c.O_RDWR))
          (decide (open_flags &&& c.O_ACCMODE = c.O_WRONLY ∨
            open_flags &&& c.O_ACCMODE = c.O_RDWR))
          (afterOpen env W i path open_flags) (by simp [afterOpen])
          (by simpa [afterOpen] using hcnt) hstat hkeep
      refine ⟨W1, ?_, ?_, fun j => ?_⟩
      · rw [hbody, file_open_body_alloc env c path open_flags _ _ W i hi hst hcnt hlow, hbind]
        exact h1
      · rw [h4]
        simp [afterOpen]
      · by_cases hj : j = i
        · subst hj
          rw [h2]
          simp [afterOpen, hst]
        · rw [h3 j hj]
          simp [afterOpen, setSlot_filemap_ne _ _ _ _ hj]

/-- Instances of C12 on the sample table with slots 0 to 2 in use: the access
mode 3 is rejected with `-E_INVAL`; `vfs_open` of the null path fails with -16;
under `O_APPEND` a `vop_fstat` failing with -5 is reported and the trace shows
one `vfs_close` of node 7. -/
theorem file_open_failure_restores_witness :
    file_open sampleVfs sampleConfig 7 3 sampleBusyWorld = some (-3, sampleBusyWorld) ∧
    (∃ W1 : World Unit, file_open sampleVfs sampleConfig 0 2 sampleBusyWorld = some (-16, W1) ∧
      W1.log = [Event.vfs_open 0 2] ∧
      ∀ j, (W1.filemap j).status = (sampleBusyWorld.filemap j).status ∧
        (W1.filemap j).open_count = (sampleBusyWorld.filemap j).open_count) ∧
    (∃ W1 : World Unit,
      file_open failingStatVfs sampleConfig 7 34 sampleBusyWorld = some (-5, W1) ∧
      W1.log = [Event.vfs_open 7 34, Event.vop_fstat 7, Event.vfs_close 7] ∧
      ∀ j, (W1.filemap j).status = (sampleBusyWorld.filemap j).status ∧
        (W1.filemap j).open_count = (sampleBusyWorld.filemap j).open_count) :=
  have hinv : ∀ j, j < sampleConfig.FS_STRUCT_NENTRY →
      EmptyHasNoRef (sampleBusyWorld.filemap j) := fun j _ h => by
    have h3 : ¬ j < 3 := fun hlt => by simp [sampleBusyWorld, hlt] at h
    simp [sampleBusyWorld, h3]
  ⟨(file_open_failure_restores sampleVfs sampleConfig 7 3 sampleBusyWorld hinv (by decide)
      (by decide)).1 (by decide),
    (((file_open_failure_restores sampleVfs sampleConfig 0 2 sampleBusyWorld hinv (by decide)
      (by decide)).2 (Or.inr (Or.inr (by decide)))).2 3 (by decide) (by decide)
      (fun j hj => by simp [sampleBusyWorld, hj])).1 (by decide),
    (((file_open_failure_restores failingStatVfs sampleConfig 7 34 sampleBusyWorld hinv
      (by decide) (by decide)).2 (Or.inr (Or.inr (by decide)))).2 3 (by decide) (by decide)
      (fun j hj => by simp [sampleBusyWorld, hj])).2 (by decide) (by decide) (by decide) rfl⟩

end AllocProps

/-! ### `file_dup` -/

section DupProps

variable {σ : Type}

theorem filemap_dup_ok (env : Vfs σ) (t fr : Nat) (W : World σ)
    (ht : (W.filemap t).status = FD_INIT) (hfr : (W.filemap fr).status = FD_OPENED)
    (hnode : (W.filemap fr).node ≠ 0) :
    ∃ W1 : World σ, filemap_dup env t fr W = some W1 ∧
      W1.filemap t =
        { W.filemap t with
          pos := (W.filemap fr).pos, readable := (W.filemap fr).readable,
          writable := (W.filemap fr).writable, node := (W.filemap fr).node,
          status := FD_OPENED, open_count := (W.filemap t).open_count + 1 } ∧
      (∀ j, j ≠ t → W1.filemap j = W.filemap j) ∧
      W1.log = W.log ++ [Event.vop_ref_inc (W.filemap fr).node,
        Event.vop_open_inc (W.filemap fr).node] ∧
      W1.vfs = env.vop_open_inc (W.filemap fr).node (env.vop_ref_inc (W.filemap fr).node W.vfs) := by
  have hne : fr ≠ t := by
    intro h
    rw [h, ht] at hfr
    exact absurd hfr (by decide)
  unfold filemap_dup
  rw [if_pos ⟨ht, hfr⟩]
  simp [filemap_open, setSlot_filemap_ne _ _ _ _ hne, hnode, ht, fopen_count_inc]
  intro j hj
  simp [setSlot_filemap_ne _ _ _ _ hj]

theorem file_dup_after_alloc (env : Vfs σ) (c : Config) (fd1 fd2 : Int) (W : World σ)
    (s d : Nat) (hres : fd2file c fd1 W = (0, some s)) (hnode : (W.filemap s).node ≠ 0)
    (hst : (W.filemap d).status = FD_NONE) (hcnt : (W.filemap d).open_count = 0)
    (hfd : (W.filemap d).fd = d)
    (halloc : filemap_alloc c fd2 W
      = some (0, some d, W.setSlot d { W.filemap d with status := FD_INIT, node := 0 })) :
    ∃ W1 : World σ, file_dup env c fd1 fd2 W = some ((d : Int), W1) ∧
      W1.filemap d =
        { W.filemap d with
          pos := (W.filemap s).pos, readable := (W.filemap s).readable,
          writable := (W.filemap s).writable, node := (W.filemap s).node,
          status := FD_OPENED, open_count := 1 } ∧
      (∀ j, j ≠ d → W1.filemap j = W.filemap j) ∧
      W1.log = W.log ++ [Event.vop_ref_inc (W.filemap s).node,
        Event.vop_open_inc (W.filemap s).node] ∧
      W1.vfs = env.vop_open_inc (W.filemap s).node (env.vop_ref_inc (W.filemap s).node W.vfs) := by
  obtain ⟨_, _, hsst, _⟩ := fd2file_some c fd1 W s hres
  have hne : s ≠ d := by
    intro h
    rw [h, hst] at hsst
    exact absurd hsst (by decide)
  have hs : (W.setSlot d { W.filemap d with status := FD_INIT, node := 0 }).filemap s
      = W.filemap s := setSlot_filemap_ne _ _ _ _ hne
  obtain ⟨W1, h1, h2, h3, h4, h5⟩ :=
    filemap_dup_ok env d s (W.setSlot d { W.filemap d with status := FD_INIT, node := 0 })
      (by simp) (by rw [hs]; exact hsst) (by rw [hs]; exact hnode)
  rw [hs] at h2 h4 h5
  refine ⟨W1, ?_, ?_, ?_, h4, h5⟩
  · unfold file_dup
    simp only [hres, ne_eq, not_true_eq_false, if_false, halloc, Option.some_bind, h1,
      Option.map_some']
    rw [h2]
    simp [hfd]
  · rw [h2]
    simp [hcnt]
  · intro j hj
    rw [h3 j hj, setSlot_filemap_ne _ _ _ _ hj]

/-- C14: when `fd1` resolves to an Open slot `s` bound to a node, and the
destination can be allocated in slot `d` (an Empty slot with `open_count` 0
that records its own index; either `fd2` is `NO_FD` and `d` is the lowest
Empty slot, or `fd2` is `d` itself), `file_dup(fd1, fd2)` returns `d`;
afterwards slot `d` is `FD_OPENED` with `open_count` 1 and has the position,
the readable and writable flags and the node of `s`; `vop_ref_inc` and
`vop_open_inc` have each been called exactly once, on that node; and every
slot other than `d`, `s` included, is unchanged. -/
theorem file_dup_copies (env : Vfs σ) (c : Config) (fd1 fd2 : Int) (W : World σ)
    (s d : Nat) (hres : fd2file c fd1 W = (0, some s)) (hnode : (W.filemap s).node ≠ 0)
    (hNO : testfd c c.NO_FD = false) (hd : d < c.FS_STRUCT_NENTRY)
    (hst : (W.filemap d).status = FD_NONE) (hcnt : (W.filemap d).open_count = 0)
    (hfd : (W.filemap d).fd = d)
    (hreq : (fd2 = c.NO_FD ∧ ∀ j, j < d → (W.filemap j).status ≠ FD_NONE) ∨ fd2 = (d : Int)) :
    ∃ W1 : World σ, file_dup env c fd1 fd2 W = some ((d : Int), W1) ∧
      (W1.filemap d).status = FD_OPENED ∧ (W1.filemap d).open_count = 1 ∧
      (W1.filemap d).pos = (W.filemap s).pos ∧
      (W1.filemap d).readable = (W.filemap s).readable ∧
      (W1.filemap d).writable = (W.filemap s).writable ∧
      (W1.filemap d).node = (W.filemap s).node ∧
      W1.log = W.log ++ [Event.vop_ref_inc (W.filemap s).node,
        Event.vop_open_inc (W.filemap s).node] ∧
      W1.vfs = env.vop_open_inc (W.filemap s).node (env.vop_ref_inc (W.filemap s).node W.vfs) ∧
      W1.filemap s = W.filemap s ∧ (∀ j, j ≠ d → W1.filemap j = W.filemap j) := by
  have halloc : filemap_alloc c fd2 W
      = some (0, some d, W.setSlot d { W.filemap d with status := FD_INIT, node := 0 }) := by
    rcases hreq with ⟨h1, h2⟩ | h
    · rw [h1]
      exact filemap_alloc_any c W d hd hst hcnt h2
    · have ht : testfd c fd2 = true := by
        simp [testfd, h, hd]
      have hno : fd2 ≠ c.NO_FD := by
        intro hh
        rw [hh, hNO] at ht
        exact absurd ht (by decide)
      have hdn : fd2.toNat = d := by simp [h]
      have := filemap_alloc_at c W fd2 hno ht (by rw [hdn]; exact hst) (by rw [hdn]; exact hcnt)
      rw [hdn] at this
      exact this
  obtain ⟨_, _, hsst, _⟩ := fd2file_some c fd1 W s hres
  have hne : s ≠ d := by
    intro h
    rw [h, hst] at hsst
    exact absurd hsst (by decide)
  obtain ⟨W1, h1, h2, h3, h4, h5⟩ :=
    file_dup_after_alloc env c fd1 fd2 W s d hres hnode hst hcnt hfd halloc
  exact ⟨W1, h1, by rw [h2], by rw [h2], by rw [h2], by rw [h2], by rw [h2], by rw [h2], h4, h5,
    h3 s hne, h3⟩

/-- Instances of C14 on the sample table with slots 0 to 2 in use:
`file_dup(0, NO_FD)` returns 3 and `file_dup(0, 5)` returns 5; the new slot has
the position 40 and the node 9 of slot 0. -/
theorem file_dup_copies_witness :
    (∃ W1 : World Unit, file_dup sampleVfs sampleConfig 0 (-38183) sampleBusyWorld
        = some (3, W1) ∧
      (W1.filemap 3).status = FD_OPENED ∧ (W1.filemap 3).open_count = 1 ∧
      (W1.filemap 3).pos = 40 ∧ (W1.filemap 3).node = 9 ∧
      W1.log = [Event.vop_ref_inc 9, Event.vop_open_inc 9]) ∧
    (∃ W1 : World Unit, file_dup sampleVfs sampleConfig 0 5 sampleBusyWorld = some (5, W1) ∧
      (W1.filemap 5).status = FD_OPENED ∧ (W1.filemap 5).open_count = 1 ∧
      (W1.filemap 5).pos = 40 ∧ (W1.filemap 5).node = 9 ∧
      W1.log = [Event.vop_ref_inc 9, Event.vop_open_inc 9]) := by
  constructor
  · obtain ⟨W1, h1, h2, h3, h4, _, _, h7, h8, _⟩ :=
      file_dup_copies sampleVfs sampleConfig 0 (-38183) sampleBusyWorld 0 3 (by decide)
        (by decide) (by decide) (by decide) (by decide) (by decide) (by decide)
        (Or.inl ⟨rfl, fun j hj => by simp [sampleBusyWorld, hj]⟩)
    exact ⟨W1, h1, h2, h3, h4, h7, h8⟩
  · obtain ⟨W1, h1, h2, h3, h4, _, _, h7, h8, _⟩ :=
      file_dup_copies sampleVfs sampleConfig 0 5 sampleBusyWorld 0 5 (by decide)
        (by decide) (by decide) (by decide) (by decide) (by decide) (by decide)
        (Or.inr rfl)
    exact ⟨W1, h1, h2, h3, h4, h7, h8⟩

/-- C15: with non-zero error constants and `NO_FD` outside the descriptor
range, `file_dup(fd1, fd2)` returns `-E_INVAL` when `fd1` does not resolve to
an Open slot, and also when `fd1` resolves and `fd2` is neither `NO_FD` nor in
range; `-E_BUSY` when `fd1` resolves and `fd2` is in range with a slot that is
not Empty (in particular for `fd2 = fd1`); `-E_MAX_OPEN` when `fd1` resolves,
`fd2` is `NO_FD` and no slot is Empty.  In each of these cases the state on
return is the state on entry (no slot changed, no collaborator call).  In
every remaining case (`fd1` resolves to a slot bound to a node and the
destination is an Empty slot with `open_count` 0 that records its index) the
call does not fail: it returns the index of the destination. -/
theorem file_dup_failure_codes (env : Vfs σ) (c : Config) (fd1 fd2 : Int) (W : World σ)
    (hE : c.E_INVAL ≠ 0 ∧ c.E_BUSY ≠ 0 ∧ c.E_MAX_OPEN ≠ 0)
    (hNO : testfd c c.NO_FD = false) :
    ((testfd c fd1 = false ∨ (W.filemap fd1.toNat).status ≠ FD_OPENED ∨
        (W.filemap fd1.toNat).fd ≠ fd1) →
      file_dup env c fd1 fd2 W = some (-c.E_INVAL, W)) ∧
    (∀ s, fd2file c fd1 W = (0, some s) →
      (fd2 ≠ c.NO_FD → testfd c fd2 = false →
        file_dup env c fd1 fd2 W = some (-c.E_INVAL, W)) ∧
      (fd2 ≠ c.NO_FD → testfd c fd2 = true → (W.filemap fd2.toNat).status ≠ FD_NONE →
        file_dup env c fd1 fd2 W = some (-c.E_BUSY, W)) ∧
      (fd2 = fd1 → file_dup env c fd1 fd2 W = some (-c.E_BUSY, W)) ∧
      (fd2 = c.NO_FD → (∀ j, j < c.FS_STRUCT_NENTRY → (W.filemap j).status ≠ FD_NONE) →
        file_dup env c fd1 fd2 W = some (-c.E_MAX_OPEN, W)) ∧
      ((W.filemap s).node ≠ 0 →
        (∀ j, j < c.FS_STRUCT_NENTRY →
          EmptyHasNoRef (W.filemap j) ∧ (W.filemap j).fd = j) →
        ((fd2 = c.NO_FD ∧ ∃ j, j < c.FS_STRUCT_NENTRY ∧ (W.filemap j).status = FD_NONE) ∨
          (fd2 ≠ c.NO_FD ∧ testfd c fd2 = true ∧ (W.filemap fd2.toNat).status = FD_NONE)) →
        ∃ (d : Nat) (W1 : World σ), d < c.FS_STRUCT_NENTRY ∧
          file_dup env c fd1 fd2 W = some ((d : Int), W1))) := by
  constructor
  · intro hbad
    simp [file_dup, fd2file_bad c fd1 W hbad, hE.1]
  · intro s hres
    obtain ⟨hs, ht1, hsst, _⟩ := fd2file_some c fd1 W s hres
    have hbusy : ∀ fd : Int, fd ≠ c.NO_FD → testfd c fd = true →
        (W.filemap fd.toNat).status ≠ FD_NONE →
        file_dup env c fd1 fd W = some (-c.E_BUSY, W) := by
      intro fd hno ht hst
      simp [file_dup, hres, filemap_alloc_busy c W fd hno ht hst, hE.2.1]
    refine ⟨?_, hbusy fd2, ?_, ?_, ?_⟩
    · intro hno ht
      simp [file_dup, hres, filemap_alloc_range c W fd2 hno ht, hE.1]
    · intro h
      subst h
      refine hbusy fd2 ?_ ht1 ?_
      · intro hh
        rw [hh, hNO] at ht1
        exact absurd ht1 (by decide)
      · rw [← hs, hsst]
        decide
    · intro hno hfull
      subst hno
      simp [file_dup, hres, filemap_alloc_any_full c W hfull, hE.2.2]
    · intro hnode hinv hreq
      rcases hreq with ⟨hno, hex⟩ | ⟨hno, ht, hst⟩
      · obtain ⟨d, hd, hst, hlow⟩ := exists_lowest_empty W.filemap _ hex
        obtain ⟨W1, h1, _⟩ :=
          file_dup_after_alloc env c fd1 fd2 W s d hres hnode hst ((hinv d hd).1 hst)
            (hinv d hd).2
            (by rw [hno]; exact filemap_alloc_any c W d hd hst ((hinv d hd).1 hst) hlow)
        exact ⟨d, W1, hd, h1⟩
      · have hd : fd2.toNat < c.FS_STRUCT_NENTRY := by
          simp only [testfd, Bool.and_eq_true, decide_eq_true_eq] at ht
          omega
        obtain ⟨W1, h1, _⟩ :=
          file_dup_after_alloc env c fd1 fd2 W s fd2.toNat hres hnode hst
            ((hinv _ hd).1 hst) (hinv _ hd).2
            (filemap_alloc_at c W fd2 hno ht hst ((hinv _ hd).1 hst))
        exact ⟨fd2.toNat, W1, hd, h1⟩

/-- Instances of C15 on the sample table with slots 0 to 2 in use: a source
that is Empty, a destination out of range, a destination in use, the source
itself as destination, and (on `sampleFullWorld`) no Empty slot. -/
theorem file_dup_failure_codes_witness :
    file_dup sampleVfs sampleConfig 5 6 sampleBusyWorld = some (-3, sampleBusyWorld) ∧
    file_dup sampleVfs sampleConfig 0 8 sampleBusyWorld = some (-3, sampleBusyWorld) ∧
    file_dup sampleVfs sampleConfig 0 1 sampleBusyWorld = some (-15, sampleBusyWorld) ∧
    file_dup sampleVfs sampleConfig 0 0 sampleBusyWorld = some (-15, sampleBusyWorld) ∧
    file_dup sampleVfs sampleConfig 0 (-38183) sampleFullWorld = some (-22, sampleFullWorld) :=
  ⟨(file_dup_failure_codes sampleVfs sampleConfig 5 6 sampleBusyWorld (by decide)
      (by decide)).1 (Or.inr (Or.inl (by decide))),
    ((file_dup_failure_codes sampleVfs sampleConfig 0 8 sampleBusyWorld (by decide)
      (by decide)).2 0 (by decide)).1 (by decide) (by decide),
    ((file_dup_failure_codes sampleVfs sampleConfig 0 1 sampleBusyWorld (by decide)
      (by decide)).2 0 (by decide)).2.1 (by decide) (by decide) (by decide),
    ((file_dup_failure_codes sampleVfs sampleConfig 0 0 sampleBusyWorld (by decide)
      (by decide)).2 0 (by decide)).2.2.1 rfl,
    ((file_dup_failure_codes sampleVfs sampleConfig 0 (-38183) sampleFullWorld (by decide)
      (by decide)).2 0 (by decide)).2.2.2.1 rfl (fun j _ => by simp [sampleFullWorld])⟩

end DupProps

/-! ### Operations in flight -/

section FlightProps

variable {σ : Type}

theorem filemap_close_inflight (env : Vfs σ) (i : Nat) (W : World σ)
    (hst : (W.filemap i).status = FD_OPENED) (hc : 1 < (W.filemap i).open_count) :
    filemap_close env i W
      = some (W.setSlot i (fopen_count_dec { W.filemap i with status := FD_CLOSED })) := by
  unfold filemap_close
  simp only [fopen_count, hst, true_and]
  rw [if_pos (by omega), if_neg]
  simp only [setSlot_filemap_same, fopen_count_dec]
  omega

theorem file_rw_finish_closing (env : Vfs σ) (c : Config) (i : Nat) (ret : Int) (copied : Nat)
    (W : World σ) (hst : (W.filemap i).status = FD_CLOSED)
    (hc : (W.filemap i).open_count = 1) :
    ∃ W1 : World σ, file_rw_finish env c i ret copied W = some (ret, copied, W1) ∧
      W1.filemap i = { W.filemap i with status := FD_NONE, open_count := 0 } ∧
      W1.log = W.log ++ [Event.vfs_close (W.filemap i).node] := by
  unfold file_rw_finish
  simp [hst, filemap_release, filemap_free, fopen_count, fopen_count_dec, hc]

/-- C16: let `fd` resolve to an Open readable (resp. writable) slot with
`open_count` 1 and position `p`, and let a `filemap_close` of that slot run
while `file_read` (resp. `file_write`) holds its acquire, so that the transfer
returns with the slot as that close left it.  Then the close did not finalize
the slot (it is `FD_CLOSED` with `open_count` 1 and no `vfs_close` was
traced); the operation returns the transfer's result and byte count; and its
own release finalizes the slot: the slot ends `FD_NONE` with `open_count` 0,
its position still `p`, and the trace gains the transfer and exactly one
`vfs_close` of the node. -/
theorem file_rw_close_during_transfer (env : Vfs σ) (c : Config) (fd : Int) (base len : Nat)
    (W Wm Wc : World σ) (i : Nat) (hres : fd2file c fd W = (0, some i))
    (hcnt : (W.filemap i).open_count = 1)
    (hm : Wm.filemap i = fopen_count_inc (W.filemap i))
    (hclose : filemap_close env i Wm = some Wc) :
    ((Wc.filemap i).status = FD_CLOSED ∧ (Wc.filemap i).open_count = 1 ∧
      (Wc.filemap i).pos = (W.filemap i).pos ∧ Wc.log = Wm.log) ∧
    ((W.filemap i).readable = true →
      (readTransfer env W i base len).2.2.filemap i = Wc.filemap i →
      ∃ W1 : World σ,
        file_read env c fd base len W
          = some ((readTransfer env W i base len).1, (readTransfer env W i base len).2.1, W1) ∧
        (W1.filemap i).status = FD_NONE ∧ (W1.filemap i).open_count = 0 ∧
        (W1.filemap i).pos = (W.filemap i).pos ∧
        W1.log = W.log ++ [Event.vop_read (W.filemap i).node ⟨base, len, (W.filemap i).pos⟩,
          Event.vfs_close (W.filemap i).node]) ∧
    ((W.filemap i).writable = true →
      (writeTransfer env W i base len).2.2.filemap i = Wc.filemap i →
      ∃ W1 : World σ,
        file_write env c fd base len W
          = some ((writeTransfer env W i base len).1, (writeTransfer env W i base len).2.1,
              W1) ∧
        (W1.filemap i).status = FD_NONE ∧ (W1.filemap i).open_count = 0 ∧
        (W1.filemap i).pos = (W.filemap i).pos ∧
        W1.log = W.log ++ [Event.vop_write (W.filemap i).node ⟨base, len, (W.filemap i).pos⟩,
          Event.vfs_close (W.filemap i).node]) := by
  obtain ⟨_, _, hst, _⟩ := fd2file_some c fd W i hres
  rw [filemap_close_inflight env i Wm (by rw [hm]; exact hst) (by rw [hm]; simp [hcnt])] at hclose
  injection hclose with hclose
  have hslot : Wc.filemap i
      = { W.filemap i with status := FD_CLOSED, open_count := 1 } := by
    rw [← hclose]
    simp [hm, fopen_count_dec, fopen_count_inc, hcnt]
  refine ⟨⟨by rw [hslot], by rw [hslot], by rw [hslot], by rw [← hclose]; rfl⟩, ?_, ?_⟩
  · intro hr ht
    rw [hslot] at ht
    obtain ⟨W1, h1, h2, h3⟩ :=
      file_rw_finish_closing env c i (readTransfer env W i base len).1
        (readTransfer env W i base len).2.1
        (World.withSys
          ((W.setSlot i (fopen_count_inc (W.filemap i))).emit
            (Event.vop_read (W.filemap i).node ⟨base, len, (W.filemap i).pos⟩))
          (readTransfer env W i base len).2.2)
        (by simp [ht]) (by simp [ht])
    simp only [withSys_filemap, ht, withSys_log, emit_log, setSlot_log] at h2 h3
    refine ⟨W1, ?_, by rw [h2], by rw [h2], by rw [h2], by simpa using h3⟩
    rw [← h1]
    unfold file_read readTransfer
    simp only [hres, ne_eq, not_true_eq_false, if_false]
    rw [if_neg (by simp [hr]), filemap_acquire_open i W hst]
    simp only [Option.some_bind, setSlot_filemap_same, fopen_count_inc_node,
      fopen_count_inc_pos]
    rfl
  · intro hr ht
    rw [hslot] at ht
    obtain ⟨W1, h1, h2, h3⟩ :=
      file_rw_finish_closing env c i (writeTransfer env W i base len).1
        (writeTransfer env W i base len).2.1
        (World.withSys
          ((W.setSlot i (fopen_count_inc (W.filemap i))).emit
            (Event.vop_write (W.filemap i).node ⟨base, len, (W.filemap i).pos⟩))
          (writeTransfer env W i base len).2.2)
        (by simp [ht]) (by simp [ht])
    simp only [withSys_filemap, ht, withSys_log, emit_log, setSlot_log] at h2 h3
    refine ⟨W1, ?_, by rw [h2], by rw [h2], by rw [h2], by simpa using h3⟩
    rw [← h1]
    unfold file_write writeTransfer
    simp only [hres, ne_eq, not_true_eq_false, if_false]
    rw [if_neg (by simp [hr]), filemap_acquire_open i W hst]
    simp only [Option.some_bind, setSlot_filemap_same, fopen_count_inc_node,
      fopen_count_inc_pos]
    rfl

/-- An instance of C16: descriptor 3 of the sample table is closed while
`file_read` of 5 bytes is in its transfer; the read returns 0 with 5 bytes
copied, the slot ends Empty with position 0, and the trace is the transfer
followed by one `vfs_close` of node 7. -/
theorem file_rw_close_during_transfer_witness :
    ∃ W1 : World Unit,
      file_read closingVfs sampleConfig 3 0 5 sampleOpenWorld = some (0, 5, W1) ∧
      (W1.filemap 3).status = FD_NONE ∧ (W1.filemap 3).open_count = 0 ∧
      (W1.filemap 3).pos = 0 ∧
      W1.log = [Event.vop_read 7 ⟨0, 5, 0⟩, Event.vfs_close 7] :=
  have hsome : (filemap_close closingVfs 3 sampleMidWorld).isSome = true := by decide
  (file_rw_close_during_transfer closingVfs sampleConfig 3 0 5 sampleOpenWorld sampleMidWorld
    ((filemap_close closingVfs 3 sampleMidWorld).get hsome) 3 (by decide) (by decide) rfl
    (Option.some_get hsome).symm).2.1 (by decide) rfl

theorem fopen_count_dec_inc (f : File) : fopen_count_dec (fopen_count_inc f) = f := by
  cases f
  simp [fopen_count_dec, fopen_count_inc]

theorem release_after_call (env : Vfs σ) (i : Nat) (f : File) (Wx : World σ)
    (hst : f.status = FD_OPENED) (hcnt : 0 < f.open_count)
    (hx : Wx.filemap i = fopen_count_inc f) :
    ∃ W1 : World σ, filemap_release env i Wx = some W1 ∧ W1.filemap i = f ∧
      W1.log = Wx.log ∧ ∀ j, j ≠ i → W1.filemap j = Wx.filemap j := by
  rw [filemap_release_live env i Wx (by rw [hx]; exact hst) (by rw [hx]; simp; omega)]
  refine ⟨_, rfl, ?_, rfl, fun j hj => setSlot_filemap_ne _ _ _ _ hj⟩
  rw [setSlot_filemap_same, hx, fopen_count_dec_inc]

theorem count_close_append_one (l : List Event) (e : Event) (nd : Nat)
    (h : e ≠ Event.vfs_close nd) :
    (l ++ [e]).count (Event.vfs_close nd) = l.count (Event.vfs_close nd) := by
  simp [List.count_append, List.count_cons, h]

theorem file_rw_finish_frame (env : Vfs σ) (c : Config) (i : Nat) (f : File) (ret : Int)
    (copied : Nat) (Wx : World σ) (hst : f.status = FD_OPENED) (hcnt : 0 < f.open_count)
    (hx : Wx.filemap i = fopen_count_inc f) :
    ∃ W1 : World σ, file_rw_finish env c i ret copied Wx = some (ret, copied, W1) ∧
      (W1.filemap i).open_count = f.open_count ∧ (W1.filemap i).status = FD_OPENED ∧
      W1.log = Wx.log := by
  rw [file_rw_finish_open env c i ret copied Wx (by rw [hx]; exact hst)
    (by rw [hx]; simp; omega)]
  refine ⟨_, rfl, ?_, ?_, rfl⟩
  · simp [hx]
  · simp [hx, hst]

theorem file_seek_whence_frame (env : Vfs σ) (c : Config) (i : Nat) (pos whence : Int)
    (Wa : World σ) (hq : env.keepsSlot i) :
    (file_seek_whence env c i pos whence Wa).2.2.filemap i = Wa.filemap i ∧
    ∀ nd, (file_seek_whence env c i pos whence Wa).2.2.log.count (Event.vfs_close nd)
      = Wa.log.count (Event.vfs_close nd) := by
  unfold file_seek_whence
  split
  · exact ⟨rfl, fun _ => rfl⟩
  · split
    · exact ⟨rfl, fun _ => rfl⟩
    · split
      · have hk := hq.2.2.1 (Wa.filemap i).node
          (Wa.emit (Event.vop_fstat (Wa.filemap i).node)).toSys
        dsimp only
        split
        · exact ⟨hk, fun nd => count_close_append_one _ _ nd (by simp)⟩
        · exact ⟨hk, fun nd => count_close_append_one _ _ nd (by simp)⟩
      · exact ⟨rfl, fun _ => rfl⟩

theorem file_seek_commit_frame (env : Vfs σ) (i : Nat) (f : File) (ret t : Int) (Wc : World σ)
    (hq : env.keepsSlot i) (hst : f.status = FD_OPENED) (hcnt : 0 < f.open_count)
    (hslot : Wc.filemap i = fopen_count_inc f) :
    ∃ (r : Int) (W1 : World σ), file_seek_commit env i ret t Wc = some (r, W1) ∧
      (W1.filemap i).open_count = f.open_count ∧ (W1.filemap i).status = FD_OPENED ∧
      ∀ nd, W1.log.count (Event.vfs_close nd) = Wc.log.count (Event.vfs_close nd) := by
  by_cases hret : ret = 0
  · subst hret
    obtain ⟨W1, h1, h2, h3⟩ := file_seek_commit_spec env i f t Wc hq hst hcnt hslot
    refine ⟨_, W1, h1, by rw [h3], by rw [h3]; exact hst, fun nd => ?_⟩
    rw [h2]
    exact count_close_append_one _ _ nd (by simp)
  · obtain ⟨W1, h1, h2, h3⟩ := file_seek_commit_error env i f ret t Wc hret hst hcnt hslot
    exact ⟨_, W1, h1, by rw [h3], by rw [h3]; exact hst, fun nd => by rw [h2]⟩

/-- C17: when `fd` resolves to an Open slot that holds its owner's reference
and the collaborator calls leave that slot alone, each of `file_read`,
`file_write`, `file_seek`, `file_fstat`, `file_fsync` and `file_getdirentry`
returns, whatever the collaborator returned, with the slot's `open_count`
equal to its value on entry, the slot still `FD_OPENED`, and no `vfs_close`
added to the trace: the acquire is matched by one release, which does not
finalize the slot. -/
theorem file_ops_balanced (env : Vfs σ) (c : Config) (fd : Int) (W : World σ) (i : Nat)
    (hres : fd2file c fd W = (0, some i)) (hcnt : 0 < (W.filemap i).open_count)
    (hq : env.keepsSlot i) :
    (∀ base len, ∃ (r : Int × Nat) (W1 : World σ),
      file_read env c fd base len W = some (r.1, r.2, W1) ∧ Balanced W W1 i) ∧
    (∀ base len, ∃ (r : Int × Nat) (W1 : World σ),
      file_write env c fd base len W = some (r.1, r.2, W1) ∧ Balanced W W1 i) ∧
    (∀ pos whence, ∃ (r : Int) (W1 : World σ),
      file_seek env c fd pos whence W = some (r, W1) ∧ Balanced W W1 i) ∧
    (∀ stat, ∃ (r : Int × Stat) (W1 : World σ),
      file_fstat env c fd stat W = some (r.1, r.2, W1) ∧ Balanced W W1 i) ∧
    (∃ (r : Int) (W1 : World σ), file_fsync env c fd W = some (r, W1) ∧ Balanced W W1 i) ∧
    (∀ d, ∃ (r : Int × Dirent) (W1 : World σ),
      file_getdirentry env c fd d W = some (r.1, r.2, W1) ∧ Balanced W W1 i) := by
  obtain ⟨_, _, hst, _⟩ := fd2file_some c fd W i hres
  have hacq := filemap_acquire_open i W hst
  refine ⟨?_, ?_, ?_, ?_, ?_, ?_⟩
  · intro base len
    by_cases hr : (W.filemap i).readable = true
    · have hk := hq.1 (W.filemap i).node ⟨base, len, (W.filemap i).pos⟩
        ((W.setSlot i (fopen_count_inc (W.filemap i))).emit
          (Event.vop_read (W.filemap i).node ⟨base, len, (W.filemap i).pos⟩)).toSys
      obtain ⟨W1, h1, h2, h3, h4⟩ :=
        file_rw_finish_frame env c i (W.filemap i) (readTransfer env W i base len).1
          (readTransfer env W i base len).2.1
          (World.withSys
            ((W.setSlot i (fopen_count_inc (W.filemap i))).emit
              (Event.vop_read (W.filemap i).node ⟨base, len, (W.filemap i).pos⟩))
            (readTransfer env W i base len).2.2)
          hst hcnt (by simpa [readTransfer] using hk)
      refine ⟨((readTransfer env W i base len).1, (readTransfer env W i base len).2.1), W1,
        ?_, h2, h3, fun nd => ?_⟩
      · rw [← h1]
        unfold file_read readTransfer
        simp only [hres, ne_eq, not_true_eq_false, if_false]
        rw [if_neg (by simp [hr]), hacq]
        simp only [Option.some_bind, setSlot_filemap_same, fopen_count_inc_node,
          fopen_count_inc_pos]
        rfl
      · rw [h4]
        exact count_close_append_one _ _ nd (by simp)
    · refine ⟨(-c.E_INVAL, 0), W, ?_, rfl, hst, fun _ => rfl⟩
      simp [file_read, hres, hr]
  · intro base len
    by_cases hr : (W.filemap i).writable = true
    · have hk := hq.2.1 (W.filemap i).node ⟨base, len, (W.filemap i).pos⟩
        ((W.setSlot i (fopen_count_inc (W.filemap i))).emit
          (Event.vop_write (W.filemap i).node ⟨base, len, (W.filemap i).pos⟩)).toSys
      obtain ⟨W1, h1, h2, h3, h4⟩ :=
        file_rw_finish_frame env c i (W.filemap i) (writeTransfer env W i base len).1
          (writeTransfer env W i base len).2.1
          (World.withSys
            ((W.setSlot i (fopen_count_inc (W.filemap i))).emit
              (Event.vop_write (W.filemap i).node ⟨base, len, (W.filemap i).pos⟩))
            (writeTransfer env W i base len).2.2)
          hst hcnt (by simpa [writeTransfer] using hk)
      refine ⟨((writeTransfer env W i base len).1, (writeTransfer env W i base len).2.1), W1,
        ?_, h2, h3, fun nd => ?_⟩
      · rw [← h1]
        unfold file_write writeTransfer
        simp only [hres, ne_eq, not_true_eq_false, if_false]
        rw [if_neg (by simp [hr]), hacq]
        simp only [Option.some_bind, setSlot_filemap_same, fopen_count_inc_node,
          fopen_count_inc_pos]
        rfl
      · rw [h4]
        exact count_close_append_one _ _ nd (by simp)
    · refine ⟨(-c.E_INVAL, 0), W, ?_, rfl, hst, fun _ => rfl⟩
      simp [file_write, hres, hr]
  · intro pos whence
    obtain ⟨hw1, hw2⟩ := file_seek_whence_frame env c i pos whence
      (W.setSlot i (fopen_count_inc (W.filemap i))) hq
    obtain ⟨r, W1, h1, h2, h3, h4⟩ :=
      file_seek_commit_frame env i (W.filemap i)
        (file_seek_whence env c i pos whence (W.setSlot i (fopen_count_inc (W.filemap i)))).1
        (file_seek_whence env c i pos whence (W.setSlot i (fopen_count_inc (W.filemap i)))).2.1
        (file_seek_whence env c i pos whence (W.setSlot i (fopen_count_inc (W.filemap i)))).2.2
        hq hst hcnt (by rw [hw1]; simp)
    refine ⟨r, W1, ?_, h2, h3, fun nd => ?_⟩
    · rw [← h1]
      unfold file_seek
      simp only [hres, ne_eq, not_true_eq_false, if_false]
      rw [hacq]
      rfl
    · rw [h4, hw2]
      rfl
  · intro stat
    have hk := hq.2.2.1 (W.filemap i).node
      ((W.setSlot i (fopen_count_inc (W.filemap i))).emit
        (Event.vop_fstat (W.filemap i).node)).toSys
    obtain ⟨W1, h1, h2, h3, _⟩ :=
      release_after_call env i (W.filemap i)
        (World.withSys
          ((W.setSlot i (fopen_count_inc (W.filemap i))).emit
            (Event.vop_fstat (W.filemap i).node)) (seekStat env W i).2.2)
        hst hcnt (by simpa [seekStat] using hk)
    refine ⟨((seekStat env W i).1, (seekStat env W i).2.1), W1, ?_, by rw [h2], by rw [h2, hst],
      fun nd => ?_⟩
    · unfold file_fstat
      simp only [hres, ne_eq, not_true_eq_false, if_false]
      rw [hacq]
      simp only [Option.some_bind, setSlot_filemap_same, fopen_count_inc_node]
      unfold seekStat World.withSys at h1
      rw [h1]
      rfl
    · rw [h3]
      exact count_close_append_one _ _ nd (by simp)
  · have hk := hq.2.2.2.1 (W.filemap i).node
      ((W.setSlot i (fopen_count_inc (W.filemap i))).emit
        (Event.vop_fsync (W.filemap i).node)).toSys
    obtain ⟨W1, h1, h2, h3, _⟩ :=
      release_after_call env i (W.filemap i)
        (World.withSys
          ((W.setSlot i (fopen_count_inc (W.filemap i))).emit
            (Event.vop_fsync (W.filemap i).node))
          (env.vop_fsync (W.filemap i).node
            ((W.setSlot i (fopen_count_inc (W.filemap i))).emit
              (Event.vop_fsync (W.filemap i).node)).toSys).2)
        hst hcnt (by simpa using hk)
    refine ⟨(env.vop_fsync (W.filemap i).node
        ((W.setSlot i (fopen_count_inc (W.filemap i))).emit
          (Event.vop_fsync (W.filemap i).node)).toSys).1, W1, ?_, by rw [h2], by rw [h2, hst],
      fun nd => ?_⟩
    · unfold file_fsync
      simp only [hres, ne_eq, not_true_eq_false, if_false]
      rw [hacq]
      simp only [Option.some_bind, setSlot_filemap_same, fopen_count_inc_node]
      unfold World.withSys at h1
      rw [h1]
      rfl
    · rw [h3]
      exact count_close_append_one _ _ nd (by simp)
  · intro d
    have hk := hq.2.2.2.2.2 (W.filemap i).node ⟨d.name, d.name_size, d.offset⟩
      ((W.setSlot i (fopen_count_inc (W.filemap i))).emit
        (Event.vop_getdirentry (W.filemap i).node ⟨d.name, d.name_size, d.offset⟩)).toSys
    obtain ⟨W1, h1, h2, h3, _⟩ :=
      release_after_call env i (W.filemap i)
        (World.withSys
          ((W.setSlot i (fopen_count_inc (W.filemap i))).emit
            (Event.vop_getdirentry (W.filemap i).node ⟨d.name, d.name_size, d.offset⟩))
          (env.vop_getdirentry (W.filemap i).node ⟨d.name, d.name_size, d.offset⟩
            ((W.setSlot i (fopen_count_inc (W.filemap i))).emit
              (Event.vop_getdirentry (W.filemap i).node
                ⟨d.name, d.name_size, d.offset⟩)).toSys).2.2)
        hst hcnt (by simpa using hk)
    refine ⟨((env.vop_getdirentry (W.filemap i).node ⟨d.name, d.name_size, d.offset⟩
        ((W.setSlot i (fopen_count_inc (W.filemap i))).emit
          (Event.vop_getdirentry (W.filemap i).node
            ⟨d.name, d.name_size, d.offset⟩)).toSys).1,
        if (env.vop_getdirentry (W.filemap i).node ⟨d.name, d.name_size, d.offset⟩
          ((W.setSlot i (fopen_count_inc (W.filemap i))).emit
            (Event.vop_getdirentry (W.filemap i).node
              ⟨d.name, d.name_size, d.offset⟩)).toSys).1 = 0
        then { d with offset := wrapOff c (d.offset +
          ((env.vop_getdirentry (W.filemap i).node ⟨d.name, d.name_size, d.offset⟩
            ((W.setSlot i (fopen_count_inc (W.filemap i))).emit
              (Event.vop_getdirentry (W.filemap i).node
                ⟨d.name, d.name_size, d.offset⟩)).toSys).2.1 : Int)) }
        else d), W1, ?_, by rw [h2], by rw [h2, hst], fun nd => ?_⟩
    · unfold file_getdirentry
      simp only [hres, ne_eq, not_true_eq_false, if_false]
      rw [hacq]
      simp only [Option.some_bind, setSlot_filemap_same, fopen_count_inc_node]
      unfold World.withSys at h1
      rw [h1]
      rfl
    · rw [h3]
      exact count_close_append_one _ _ nd (by simp)

/-- An instance of C17 on the sample table: `file_fsync` and `file_seek` on
descriptor 3 return with the slot balanced. -/
theorem file_ops_balanced_witness :
    (∃ (r : Int) (W1 : World Unit),
      file_fsync sampleVfs sampleConfig 3 sampleOpenWorld = some (r, W1) ∧
        Balanced sampleOpenWorld W1 3) ∧
    (∃ (r : Int) (W1 : World Unit),
      file_seek sampleVfs sampleConfig 3 10 7 sampleOpenWorld = some (r, W1) ∧
        Balanced sampleOpenWorld W1 3) :=
  ⟨(file_ops_balanced sampleVfs sampleConfig 3 sampleOpenWorld 3 (by decide) (by decide)
      (sampleVfs_keepsSlot 3)).2.2.2.2.1,
    (file_ops_balanced sampleVfs sampleConfig 3 sampleOpenWorld 3 (by decide) (by decide)
      (sampleVfs_keepsSlot 3)).2.2.1 10 7⟩

end FlightProps

/-! ### The recorded index of a slot -/

section IndexProps

variable {σ : Type}

theorem setSlot_fd (W : World σ) (i : Nat) (f : File) (j : Nat)
    (hf : f.fd = (W.filemap i).fd) :
    ((W.setSlot i f).filemap j).fd = (W.filemap j).fd := by
  by_cases hji : j = i
  · subst hji
    simpa using hf
  · rw [setSlot_filemap_ne _ _ _ _ hji]

theorem filemap_free_fd (env : Vfs σ) (i : Nat) (W W1 : World σ)
    (h : filemap_free env i W = some W1) (j : Nat) :
    (W1.filemap j).fd = (W.filemap j).fd := by
  simp only [filemap_free] at h
  split at h
  · injection h with h
    subst h
    refine (setSlot_fd _ _ _ j ?_).trans ?_
    · rfl
    · split <;> rfl
  · exact absurd h (by simp)

theorem filemap_alloc_found_fd (i : Nat) (W : World σ) (r : Int × Option Nat × World σ)
    (h : filemap_alloc_found W i = some r) (j : Nat) :
    (r.2.2.filemap j).fd = (W.filemap j).fd := by
  simp only [filemap_alloc_found] at h
  split at h
  · injection h with h
    subst h
    exact setSlot_fd _ _ _ j (by rfl)
  · exact absurd h (by simp)

theorem filemap_alloc_fd (c : Config) (fd : Int) (W : World σ) (r : Int × Option Nat × World σ)
    (h : filemap_alloc c fd W = some r) (j : Nat) :
    (r.2.2.filemap j).fd = (W.filemap j).fd := by
  simp only [filemap_alloc] at h
  split at h
  · split at h
    · exact filemap_alloc_found_fd _ W r h j
    · injection h with h
      subst h
      rfl
  · split at h
    · split at h
      · exact filemap_alloc_found_fd _ W r h j
      · injection h with h
        subst h
        rfl
    · injection h with h
      subst h
      rfl

theorem filemap_open_fd (i : Nat) (W W1 : World σ)
    (h : filemap_open i W = some W1) (j : Nat) :
    (W1.filemap j).fd = (W.filemap j).fd := by
  simp only [filemap_open] at h
  split at h
  · injection h with h
    subst h
    exact setSlot_fd _ _ _ j (by rfl)
  · exact absurd h (by simp)

theorem filemap_acquire_fd (i : Nat) (W W1 : World σ)
    (h : filemap_acquire i W = some W1) (j : Nat) :
    (W1.filemap j).fd = (W.filemap j).fd := by
  simp only [filemap_acquire] at h
  split at h
  · injection h with h
    subst h
    exact setSlot_fd _ _ _ j (by rfl)
  · exact absurd h (by simp)

theorem filemap_release_fd (env : Vfs σ) (i : Nat) (W W1 : World σ)
    (h : filemap_release env i W = some W1) (j : Nat) :
    (W1.filemap j).fd = (W.filemap j).fd := by
  simp only [filemap_release] at h
  split at h
  · split at h
    · exact (filemap_free_fd env i _ W1 h j).trans (setSlot_fd _ _ _ j (by rfl))
    · injection h with h
      subst h
      exact setSlot_fd _ _ _ j (by rfl)
  · exact absurd h (by simp)

theorem filemap_close_fd (env : Vfs σ) (i : Nat) (W W1 : World σ)
    (h : filemap_close env i W = some W1) (j : Nat) :
    (W1.filemap j).fd = (W.filemap j).fd := by
  simp only [filemap_close] at h
  split at h
  · split at h
    · exact (filemap_free_fd env i _ W1 h j).trans (setSlot_fd _ _ _ j (by rfl))
    · injection h with h
      subst h
      exact setSlot_fd _ _ _ j (by rfl)
  · exact absurd h (by simp)

theorem filemap_dup_fd (env : Vfs σ) (t fr : Nat) (W W1 : World σ)
    (h : filemap_dup env t fr W = some W1) (j : Nat) :
    (W1.filemap j).fd = (W.filemap j).fd := by
  simp only [filemap_dup] at h
  split at h
  · exact (filemap_open_fd t _ W1 h j).trans
      ((setSlot_fd _ _ _ j (by rfl)).trans (setSlot_fd _ _ _ j (by rfl)))
  · exact absurd h (by simp)

theorem pipealloc_fd (f0 f1 pi : Nat) (W : World σ) (j : Nat) :
    ((pipealloc f0 f1 pi W).2.filemap j).fd = (W.filemap j).fd := by
  simp only [pipealloc]
  exact (setSlot_fd _ _ _ j (by rfl)).trans (setSlot_fd _ _ _ j (by rfl))

theorem TableCall_step_fd (env : Vfs σ) (c : Config) (call : TableCall) (W W1 : World σ)
    (h : call.step env c W = some W1) (j : Nat) :
    (W1.filemap j).fd = (W.filemap j).fd := by
  cases call with
  | alloc fd =>
    simp only [TableCall.step, Option.map_eq_some'] at h
    obtain ⟨r, hr, hW⟩ := h
    subst hW
    exact filemap_alloc_fd c fd W r hr j
  | setup i node pos rd wr =>
    simp only [TableCall.step, Option.some.injEq] at h
    subst h
    exact setSlot_fd _ _ _ j (by rfl)
  | activate i => exact filemap_open_fd i W W1 h j
  | acquire i => exact filemap_acquire_fd i W W1 h j
  | release i => exact filemap_release_fd env i W W1 h j
  | close i => exact filemap_close_fd env i W W1 h j
  | dup t fr => exact filemap_dup_fd env t fr W W1 h j
  | free i => exact filemap_free_fd env i W W1 h j
  | pipe f0 f1 pi =>
    simp only [TableCall.step, Option.some.injEq] at h
    subst h
    exact pipealloc_fd f0 f1 pi W j

theorem file_open_finish_fd (file node : Nat) (rd wr : Bool) (W : World σ)
    (r : Int × World σ) (h : file_open_finish file node rd wr W = some r) (j : Nat) :
    (r.2.filemap j).fd = (W.filemap j).fd := by
  simp only [file_open_finish, Option.map_eq_some'] at h
  obtain ⟨W2, h2, hr⟩ := h
  subst hr
  exact (filemap_open_fd file _ W2 h2 j).trans (setSlot_fd _ _ _ j (by rfl))

theorem file_open_append_fd (env : Vfs σ) (hq : env.keepsFd) (file node : Nat) (rd wr : Bool)
    (W : World σ) (r : Int × World σ)
    (h : file_open_append env file node rd wr W = some r) (j : Nat) :
    (r.2.filemap j).fd = (W.filemap j).fd := by
  have hk := (hq j (W.emit (Event.vop_fstat node)).toSys).2.2.1 node
  simp only [file_open_append] at h
  split at h
  · simp only [Option.map_eq_some'] at h
    obtain ⟨W3, h3, hr⟩ := h
    subst hr
    rw [filemap_free_fd env file _ W3 h3 j]
    simpa using hk
  · refine (file_open_finish_fd file node rd wr _ r h j).trans
      ((setSlot_fd _ _ _ j (by rfl)).trans ?_)
    simpa using hk

theorem file_open_bind_fd (env : Vfs σ) (hq : env.keepsFd) (c : Config) (path fl : Nat)
    (rd wr : Bool) (file : Nat) (W : World σ) (r : Int × World σ)
    (h : file_open_bind env c path fl rd wr file W = some r) (j : Nat) :
    (r.2.filemap j).fd = (W.filemap j).fd := by
  simp only [file_open_bind] at h
  split at h
  · simp only [Option.map_eq_some'] at h
    obtain ⟨W3, h3, hr⟩ := h
    subst hr
    rw [filemap_free_fd env file _ W3 h3 j]
    rfl
  · split at h
    · exact (file_open_append_fd env hq file _ rd wr _ r h j).trans (setSlot_fd _ _ _ j (by rfl))
    · exact (file_open_finish_fd file _ rd wr _ r h j).trans (setSlot_fd _ _ _ j (by rfl))

theorem file_open_body_fd (env : Vfs σ) (hq : env.keepsFd) (c : Config) (path fl : Nat)
    (rd wr : Bool) (W : World σ) (r : Int × World σ)
    (h : file_open_body env c path fl rd wr W = some r) (j : Nat) :
    (r.2.filemap j).fd = (W.filemap j).fd := by
  simp only [file_open_body, Option.bind_eq_some] at h
  obtain ⟨a, ha, h⟩ := h
  have hfd := filemap_alloc_fd c c.NO_FD W a ha j
  split at h
  · injection h with h
    subst h
    exact hfd
  · split at h
    · exact absurd h (by simp)
    · rw [file_open_bind_fd env hq c path fl rd wr _ _ r h j, hfd]

theorem file_open_fd (env : Vfs σ) (hq : env.keepsFd) (c : Config) (path fl : Nat)
    (W : World σ) (r : Int × World σ)
    (h : file_open env c path fl W = some r) (j : Nat) :
    (r.2.filemap j).fd = (W.filemap j).fd := by
  simp only [file_open] at h
  split at h
  · exact file_open_body_fd env hq c path fl _ _ W r h j
  · split at h
    · exact file_open_body_fd env hq c path fl _ _ W r h j
    · split at h
      · exact file_open_body_fd env hq c path fl _ _ W r h j
      · injection h with h
        subst h
        rfl

theorem file_close_fd (env : Vfs σ) (c : Config) (fd : Int) (W : World σ) (r : Int × World σ)
    (h : file_close env c fd W = some r) (j : Nat) :
    (r.2.filemap j).fd = (W.filemap j).fd := by
  simp only [file_close] at h
  split at h
  · injection h with h
    subst h
    rfl
  · split at h
    · exact absurd h (by simp)
    · simp only [Option.map_eq_some'] at h
      obtain ⟨W1, h1, hr⟩ := h
      subst hr
      exact filemap_close_fd env _ W W1 h1 j

theorem file_rw_finish_fd (env : Vfs σ) (c : Config) (i : Nat) (ret : Int) (copied : Nat)
    (W : World σ) (r : Int × Nat × World σ)
    (h : file_rw_finish env c i ret copied W = some r) (j : Nat) :
    (r.2.2.filemap j).fd = (W.filemap j).fd := by
  simp only [file_rw_finish, Option.map_eq_some'] at h
  obtain ⟨W2, h2, hr⟩ := h
  subst hr
  rw [filemap_release_fd env i _ W2 h2 j]
  split
  · exact setSlot_fd _ _ _ j (by rfl)
  · rfl

theorem file_read_fd (env : Vfs σ) (hq : env.keepsFd) (c : Config) (fd : Int) (base len : Nat)
    (W : World σ) (r : Int × Nat × World σ)
    (h : file_read env c fd base len W = some r) (j : Nat) :
    (r.2.2.filemap j).fd = (W.filemap j).fd := by
  simp only [file_read] at h
  split at h
  · injection h with h
    subst h
    rfl
  · split at h
    · exact absurd h (by simp)
    · split at h
      · injection h with h
        subst h
        rfl
      · simp only [Option.bind_eq_some] at h
        obtain ⟨W1, h1, h⟩ := h
        rw [file_rw_finish_fd env c _ _ _ _ r h j, ← filemap_acquire_fd _ W W1 h1 j]
        exact (hq j _).1 _ _

theorem file_write_fd (env : Vfs σ) (hq : env.keepsFd) (c : Config) (fd : Int) (base len : Nat)
    (W : World σ) (r : Int × Nat × World σ)
    (h : file_write env c fd base len W = some r) (j : Nat) :
    (r.2.2.filemap j).fd = (W.filemap j).fd := by
  simp only [file_write] at h
  split at h
  · injection h with h
    subst h
    rfl
  · split at h
    · exact absurd h (by simp)
    · split at h
      · injection h with h
        subst h
        rfl
      · simp only [Option.bind_eq_some] at h
        obtain ⟨W1, h1, h⟩ := h
        rw [file_rw_finish_fd env c _ _ _ _ r h j, ← filemap_acquire_fd _ W W1 h1 j]
        exact (hq j _).2.1 _ _

theorem file_seek_whence_fd (env : Vfs σ) (hq : env.keepsFd) (c : Config) (i : Nat)
    (pos whence : Int) (W : World σ) (j : Nat) :
    ((file_seek_whence env c i pos whence W).2.2.filemap j).fd = (W.filemap j).fd := by
  unfold file_seek_whence
  split
  · rfl
  · split
    · rfl
    · split
      · have hk := (hq j (W.emit (Event.vop_fstat (W.filemap i).node)).toSys).2.2.1
          (W.filemap i).node
        dsimp only
        split
        · exact hk
        · exact hk
      · rfl

theorem file_seek_commit_fd (env : Vfs σ) (hq : env.keepsFd) (i : Nat) (ret pos : Int)
    (W : World σ) (r : Int × World σ) (h : file_seek_commit env i ret pos W = some r) (j : Nat) :
    (r.2.filemap j).fd = (W.filemap j).fd := by
  simp only [file_seek_commit] at h
  split at h
  · simp only [Option.map_eq_some'] at h
    obtain ⟨W3, h3, hr⟩ := h
    subst hr
    have hk := (hq j (W.emit (Event.vop_tryseek (W.filemap i).node pos)).toSys).2.2.2.2.1
      (W.filemap i).node pos
    rw [filemap_release_fd env i _ W3 h3 j]
    split
    · exact (setSlot_fd _ _ _ j (by rfl)).trans hk
    · exact hk
  · simp only [Option.map_eq_some'] at h
    obtain ⟨W3, h3, hr⟩ := h
    subst hr
    exact filemap_release_fd env i _ W3 h3 j

theorem file_seek_fd (env : Vfs σ) (hq : env.keepsFd) (c : Config) (fd pos whence : Int)
    (W : World σ) (r : Int × World σ)
    (h : file_seek env c fd pos whence W = some r) (j : Nat) :
    (r.2.filemap j).fd = (W.filemap j).fd := by
  simp only [file_seek] at h
  split at h
  · injection h with h
    subst h
    rfl
  · split at h
    · exact absurd h (by simp)
    · simp only [Option.bind_eq_some] at h
      obtain ⟨W1, h1, h⟩ := h
      rw [file_seek_commit_fd env hq _ _ _ _ r h j, file_seek_whence_fd env hq c _ _ _ W1 j]
      exact filemap_acquire_fd _ W W1 h1 j

theorem file_fstat_fd (env : Vfs σ) (hq : env.keepsFd) (c : Config) (fd : Int) (stat : Stat)
    (W : World σ) (r : Int × Stat × World σ)
    (h : file_fstat env c fd stat W = some r) (j : Nat) :
    (r.2.2.filemap j).fd = (W.filemap j).fd := by
  simp only [file_fstat] at h
  split at h
  · injection h with h
    subst h
    rfl
  · split at h
    · exact absurd h (by simp)
    · simp only [Option.bind_eq_some, Option.map_eq_some'] at h
      obtain ⟨W1, h1, W2, h2, hr⟩ := h
      subst hr
      rw [filemap_release_fd env _ _ W2 h2 j, ← filemap_acquire_fd _ W W1 h1 j]
      exact (hq j _).2.2.1 _

theorem file_fsync_fd (env : Vfs σ) (hq : env.keepsFd) (c : Config) (fd : Int)
    (W : World σ) (r : Int × World σ)
    (h : file_fsync env c fd W = some r) (j : Nat) :
    (r.2.filemap j).fd = (W.filemap j).fd := by
  simp only [file_fsync] at h
  split at h
  · injection h with h
    subst h
    rfl
  · split at h
    · exact absurd h (by simp)
    · simp only [Option.bind_eq_some, Option.map_eq_some'] at h
      obtain ⟨W1, h1, W2, h2, hr⟩ := h
      subst hr
      rw [filemap_release_fd env _ _ W2 h2 j, ← filemap_acquire_fd _ W W1 h1 j]
      exact (hq j _).2.2.2.1 _

theorem file_getdirentry_fd (env : Vfs σ) (hq : env.keepsFd) (c : Config) (fd : Int)
    (d : Dirent) (W : World σ) (r : Int × Dirent × World σ)
    (h : file_getdirentry env c fd d W = some r) (j : Nat) :
    (r.2.2.filemap j).fd = (W.filemap j).fd := by
  simp only [file_getdirentry] at h
  split at h
  · injection h with h
    subst h
    rfl
  · split at h
    · exact absurd h (by simp)
    · simp only [Option.bind_eq_some, Option.map_eq_some'] at h
      obtain ⟨W1, h1, W2, h2, hr⟩ := h
      subst hr
      rw [filemap_release_fd env _ _ W2 h2 j, ← filemap_acquire_fd _ W W1 h1 j]
      exact (hq j _).2.2.2.2.2 _ _

theorem file_dup_fd (env : Vfs σ) (c : Config) (fd1 fd2 : Int)
    (W : World σ) (r : Int × World σ)
    (h : file_dup env c fd1 fd2 W = some r) (j : Nat) :
    (r.2.filemap j).fd = (W.filemap j).fd := by
  simp only [file_dup] at h
  split at h
  · injection h with h
    subst h
    rfl
  · split at h
    · exact absurd h (by simp)
    · simp only [Option.bind_eq_some] at h
      obtain ⟨a, ha, h⟩ := h
      have hfd := filemap_alloc_fd c fd2 W a ha j
      split at h
      · injection h with h
        subst h
        exact hfd
      · split at h
        · exact absurd h (by simp)
        · simp only [Option.map_eq_some'] at h
          obtain ⟨W1, h1, hr⟩ := h
          subst hr
          rw [filemap_dup_fd env _ _ _ W1 h1 j, hfd]

theorem FileCall_step_fd (env : Vfs σ) (hq : env.keepsFd) (c : Config) (call : FileCall)
    (W W1 : World σ) (h : call.step env c W = some W1) (j : Nat) :
    (W1.filemap j).fd = (W.filemap j).fd := by
  cases call with
  | slot call => exact TableCall_step_fd env c call W W1 h j
  | file_open path fl =>
    simp only [FileCall.step, Option.map_eq_some'] at h
    obtain ⟨r, hr, hW⟩ := h
    subst hW
    exact file_open_fd env hq c path fl W r hr j
  | file_close fd =>
    simp only [FileCall.step, Option.map_eq_some'] at h
    obtain ⟨r, hr, hW⟩ := h
    subst hW
    exact file_close_fd env c fd W r hr j
  | file_read fd base len =>
    simp only [FileCall.step, Option.map_eq_some'] at h
    obtain ⟨r, hr, hW⟩ := h
    subst hW
    exact file_read_fd env hq c fd base len W r hr j
  | file_write fd base len =>
    simp only [FileCall.step, Option.map_eq_some'] at h
    obtain ⟨r, hr, hW⟩ := h
    subst hW
    exact file_write_fd env hq c fd base len W r hr j
  | file_seek fd pos whence =>
    simp only [FileCall.step, Option.map_eq_some'] at h
    obtain ⟨r, hr, hW⟩ := h
    subst hW
    exact file_seek_fd env hq c fd pos whence W r hr j
  | file_fstat fd stat =>
    simp only [FileCall.step, Option.map_eq_some'] at h
    obtain ⟨r, hr, hW⟩ := h
    subst hW
    exact file_fstat_fd env hq c fd stat W r hr j
  | file_fsync fd =>
    simp only [FileCall.step, Option.map_eq_some'] at h
    obtain ⟨r, hr, hW⟩ := h
    subst hW
    exact file_fsync_fd env hq c fd W r hr j
  | file_getdirentry fd d =>
    simp only [FileCall.step, Option.map_eq_some'] at h
    obtain ⟨r, hr, hW⟩ := h
    subst hW
    exact file_getdirentry_fd env hq c fd d W r hr j
  | file_dup fd1 fd2 =>
    simp only [FileCall.step, Option.map_eq_some'] at h
    obtain ⟨r, hr, hW⟩ := h
    subst hW
    exact file_dup_fd env c fd1 fd2 W r hr j

theorem runFileCalls_fd (env : Vfs σ) (hq : env.keepsFd) (c : Config) (calls : List FileCall)
    (j : Nat) :
    ∀ W W1 : World σ, runFileCalls env c calls W = some W1 →
      (W1.filemap j).fd = (W.filemap j).fd := by
  induction calls with
  | nil =>
    intro W W1 h
    simp only [runFileCalls, Option.some.injEq] at h
    subst h
    rfl
  | cons call calls ih =>
    intro W W1 h
    simp only [runFileCalls] at h
    cases hs : call.step env c W with
    | none => simp [hs] at h
    | some W2 =>
      simp only [hs, Option.some_bind] at h
      rw [ih W2 W1 h, FileCall_step_fd env hq c call W W2 hs j]

theorem sampleVfs_keepsFd : sampleVfs.keepsFd :=
  fun _ _ => ⟨fun _ _ => rfl, fun _ _ => rfl, fun _ => rfl, fun _ => rfl, fun _ _ => rfl,
    fun _ _ => rfl⟩

theorem testfd_toNat (c : Config) (fd : Int) (h : testfd c fd = true) :
    fd.toNat < c.FS_STRUCT_NENTRY ∧ ((fd.toNat : Nat) : Int) = fd := by
  simp only [testfd, Bool.and_eq_true, decide_eq_true_eq] at h
  omega

/-- C20: in every table reached from `filemap_init` by a sequence of calls of
the slot operations and the public operations of `file.c` in which no
assertion fails (collaborator calls that block leaving the recorded indices
alone, as every operation of `file.c` does), no call changes the `fd` field of
any slot, so slot `i` records index `i`; the comparison `file->fd == fd` of
`fd2file` therefore holds for every descriptor in range, and `fd2file`
succeeds exactly when `fd` is in `[0, FS_STRUCT_NENTRY)` and slot `fd` is
`FD_OPENED`, whatever was opened, closed or reopened under that number
before. -/
theorem fd2file_accepts_reused_fd (env : Vfs σ) (c : Config) (calls : List FileCall)
    (W0 W : World σ) (hq : env.keepsFd)
    (hrun : runFileCalls env c calls { W0 with filemap := filemap_init c W0.filemap } = some W) :
    (∀ (call : FileCall) (Wa Wb : World σ), call.step env c Wa = some Wb →
        ∀ j, (Wb.filemap j).fd = (Wa.filemap j).fd) ∧
    (∀ i, i < c.FS_STRUCT_NENTRY → (W.filemap i).fd = (i : Int)) ∧
    (∀ fd : Int, testfd c fd = true → (W.filemap fd.toNat).fd = fd) ∧
    (∀ fd : Int, fd2file c fd W = (0, some fd.toNat) ↔
        (testfd c fd = true ∧ (W.filemap fd.toNat).status = FD_OPENED)) := by
  have hidx : ∀ i, i < c.FS_STRUCT_NENTRY → (W.filemap i).fd = (i : Int) := by
    intro i hi
    rw [runFileCalls_fd env hq c calls i _ W hrun]
    simp [filemap_init, hi]
  have hrec : ∀ fd : Int, testfd c fd = true → (W.filemap fd.toNat).fd = fd := by
    intro fd ht
    rw [hidx _ (testfd_toNat c fd ht).1]
    exact (testfd_toNat c fd ht).2
  refine ⟨fun call Wa Wb h j => FileCall_step_fd env hq c call Wa Wb h j, hidx, hrec, ?_⟩
  intro fd
  by_cases ht : testfd c fd = true
  · by_cases hs : (W.filemap fd.toNat).status = FD_OPENED
    · simp [fd2file, ht, hs, hrec fd ht]
    · simp [fd2file, ht, hs]
  · simp [fd2file, ht]

/-- An instance of C20: from `filemap_init`, a file is opened under descriptor
0 and closed, and another file (node 9) is opened, again under descriptor 0;
the old number now resolves to the slot of the new file. -/
theorem fd2file_accepts_reused_fd_witness :
    ∃ W : World Unit,
      runFileCalls sampleVfs sampleConfig sampleReopen
          { sampleInitWorld with
            filemap := filemap_init sampleConfig sampleInitWorld.filemap } = some W ∧
        (W.filemap 0).node = 9 ∧ fd2file sampleConfig 0 W = (0, some 0) :=
  have hsome : (runFileCalls sampleVfs sampleConfig sampleReopen
      { sampleInitWorld with
        filemap := filemap_init sampleConfig sampleInitWorld.filemap }).isSome = true := by
    decide
  ⟨_, (Option.some_get hsome).symm, rfl,
    ((fd2file_accepts_reused_fd sampleVfs sampleConfig sampleReopen sampleInitWorld _
      sampleVfs_keepsFd (Option.some_get hsome).symm).2.2.2 0).2 ⟨by decide, rfl⟩⟩

end IndexProps

/-! ### Status moves of a call -/

section MoveProps

variable {σ : Type}

theorem setSlot_status (W : World σ) (i : Nat) (f : File) (j : Nat)
    (hf : f.status = (W.filemap i).status) :
    ((W.setSlot i f).filemap j).status = (W.filemap j).status := by
  by_cases hji : j = i
  · subst hji
    simpa using hf
  · rw [setSlot_filemap_ne _ _ _ _ hji]

theorem SameStatus_trans (W W1 W2 : World σ) (h1 : SameStatus W W1) (h2 : SameStatus W1 W2) :
    SameStatus W W2 := fun j => (h2 j).trans (h1 j)

theorem MovesSlot_after (W W1 W2 : World σ) (i : Nat) (a b : Status) (h1 : SameStatus W W1)
    (h2 : MovesSlot W1 W2 i a b) : MovesSlot W W2 i a b :=
  ⟨(h1 i).symm.trans h2.1, h2.2.1, fun j hj => (h2.2.2 j hj).trans (h1 j)⟩

theorem MovesSlot_before (W W1 W2 : World σ) (i : Nat) (a b : Status)
    (h1 : MovesSlot W W1 i a b) (h2 : SameStatus W1 W2) : MovesSlot W W2 i a b :=
  ⟨h1.1, (h2 i).trans h1.2.1, fun j hj => (h2 j).trans (h1.2.2 j hj)⟩

theorem MovesSlot_comp (W W1 W2 : World σ) (i : Nat) (a b b1 d : Status)
    (h1 : MovesSlot W W1 i a b) (h2 : MovesSlot W1 W2 i b1 d) : MovesSlot W W2 i a d :=
  ⟨h1.1, h2.2.1, fun j hj => (h2.2.2 j hj).trans (h1.2.2 j hj)⟩

theorem MovesSlot_same (W W1 : World σ) (i : Nat) (a : Status) (h : MovesSlot W W1 i a a) :
    SameStatus W W1 := by
  intro j
  by_cases hj : j = i
  · subst hj
    rw [h.1, h.2.1]
  · exact h.2.2 j hj

theorem SameStatus_move (W W1 : World σ) (h : SameStatus W W1) (j : Nat) :
    StatusMove (W.filemap j).status (W1.filemap j).status :=
  Or.inl (h j).symm

theorem MovesSlot_move (W W1 : World σ) (i : Nat) (a b : Status) (h : MovesSlot W W1 i a b)
    (hab : StatusMove a b) (j : Nat) :
    StatusMove (W.filemap j).status (W1.filemap j).status := by
  by_cases hj : j = i
  · subst hj
    rw [h.1, h.2.1]
    exact hab
  · exact Or.inl (h.2.2 j hj).symm

theorem filemap_free_moves (env : Vfs σ) (i : Nat) (W W1 : World σ)
    (h : filemap_free env i W = some W1) :
    MovesSlot W W1 i FD_INIT FD_NONE ∨ MovesSlot W W1 i FD_CLOSED FD_NONE := by
  simp only [filemap_free] at h
  split at h
  · rename_i hc
    injection h with h
    subst h
    have hoth : ∀ j, j ≠ i →
        (((if (W.filemap i).status = FD_CLOSED then
            ({ (W.emit (Event.vfs_close (W.filemap i).node)) with
              vfs := env.vfs_close (W.filemap i).node W.vfs } : World σ)
          else W).setSlot i
            { (if (W.filemap i).status = FD_CLOSED then
                ({ (W.emit (Event.vfs_close (W.filemap i).node)) with
                  vfs := env.vfs_close (W.filemap i).node W.vfs } : World σ)
              else W).filemap i with status := FD_NONE }).filemap j).status
          = (W.filemap j).status := by
      intro j hj
      rw [setSlot_filemap_ne _ _ _ _ hj]
      split <;> rfl
    rcases hc.1 with h1 | h1
    · exact Or.inl ⟨h1, by simp, hoth⟩
    · exact Or.inr ⟨h1, by simp, hoth⟩
  · exact absurd h (by simp)

theorem filemap_alloc_found_moves (i : Nat) (W : World σ) (r : Int × Option Nat × World σ)
    (h : filemap_alloc_found W i = some r) (hst : (W.filemap i).status = FD_NONE) :
    r.1 = 0 ∧ r.2.1 = some i ∧ MovesSlot W r.2.2 i FD_NONE FD_INIT := by
  simp only [filemap_alloc_found] at h
  split at h
  · injection h with h
    subst h
    exact ⟨rfl, rfl, hst, by simp, fun j hj => by rw [setSlot_filemap_ne _ _ _ _ hj]⟩
  · exact absurd h (by simp)

theorem filemap_alloc_moves (c : Config) (fd : Int) (W : World σ)
    (r : Int × Option Nat × World σ) (h : filemap_alloc c fd W = some r) :
    (r.2.1 = none ∧ r.2.2 = W) ∨
      ∃ i, r.1 = 0 ∧ r.2.1 = some i ∧ MovesSlot W r.2.2 i FD_NONE FD_INIT := by
  simp only [filemap_alloc] at h
  split at h
  · split at h
    · rename_i i hscan
      exact Or.inr ⟨i, filemap_alloc_found_moves i W r h (filemap_scan_some _ _ _ _ hscan).2.2.1⟩
    · injection h with h
      subst h
      exact Or.inl ⟨rfl, rfl⟩
  · split at h
    · split at h
      · rename_i hs
        exact Or.inr ⟨_, filemap_alloc_found_moves _ W r h hs⟩
      · injection h with h
        subst h
        exact Or.inl ⟨rfl, rfl⟩
    · injection h with h
      subst h
      exact Or.inl ⟨rfl, rfl⟩

theorem filemap_open_moves (i : Nat) (W W1 : World σ) (h : filemap_open i W = some W1) :
    MovesSlot W W1 i FD_INIT FD_OPENED := by
  simp only [filemap_open] at h
  split at h
  · rename_i hc
    injection h with h
    subst h
    exact ⟨hc.1, by simp [fopen_count_inc], fun j hj => by rw [setSlot_filemap_ne _ _ _ _ hj]⟩
  · exact absurd h (by simp)

theorem filemap_acquire_same (i : Nat) (W W1 : World σ) (h : filemap_acquire i W = some W1) :
    (W.filemap i).status = FD_OPENED ∧ SameStatus W W1 := by
  simp only [filemap_acquire] at h
  split at h
  · rename_i hc
    injection h with h
    subst h
    exact ⟨hc, fun j => setSlot_status _ _ _ j (by rfl)⟩
  · exact absurd h (by simp)

theorem filemap_release_moves (env : Vfs σ) (i : Nat) (W W1 : World σ)
    (h : filemap_release env i W = some W1) :
    SameStatus W W1 ∨ MovesSlot W W1 i FD_CLOSED FD_NONE := by
  simp only [filemap_release] at h
  split at h
  · have hs : SameStatus W (W.setSlot i (fopen_count_dec (W.filemap i))) :=
      fun j => setSlot_status _ _ _ j (by rfl)
    split at h
    · rcases filemap_free_moves env i _ W1 h with hm | hm
      · rename_i hc _
        have h1 := hm.1
        rw [hs i] at h1
        have h2 := hm.2.1
        rcases hc.1 with h3 | h3
        · rw [h3] at h1
          exact absurd h1 (by decide)
        · rw [h3] at h1
          exact absurd h1 (by decide)
      · exact Or.inr (MovesSlot_after _ _ _ i _ _ hs hm)
    · injection h with h
      subst h
      exact Or.inl hs
  · exact absurd h (by simp)

theorem filemap_release_same (env : Vfs σ) (i : Nat) (W W1 : World σ)
    (h : filemap_release env i W = some W1) (hst : (W.filemap i).status = FD_OPENED) :
    SameStatus W W1 := by
  rcases filemap_release_moves env i W W1 h with hm | hm
  · exact hm
  · have h1 := hm.1
    rw [hst] at h1
    exact absurd h1 (by decide)

theorem filemap_close_moves (env : Vfs σ) (i : Nat) (W W1 : World σ)
    (h : filemap_close env i W = some W1) :
    MovesSlot W W1 i FD_OPENED FD_CLOSED ∨ MovesSlot W W1 i FD_OPENED FD_NONE := by
  simp only [filemap_close] at h
  split at h
  · rename_i hc
    have hs : MovesSlot W
        (W.setSlot i (fopen_count_dec { W.filemap i with status := FD_CLOSED })) i
        FD_OPENED FD_CLOSED :=
      ⟨hc.1, by simp [fopen_count_dec], fun j hj => by rw [setSlot_filemap_ne _ _ _ _ hj]⟩
    split at h
    · rcases filemap_free_moves env i _ W1 h with hm | hm
      · have h1 := hm.1
        rw [hs.2.1] at h1
        exact absurd h1 (by decide)
      · exact Or.inr (MovesSlot_comp _ _ _ i _ _ _ _ hs hm)
    · injection h with h
      subst h
      exact Or.inl hs
  · exact absurd h (by simp)

theorem filemap_dup_moves (env : Vfs σ) (t fr : Nat) (W W1 : World σ)
    (h : filemap_dup env t fr W = some W1) :
    MovesSlot W W1 t FD_INIT FD_OPENED := by
  simp only [filemap_dup] at h
  split at h
  · refine MovesSlot_after _ _ _ t _ _ ?_ (filemap_open_moves t _ W1 h)
    intro j
    exact (setSlot_status _ _ _ j (by rfl)).trans (setSlot_status _ _ _ j (by rfl))
  · exact absurd h (by simp)

theorem pipealloc_moves (f0 f1 pi : Nat) (W : World σ)
    (h0 : (W.filemap f0).status = FD_INIT) (h1 : (W.filemap f1).status = FD_INIT) (j : Nat) :
    ((pipealloc f0 f1 pi W).2.filemap j).status = (W.filemap j).status ∨
      ((W.filemap j).status = FD_INIT ∧ ((pipealloc f0 f1 pi W).2.filemap j).status = FD_PIPE) := by
  simp only [pipealloc]
  by_cases hj1 : j = f1
  · subst hj1
    exact Or.inr ⟨h1, by simp⟩
  · rw [setSlot_filemap_ne _ _ _ _ hj1]
    by_cases hj0 : j = f0
    · subst hj0
      exact Or.inr ⟨h0, by simp⟩
    · rw [setSlot_filemap_ne _ _ _ _ hj0]
      exact Or.inl rfl

theorem file_open_finish_moves (file node : Nat) (rd wr : Bool) (W : World σ)
    (r : Int × World σ) (h : file_open_finish file node rd wr W = some r) :
    MovesSlot W r.2 file FD_INIT FD_OPENED := by
  simp only [file_open_finish, Option.map_eq_some'] at h
  obtain ⟨W2, h2, hr⟩ := h
  subst hr
  exact MovesSlot_after _ _ _ file _ _ (fun j => setSlot_status _ _ _ j (by rfl))
    (filemap_open_moves file _ W2 h2)

theorem filemap_free_init_moves (env : Vfs σ) (i : Nat) (W0 W W1 : World σ)
    (hs : SameStatus W0 W) (hst : (W0.filemap i).status = FD_INIT)
    (h : filemap_free env i W = some W1) : MovesSlot W0 W1 i FD_INIT FD_NONE := by
  rcases filemap_free_moves env i W W1 h with hm | hm
  · exact MovesSlot_after _ _ _ i _ _ hs hm
  · have h1 := hm.1
    rw [hs i, hst] at h1
    exact absurd h1 (by decide)

theorem file_open_append_moves (env : Vfs σ) (hq : env.keepsStatus) (file node : Nat)
    (rd wr : Bool) (W : World σ) (r : Int × World σ)
    (hst : (W.filemap file).status = FD_INIT)
    (h : file_open_append env file node rd wr W = some r) :
    MovesSlot W r.2 file FD_INIT FD_OPENED ∨ MovesSlot W r.2 file FD_INIT FD_NONE := by
  have hk : ∀ j, ((env.vop_fstat node (W.emit (Event.vop_fstat node)).toSys).2.2.filemap j).status
      = (W.filemap j).status := fun j => (hq j (W.emit (Event.vop_fstat node)).toSys).2.2.1 node
  simp only [file_open_append] at h
  split at h
  · simp only [Option.map_eq_some'] at h
    obtain ⟨W3, h3, hr⟩ := h
    subst hr
    exact Or.inr (filemap_free_init_moves env file W _ W3 (fun j => by simpa using hk j) hst h3)
  · refine Or.inl (MovesSlot_after _ _ _ file _ _ ?_ (file_open_finish_moves file node rd wr _ r h))
    intro j
    refine (setSlot_status _ _ _ j (by rfl)).trans ?_
    simpa using hk j

theorem file_open_bind_moves (env : Vfs σ) (hq : env.keepsStatus) (c : Config) (path fl : Nat)
    (rd wr : Bool) (file : Nat) (W : World σ) (r : Int × World σ)
    (hst : (W.filemap file).status = FD_INIT)
    (h : file_open_bind env c path fl rd wr file W = some r) :
    MovesSlot W r.2 file FD_INIT FD_OPENED ∨ MovesSlot W r.2 file FD_INIT FD_NONE := by
  simp only [file_open_bind] at h
  split at h
  · simp only [Option.map_eq_some'] at h
    obtain ⟨W3, h3, hr⟩ := h
    subst hr
    exact Or.inr (filemap_free_init_moves env file W _ W3 (by intro j; rfl) hst h3)
  · have hs : SameStatus W
        (((W.emit (Event.vfs_open path fl)).withVfs (env.vfs_open path fl W.vfs).2.2).setSlot file
          { ((W.emit (Event.vfs_open path fl)).withVfs
              (env.vfs_open path fl W.vfs).2.2).filemap file with pos := 0 }) :=
      fun j => setSlot_status _ _ _ j (by rfl)
    split at h
    · rcases file_open_append_moves env hq file _ rd wr _ r ((hs file).trans hst) h with hm | hm
      · exact Or.inl (MovesSlot_after _ _ _ file _ _ hs hm)
      · exact Or.inr (MovesSlot_after _ _ _ file _ _ hs hm)
    · exact Or.inl (MovesSlot_after _ _ _ file _ _ hs (file_open_finish_moves file _ rd wr _ r h))

theorem file_open_body_moves (env : Vfs σ) (hq : env.keepsStatus) (c : Config) (path fl : Nat)
    (rd wr : Bool) (W : World σ) (r : Int × World σ)
    (h : file_open_body env c path fl rd wr W = some r) :
    SameStatus W r.2 ∨ ∃ i, MovesSlot W r.2 i FD_NONE FD_OPENED := by
  simp only [file_open_body, Option.bind_eq_some] at h
  obtain ⟨a, ha, h⟩ := h
  rcases filemap_alloc_moves c c.NO_FD W a ha with ⟨hn, hW⟩ | ⟨i, h0, hi, hm⟩
  · split at h
    · injection h with h
      subst h
      exact Or.inl (fun j => by rw [hW])
    · rw [hn] at h
      exact absurd h (by simp)
  · rw [if_neg (by simp [h0]), hi] at h
    rcases file_open_bind_moves env hq c path fl rd wr i a.2.2 r hm.2.1 h with hb | hb
    · exact Or.inr ⟨i, MovesSlot_comp _ _ _ i _ _ _ _ hm hb⟩
    · exact Or.inl (MovesSlot_same _ _ i _ (MovesSlot_comp _ _ _ i _ _ _ _ hm hb))

theorem file_open_moves (env : Vfs σ) (hq : env.keepsStatus) (c : Config) (path fl : Nat)
    (W : World σ) (r : Int × World σ) (h : file_open env c path fl W = some r) :
    SameStatus W r.2 ∨ ∃ i, MovesSlot W r.2 i FD_NONE FD_OPENED := by
  simp only [file_open] at h
  split at h
  · exact file_open_body_moves env hq c path fl _ _ W r h
  · split at h
    · exact file_open_body_moves env hq c path fl _ _ W r h
    · split at h
      · exact file_open_body_moves env hq c path fl _ _ W r h
      · injection h with h
        subst h
        exact Or.inl (fun _ => rfl)

theorem file_close_moves (env : Vfs σ) (c : Config) (fd : Int) (W : World σ)
    (r : Int × World σ) (h : file_close env c fd W = some r) :
    SameStatus W r.2 ∨
      ∃ i, MovesSlot W r.2 i FD_OPENED FD_CLOSED ∨ MovesSlot W r.2 i FD_OPENED FD_NONE := by
  simp only [file_close] at h
  split at h
  · injection h with h
    subst h
    exact Or.inl (fun _ => rfl)
  · split at h
    · exact absurd h (by simp)
    · simp only [Option.map_eq_some'] at h
      obtain ⟨W1, h1, hr⟩ := h
      subst hr
      exact Or.inr ⟨_, filemap_close_moves env _ W W1 h1⟩

theorem file_rw_finish_same (env : Vfs σ) (c : Config) (i : Nat) (ret : Int) (copied : Nat)
    (W : World σ)
    (r : Int × Nat × World σ) (hst : (W.filemap i).status = FD_OPENED)
    (h : file_rw_finish env c i ret copied W = some r) : SameStatus W r.2.2 := by
  simp only [file_rw_finish, Option.map_eq_some'] at h
  obtain ⟨W2, h2, hr⟩ := h
  subst hr
  rw [if_pos hst] at h2
  have hs : SameStatus W
      (W.setSlot i
        { W.filemap i with pos := wrapOff c ((W.filemap i).pos + (copied : Int)) }) :=
    fun j => setSlot_status _ _ _ j (by rfl)
  exact SameStatus_trans _ _ _ hs (filemap_release_same env i _ W2 h2 ((hs i).trans hst))

theorem file_read_same (env : Vfs σ) (hq : env.keepsStatus) (c : Config) (fd : Int)
    (base len : Nat) (W : World σ) (r : Int × Nat × World σ)
    (h : file_read env c fd base len W = some r) : SameStatus W r.2.2 := by
  simp only [file_read] at h
  split at h
  · injection h with h
    subst h
    exact fun _ => rfl
  · split at h
    · exact absurd h (by simp)
    · split at h
      · injection h with h
        subst h
        exact fun _ => rfl
      · simp only [Option.bind_eq_some] at h
        obtain ⟨W1, h1, h⟩ := h
        obtain ⟨ho, ha⟩ := filemap_acquire_same _ W W1 h1
        refine SameStatus_trans _ _ _ ha
          (SameStatus_trans _ _ _ ?_ (file_rw_finish_same env c _ _ _ _ r ?_ h))
        · exact fun j => (hq j _).1 _ _
        · exact ((hq _ _).1 _ _).trans ((ha _).trans ho)

theorem file_write_same (env : Vfs σ) (hq : env.keepsStatus) (c : Config) (fd : Int)
    (base len : Nat) (W : World σ) (r : Int × Nat × World σ)
    (h : file_write env c fd base len W = some r) : SameStatus W r.2.2 := by
  simp only [file_write] at h
  split at h
  · injection h with h
    subst h
    exact fun _ => rfl
  · split at h
    · exact absurd h (by simp)
    · split at h
      · injection h with h
        subst h
        exact fun _ => rfl
      · simp only [Option.bind_eq_some] at h
        obtain ⟨W1, h1, h⟩ := h
        obtain ⟨ho, ha⟩ := filemap_acquire_same _ W W1 h1
        refine SameStatus_trans _ _ _ ha
          (SameStatus_trans _ _ _ ?_ (file_rw_finish_same env c _ _ _ _ r ?_ h))
        · exact fun j => (hq j _).2.1 _ _
        · exact ((hq _ _).2.1 _ _).trans ((ha _).trans ho)

theorem file_seek_whence_same (env : Vfs σ) (hq : env.keepsStatus) (c : Config) (i : Nat)
    (pos whence : Int) (W : World σ) :
    SameStatus W (file_seek_whence env c i pos whence W).2.2 := by
  intro j
  unfold file_seek_whence
  split
  · rfl
  · split
    · rfl
    · split
      · have hk := (hq j (W.emit (Event.vop_fstat (W.filemap i).node)).toSys).2.2.1
          (W.filemap i).node
        dsimp only
        split
        · exact hk
        · exact hk
      · rfl

theorem file_seek_commit_same (env : Vfs σ) (hq : env.keepsStatus) (i : Nat) (ret pos : Int)
    (W : World σ) (r : Int × World σ) (hst : (W.filemap i).status = FD_OPENED)
    (h : file_seek_commit env i ret pos W = some r) : SameStatus W r.2 := by
  simp only [file_seek_commit] at h
  split at h
  · simp only [Option.map_eq_some'] at h
    obtain ⟨W3, h3, hr⟩ := h
    subst hr
    have hk : ∀ j, ((env.vop_tryseek (W.filemap i).node pos
        (W.emit (Event.vop_tryseek (W.filemap i).node pos)).toSys).2.filemap j).status
        = (W.filemap j).status := fun j =>
      (hq j (W.emit (Event.vop_tryseek (W.filemap i).node pos)).toSys).2.2.2.2.1
        (W.filemap i).node pos
    split at h3
    · refine SameStatus_trans _ _ _ ?_ (filemap_release_same env i _ W3 h3 ?_)
      · exact fun j => (setSlot_status _ _ _ j (by rfl)).trans (hk j)
      · exact ((setSlot_status _ _ _ i (by rfl)).trans (hk i)).trans hst
    · refine SameStatus_trans _ _ _ ?_ (filemap_release_same env i _ W3 h3 ?_)
      · exact fun j => hk j
      · exact (hk i).trans hst
  · simp only [Option.map_eq_some'] at h
    obtain ⟨W3, h3, hr⟩ := h
    subst hr
    exact filemap_release_same env i _ W3 h3 hst

theorem file_seek_same (env : Vfs σ) (hq : env.keepsStatus) (c : Config) (fd pos whence : Int)
    (W : World σ) (r : Int × World σ)
    (h : file_seek env c fd pos whence W = some r) : SameStatus W r.2 := by
  simp only [file_seek] at h
  split at h
  · injection h with h
    subst h
    exact fun _ => rfl
  · split at h
    · exact absurd h (by simp)
    · simp only [Option.bind_eq_some] at h
      obtain ⟨W1, h1, h⟩ := h
      obtain ⟨ho, ha⟩ := filemap_acquire_same _ W W1 h1
      refine SameStatus_trans _ _ _ ha
        (SameStatus_trans _ _ _ ?_ (file_seek_commit_same env hq _ _ _ _ r ?_ h))
      · exact file_seek_whence_same env hq c _ pos whence W1
      · exact (file_seek_whence_same env hq c _ pos whence W1 _).trans ((ha _).trans ho)

theorem file_fstat_same (env : Vfs σ) (hq : env.keepsStatus) (c : Config) (fd : Int)
    (stat : Stat) (W : World σ) (r : Int × Stat × World σ)
    (h : file_fstat env c fd stat W = some r) : SameStatus W r.2.2 := by
  simp only [file_fstat] at h
  split at h
  · injection h with h
    subst h
    exact fun _ => rfl
  · split at h
    · exact absurd h (by simp)
    · simp only [Option.bind_eq_some, Option.map_eq_some'] at h
      obtain ⟨W1, h1, W2, h2, hr⟩ := h
      subst hr
      obtain ⟨ho, ha⟩ := filemap_acquire_same _ W W1 h1
      refine SameStatus_trans _ _ _ ha
        (SameStatus_trans _ _ _ ?_ (filemap_release_same env _ _ W2 h2 ?_))
      · exact fun j => (hq j _).2.2.1 _
      · exact ((hq _ _).2.2.1 _).trans ((ha _).trans ho)

theorem file_fsync_same (env : Vfs σ) (hq : env.keepsStatus) (c : Config) (fd : Int)
    (W : World σ) (r : Int × World σ)
    (h : file_fsync env c fd W = some r) : SameStatus W r.2 := by
  simp only [file_fsync] at h
  split at h
  · injection h with h
    subst h
    exact fun _ => rfl
  · split at h
    · exact absurd h (by simp)
    · simp only [Option.bind_eq_some, Option.map_eq_some'] at h
      obtain ⟨W1, h1, W2, h2, hr⟩ := h
      subst hr
      obtain ⟨ho, ha⟩ := filemap_acquire_same _ W W1 h1
      refine SameStatus_trans _ _ _ ha
        (SameStatus_trans _ _ _ ?_ (filemap_release_same env _ _ W2 h2 ?_))
      · exact fun j => (hq j _).2.2.2.1 _
      · exact ((hq _ _).2.2.2.1 _).trans ((ha _).trans ho)

theorem file_getdirentry_same (env : Vfs σ) (hq : env.keepsStatus) (c : Config) (fd : Int)
    (d : Dirent) (W : World σ) (r : Int × Dirent × World σ)
    (h : file_getdirentry env c fd d W = some r) : SameStatus W r.2.2 := by
  simp only [file_getdirentry] at h
  split at h
  · injection h with h
    subst h
    exact fun _ => rfl
  · split at h
    · exact absurd h (by simp)
    · simp only [Option.bind_eq_some, Option.map_eq_some'] at h
      obtain ⟨W1, h1, W2, h2, hr⟩ := h
      subst hr
      obtain ⟨ho, ha⟩ := filemap_acquire_same _ W W1 h1
      refine SameStatus_trans _ _ _ ha
        (SameStatus_trans _ _ _ ?_ (filemap_release_same env _ _ W2 h2 ?_))
      · exact fun j => (hq j _).2.2.2.2.2 _ _
      · exact ((hq _ _).2.2.2.2.2 _ _).trans ((ha _).trans ho)

theorem file_dup_moves (env : Vfs σ) (c : Config) (fd1 fd2 : Int) (W : World σ)
    (r : Int × World σ) (h : file_dup env c fd1 fd2 W = some r) :
    SameStatus W r.2 ∨ ∃ i, MovesSlot W r.2 i FD_NONE FD_OPENED := by
  simp only [file_dup] at h
  split at h
  · injection h with h
    subst h
    exact Or.inl (fun _ => rfl)
  · split at h
    · exact absurd h (by simp)
    · simp only [Option.bind_eq_some] at h
      obtain ⟨a, ha, h⟩ := h
      rcases filemap_alloc_moves c fd2 W a ha with ⟨hn, hW⟩ | ⟨i, h0, hi, hm⟩
      · split at h
        · injection h with h
          subst h
          exact Or.inl (fun j => by rw [hW])
        · rw [hn] at h
          exact absurd h (by simp)
      · rw [if_neg (by simp [h0]), hi] at h
        simp only [Option.map_eq_some'] at h
        obtain ⟨W1, h1, hr⟩ := h
        subst hr
        exact Or.inr ⟨i, MovesSlot_comp _ _ _ i _ _ _ _ hm (filemap_dup_moves env i _ _ W1 h1)⟩

theorem StatusMove_cases :
    StatusMove FD_NONE FD_INIT ∧ StatusMove FD_INIT FD_OPENED ∧
    StatusMove FD_OPENED FD_CLOSED ∧ StatusMove FD_CLOSED FD_NONE ∧
    StatusMove FD_INIT FD_PIPE ∧ StatusMove FD_INIT FD_NONE ∧
    StatusMove FD_NONE FD_OPENED ∧ StatusMove FD_OPENED FD_NONE := by
  refine ⟨Or.inr (Or.inl (Or.inl ?_)), Or.inr (Or.inl (Or.inl ?_)),
    Or.inr (Or.inl (Or.inl ?_)), Or.inr (Or.inl (Or.inl ?_)), Or.inr (Or.inl (Or.inl ?_)),
    Or.inr (Or.inl (Or.inr ⟨rfl, rfl⟩)),
    Or.inr (Or.inr ⟨FD_INIT, Or.inl ?_, Or.inl ?_⟩),
    Or.inr (Or.inr ⟨FD_CLOSED, Or.inl ?_, Or.inl ?_⟩)⟩ <;> simp [PathEdge]

theorem TableCall_step_moves (env : Vfs σ) (c : Config) (call : TableCall) (W W1 : World σ)
    (hp : (FileCall.slot call).onInitSlots W) (h : call.step env c W = some W1) (j : Nat) :
    StatusMove (W.filemap j).status (W1.filemap j).status := by
  obtain ⟨m1, m2, m3, m4, m5, m6, m7, m8⟩ := StatusMove_cases
  cases call with
  | alloc fd =>
    simp only [TableCall.step, Option.map_eq_some'] at h
    obtain ⟨r, hr, hW⟩ := h
    subst hW
    rcases filemap_alloc_moves c fd W r hr with ⟨_, hW⟩ | ⟨i, _, _, hm⟩
    · rw [hW]
      exact Or.inl rfl
    · exact MovesSlot_move _ _ i _ _ hm m1 j
  | setup i node pos rd wr =>
    simp only [TableCall.step, Option.some.injEq] at h
    subst h
    exact Or.inl (setSlot_status _ _ _ j (by rfl)).symm
  | activate i => exact MovesSlot_move _ _ i _ _ (filemap_open_moves i W W1 h) m2 j
  | acquire i => exact SameStatus_move _ _ (filemap_acquire_same i W W1 h).2 j
  | release i =>
    rcases filemap_release_moves env i W W1 h with hm | hm
    · exact SameStatus_move _ _ hm j
    · exact MovesSlot_move _ _ i _ _ hm m4 j
  | close i =>
    rcases filemap_close_moves env i W W1 h with hm | hm
    · exact MovesSlot_move _ _ i _ _ hm m3 j
    · exact MovesSlot_move _ _ i _ _ hm m8 j
  | dup t fr => exact MovesSlot_move _ _ t _ _ (filemap_dup_moves env t fr W W1 h) m2 j
  | free i =>
    rcases filemap_free_moves env i W W1 h with hm | hm
    · exact MovesSlot_move _ _ i _ _ hm m6 j
    · exact MovesSlot_move _ _ i _ _ hm m4 j
  | pipe f0 f1 pi =>
    simp only [TableCall.step, Option.some.injEq] at h
    subst h
    rcases pipealloc_moves f0 f1 pi W hp.1 hp.2 j with hm | ⟨ha, hb⟩
    · exact Or.inl hm.symm
    · rw [ha, hb]
      exact m5

theorem sampleVfs_keepsStatus : sampleVfs.keepsStatus :=
  fun _ _ => ⟨fun _ _ => rfl, fun _ _ => rfl, fun _ => rfl, fun _ => rfl, fun _ _ => rfl,
    fun _ _ => rfl⟩

theorem moves_of_same_or_opened (W W1 : World σ)
    (h : SameStatus W W1 ∨ ∃ i, MovesSlot W W1 i FD_NONE FD_OPENED) (j : Nat) :
    StatusMove (W.filemap j).status (W1.filemap j).status := by
  rcases h with hs | ⟨i, hm⟩
  · exact SameStatus_move _ _ hs j
  · exact MovesSlot_move _ _ i _ _ hm StatusMove_cases.2.2.2.2.2.2.1 j

/-- C18 as stated fails: slot 3 of the sample table is `FD_INIT`, allocated and
never activated, and `filemap_free` on it returns with the slot `FD_NONE`.
The call stores into `status` once and makes no collaborator call (the trace
stays empty, so the slot did not pass through `FD_CLOSED`, whose release calls
`vfs_close`); `FD_INIT → FD_NONE` is not an edge of the two stated paths. -/
theorem filemap_free_leaves_path :
    (sampleInitWorld.filemap 3).status = FD_INIT ∧
    (filemap_free sampleVfs 3 sampleInitWorld).map (fun W => ((W.filemap 3).status, W.log))
      = some (FD_NONE, []) ∧
    ¬ PathEdge FD_INIT FD_NONE := by
  refine ⟨rfl, rfl, ?_⟩
  simp [PathEdge]

/-- C18 (amended): for every call of `filemap_alloc`, `filemap_free`,
`filemap_open`, `filemap_acquire`, `filemap_release`, `filemap_close`,
`filemap_dup`, of `pipealloc` on two `FD_INIT` slots, and of `file_open`,
`file_close`, `file_read`, `file_write`, `file_seek`, `file_fstat`,
`file_fsync`, `file_getdirentry` and `file_dup` that returns, with
collaborator calls that leave the statuses of the table alone, and for every
slot, the status after the call is the status before it or is one or two
consecutive steps away along `FD_NONE → FD_INIT → FD_OPENED → FD_CLOSED →
FD_NONE`, `FD_NONE → FD_INIT → FD_PIPE`, or the step `FD_INIT → FD_NONE` that
`filemap_free` makes on an allocated slot that was never activated. -/
theorem status_moves_along_path (env : Vfs σ) (c : Config) (call : FileCall) (W W1 : World σ)
    (hq : env.keepsStatus) (hp : call.onInitSlots W) (h : call.step env c W = some W1)
    (j : Nat) : StatusMove (W.filemap j).status (W1.filemap j).status := by
  cases call with
  | slot call => exact TableCall_step_moves env c call W W1 hp h j
  | file_open path fl =>
    simp only [FileCall.step, Option.map_eq_some'] at h
    obtain ⟨r, hr, hW⟩ := h
    subst hW
    exact moves_of_same_or_opened _ _ (file_open_moves env hq c path fl W r hr) j
  | file_close fd =>
    simp only [FileCall.step, Option.map_eq_some'] at h
    obtain ⟨r, hr, hW⟩ := h
    subst hW
    rcases file_close_moves env c fd W r hr with hs | ⟨i, hm | hm⟩
    · exact SameStatus_move _ _ hs j
    · exact MovesSlot_move _ _ i _ _ hm StatusMove_cases.2.2.1 j
    · exact MovesSlot_move _ _ i _ _ hm StatusMove_cases.2.2.2.2.2.2.2 j
  | file_read fd base len =>
    simp only [FileCall.step, Option.map_eq_some'] at h
    obtain ⟨r, hr, hW⟩ := h
    subst hW
    exact SameStatus_move _ _ (file_read_same env hq c fd base len W r hr) j
  | file_write fd base len =>
    simp only [FileCall.step, Option.map_eq_some'] at h
    obtain ⟨r, hr, hW⟩ := h
    subst hW
    exact SameStatus_move _ _ (file_write_same env hq c fd base len W r hr) j
  | file_seek fd pos whence =>
    simp only [FileCall.step, Option.map_eq_some'] at h
    obtain ⟨r, hr, hW⟩ := h
    subst hW
    exact SameStatus_move _ _ (file_seek_same env hq c fd pos whence W r hr) j
  | file_fstat fd stat =>
    simp only [FileCall.step, Option.map_eq_some'] at h
    obtain ⟨r, hr, hW⟩ := h
    subst hW
    exact SameStatus_move _ _ (file_fstat_same env hq c fd stat W r hr) j
  | file_fsync fd =>
    simp only [FileCall.step, Option.map_eq_some'] at h
    obtain ⟨r, hr, hW⟩ := h
    subst hW
    exact SameStatus_move _ _ (file_fsync_same env hq c fd W r hr) j
  | file_getdirentry fd d =>
    simp only [FileCall.step, Option.map_eq_some'] at h
    obtain ⟨r, hr, hW⟩ := h
    subst hW
    exact SameStatus_move _ _ (file_getdirentry_same env hq c fd d W r hr) j
  | file_dup fd1 fd2 =>
    simp only [FileCall.step, Option.map_eq_some'] at h
    obtain ⟨r, hr, hW⟩ := h
    subst hW
    exact moves_of_same_or_opened _ _ (file_dup_moves env c fd1 fd2 W r hr) j

/-- An instance of the amended C18: `file_open` on the sample table takes slot
0 from `FD_NONE` to `FD_OPENED`, two steps along the first path. -/
theorem status_moves_along_path_witness :
    ∃ W1 : World Unit,
      FileCall.step sampleVfs sampleConfig (FileCall.file_open 7 0) sampleInitWorld = some W1 ∧
        (sampleInitWorld.filemap 0).status = FD_NONE ∧ (W1.filemap 0).status = FD_OPENED ∧
        StatusMove (sampleInitWorld.filemap 0).status (W1.filemap 0).status :=
  have hsome : (FileCall.step sampleVfs sampleConfig (FileCall.file_open 7 0)
      sampleInitWorld).isSome = true := by decide
  ⟨_, (Option.some_get hsome).symm, rfl, rfl,
    status_moves_along_path sampleVfs sampleConfig (FileCall.file_open 7 0) sampleInitWorld _
      sampleVfs_keepsStatus trivial (Option.some_get hsome).symm 0⟩

end MoveProps

/-! ### Counters of a pipe after 2 GiB -/

section WrapProps

theorem tmod_wrap_values :
    Int.tmod 2147483136 512 = 0 ∧ Int.tmod (-2147483648) 512 = 0 ∧
      Int.tmod (-2147483647) 512 = -511 := by decide

theorem pipewrite_at_wrap (f : Nat) (p : Pipe) (m : Nat → UInt8) (addr : Nat)
    (hr : p.nread = 2147483136) (hw : p.nwrite = 2147483136) (hro : p.readopen = 1) :
    ∃ q : Pipe, pipewrite (f + 2) p m addr 512 = some (PipeRes.ret 512 q m) ∧
      q.nread = 2147483136 ∧ q.nwrite = -2147483648 ∧ q.readopen = 1 ∧
      q.writeopen = p.writeopen := by
  obtain ⟨d, nr, nw, ro, wo⟩ := p
  simp only at hr hw hro
  subst hr hw hro
  have hit : pipewrite_iter ⟨d, 2147483136, 2147483136, 1, wo⟩ m addr 512 0
      = WIter.copied ⟨copy_from_user m addr d 0 512, 2147483136, -2147483648, 1, wo⟩ 512 := by
    simp [pipewrite_iter, pipewrite_size, wrap32, toU64, MIN, addSize, PIPESIZE,
      tmod_wrap_values.1]
  refine ⟨⟨copy_from_user m addr d 0 512, 2147483136, -2147483648, 1, wo⟩, ?_, rfl, rfl, rfl, rfl⟩
  simp [pipewrite, pipewrite_loop, hit]

theorem piperead_at_wrap (f : Nat) (p : Pipe) (m : Nat → UInt8) (addr : Nat)
    (hr : p.nread = 2147483136) (hw : p.nwrite = -2147483648) :
    ∃ (q : Pipe) (m1 : Nat → UInt8),
      piperead (f + 2) p m addr 512 = some (PipeRes.ret 512 q m1) ∧
      q.nread = -2147483648 ∧ q.nwrite = -2147483648 ∧ q.readopen = p.readopen ∧
      q.writeopen = p.writeopen := by
  obtain ⟨d, nr, nw, ro, wo⟩ := p
  simp only at hr hw
  subst hr hw
  have hsz : piperead_size ⟨d, 2147483136, -2147483648, ro, wo⟩ 512 0 = 512 := by
    simp [piperead_size, wrap32, toU64, MIN, PIPESIZE, tmod_wrap_values.1]
  have hit : piperead_iter ⟨d, 2147483136, -2147483648, ro, wo⟩ m addr 512 0
      = RIter.copied ⟨d, -2147483648, -2147483648, ro, wo⟩
          (copy_to_user d 0 m addr 512) 512 := by
    simp [piperead_iter, piperead_size, wrap32, toU64, MIN, addSize, PIPESIZE,
      tmod_wrap_values.1]
  refine ⟨⟨d, -2147483648, -2147483648, ro, wo⟩, copy_to_user d 0 m addr 512, ?_, rfl, rfl,
    rfl, rfl⟩
  simp [piperead, piperead_loop, hsz, hit]

theorem pipewrite_after_wrap (f : Nat) (p : Pipe) (m : Nat → UInt8) (addr : Nat)
    (hr : p.nread = -2147483648) (hw : p.nwrite = -2147483648) (hro : p.readopen = 1) :
    ∃ q : Pipe, pipewrite (f + 2) p m addr 1 = some (PipeRes.ret 1 q m) ∧
      q.nread = -2147483648 ∧ q.nwrite = -2147483647 ∧ q.readopen = 1 ∧
      q.writeopen = p.writeopen := by
  obtain ⟨d, nr, nw, ro, wo⟩ := p
  simp only at hr hw hro
  subst hr hw hro
  have hit : pipewrite_iter ⟨d, -2147483648, -2147483648, 1, wo⟩ m addr 1 0
      = WIter.copied ⟨copy_from_user m addr d 0 1, -2147483648, -2147483647, 1, wo⟩ 1 := by
    simp [pipewrite_iter, pipewrite_size, wrap32, toU64, MIN, addSize, PIPESIZE,
      tmod_wrap_values.2.1]
  refine ⟨⟨copy_from_user m addr d 0 1, -2147483648, -2147483647, 1, wo⟩, ?_, rfl, rfl, rfl, rfl⟩
  simp [pipewrite, pipewrite_loop, hit]

theorem pipewrite_negative_index (f : Nat) (p : Pipe) (m : Nat → UInt8) (addr : Nat)
    (hr : p.nread = -2147483648) (hw : p.nwrite = -2147483647) (hro : p.readopen = 1) :
    pipewrite (f + 1) p m addr 1 = some PipeRes.fault := by
  obtain ⟨d, nr, nw, ro, wo⟩ := p
  simp only at hr hw hro
  subst hr hw hro
  have hit : pipewrite_iter ⟨d, -2147483648, -2147483647, 1, wo⟩ m addr 1 0 = WIter.fault := by
    simp [pipewrite_iter, pipewrite_size, wrap32, toU64, MIN, addSize, PIPESIZE,
      tmod_wrap_values.2.2]
  simp [pipewrite, pipewrite_loop, hit]

theorem pipeRound_full (waddr raddr : Nat) (p : Pipe) (m : Nat → UInt8) (c : Int)
    (h0 : 0 ≤ c) (hc : c + 512 ≤ 2147483647) (hr : p.nread = c) (hw : p.nwrite = c)
    (hro : p.readopen = 1) (hwo : p.writeopen = 1) :
    ∃ (q : Pipe) (m1 : Nat → UInt8), pipeRound 600 waddr raddr 512 (p, m) = some (q, m1) ∧
      q.nread = c + 512 ∧ q.nwrite = c + 512 ∧ q.readopen = 1 ∧ q.writeopen = 1 := by
  obtain ⟨q, hq, hq1, hq2, hq3, hq4, _⟩ :=
    pipewrite_loop_spec m waddr 512 (by norm_num) 600 p 0 (by rw [hro]; decide) (by omega)
      (by omega) (by omega) (le_refl 0) (by norm_num) (by omega) (by decide)
  have hd : q.nwrite - q.nread = 512 := by omega
  obtain ⟨m1, hrd, _, _⟩ := piperead_core 600 q m raddr 512 (by omega) (by omega) (by omega)
    (by norm_num) (by norm_num) (by rw [hd]; decide)
  rw [hd] at hrd
  refine ⟨{ q with nread := q.nread + 512 }, m1, ?_, ?_, ?_, ?_, ?_⟩
  · simp only [pipeRound, pipewrite]
    rw [hq]
    simp only [Option.some_bind, PipeRes.returned, if_true]
    rw [hrd]
    simp [PipeRes.returned]
  · simp only; omega
  · simp only; omega
  · simp only; omega
  · simp only; omega

theorem pipeRounds_full (waddr raddr : Nat) :
    ∀ (k : Nat) (p : Pipe) (m : Nat → UInt8) (c : Int), 0 ≤ c →
      c + 512 * (k : Int) ≤ 2147483647 → p.nread = c → p.nwrite = c → p.readopen = 1 →
      p.writeopen = 1 →
      ∃ (q : Pipe) (m1 : Nat → UInt8),
        pipeRounds 600 waddr raddr 512 k (p, m) = some (q, m1) ∧
        q.nread = c + 512 * (k : Int) ∧ q.nwrite = c + 512 * (k : Int) ∧ q.readopen = 1 ∧
        q.writeopen = 1 := by
  intro k
  induction k with
  | zero =>
    intro p m c _ _ hr hw hro hwo
    exact ⟨p, m, rfl, by simpa using hr, by simpa using hw, hro, hwo⟩
  | succ k ih =>
    intro p m c h0 hc hr hw hro hwo
    obtain ⟨q, m1, hq, hq1, hq2, hq3, hq4⟩ :=
      pipeRound_full waddr raddr p m c h0 (by push_cast at hc; omega) hr hw hro hwo
    obtain ⟨t, m2, ht, ht1, ht2, ht3, ht4⟩ :=
      ih q m1 (c + 512) (by omega) (by push_cast at hc; omega) hq1 hq2 hq3 hq4
    refine ⟨t, m2, ?_, ?_, ?_, ht3, ht4⟩
    · simp only [pipeRounds]
      rw [hq]
      exact ht
    · rw [ht1]; push_cast; omega
    · rw [ht2]; push_cast; omega

/-- C19 fails on the code.  On the pipe that `pipealloc` set up, 4194303 rounds
of `pipewrite` of 512 bytes and `piperead` of 512 bytes leave `nread = nwrite =
2147483136`.  The next `pipewrite` of 512 bytes returns 512 and leaves `nwrite
= -2147483648`: the counter wrapped and decreased.  After `piperead` of 512
bytes (`nread = -2147483648`) and `pipewrite` of one byte, `nwrite % PIPESIZE`
is -511, and the next `pipewrite` of one byte addresses `data[-511]`. -/
theorem pipe_counters_wrap :
    ∃ (p q r t : Pipe) (m m1 : Nat → UInt8),
      pipeRounds 600 100 1000 512 4194303 (samplePagePipe, abMem) = some (p, m) ∧
      p.nread = 2147483136 ∧ p.nwrite = 2147483136 ∧
      pipewrite 600 p m 100 512 = some (PipeRes.ret 512 q m) ∧
      q.nread = 2147483136 ∧ q.nwrite = -2147483648 ∧ q.nwrite < p.nwrite ∧
      piperead 600 q m 1000 512 = some (PipeRes.ret 512 r m1) ∧
      r.nread = -2147483648 ∧ r.nwrite = -2147483648 ∧ r.nread < q.nread ∧
      pipewrite 600 r m1 100 1 = some (PipeRes.ret 1 t m1) ∧
      t.nwrite = -2147483647 ∧ Int.tmod t.nwrite PIPESIZE = -511 ∧
      pipewrite 600 t m1 100 1 = some PipeRes.fault := by
  obtain ⟨p, m, hp, hp1, hp2, hp3, hp4⟩ :=
    pipeRounds_full 100 1000 4194303 samplePagePipe abMem 0 (le_refl 0) (by norm_num) rfl rfl
      rfl rfl
  obtain ⟨q, hq, hq1, hq2, hq3, hq4⟩ :=
    pipewrite_at_wrap 598 p m 100 (by rw [hp1]; norm_num) (by rw [hp2]; norm_num) hp3
  obtain ⟨r, m1, hr, hr1, hr2, hr3, hr4⟩ := piperead_at_wrap 598 q m 1000 hq1 hq2
  obtain ⟨t, ht, ht1, ht2, ht3, ht4⟩ :=
    pipewrite_after_wrap 598 r m1 100 hr1 hr2 (by rw [hr3, hq3])
  refine ⟨p, q, r, t, m, m1, hp, by rw [hp1]; norm_num, by rw [hp2]; norm_num, hq, hq1, hq2,
    by rw [hq2, hp2]; norm_num, hr, hr1, hr2, by rw [hr1, hq1]; norm_num, ht, ht2, ?_, ?_⟩
  · rw [ht2]
    exact tmod_wrap_values.2.2
  · exact pipewrite_negative_index 599 t m1 100 ht1 ht2 ht3

end WrapProps

/-! ### One iteration after 2 GiB -/

section IterProps

theorem pipewrite_iter_at_wrap (p : Pipe) (m : Nat → UInt8) (addr : Nat)
    (hr : p.nread = 2147483136) (hw : p.nwrite = 2147483136) (hro : p.readopen = 1) :
    (pipewrite_iter p m addr 512 0).pipe.map (fun s => (s.nread, s.nwrite, s.nwrite - s.nread))
      = some (2147483136, -2147483648, -4294966784) := by
  obtain ⟨d, nr, nw, ro, wo⟩ := p
  simp only at hr hw hro
  subst hr hw hro
  have hit : pipewrite_iter ⟨d, 2147483136, 2147483136, 1, wo⟩ m addr 512 0
      = WIter.copied ⟨copy_from_user m addr d 0 512, 2147483136, -2147483648, 1, wo⟩ 512 := by
    simp [pipewrite_iter, pipewrite_size, wrap32, toU64, MIN, addSize, PIPESIZE,
      tmod_wrap_values.1]
  rw [hit]
  rfl

theorem pipewrite_iter_negative_index (p : Pipe) (m : Nat → UInt8) (addr : Nat)
    (hr : p.nread = -2147483648) (hw : p.nwrite = -2147483647) (hro : p.readopen = 1) :
    (pipewrite_iter p m addr 1 0).isFault = true := by
  obtain ⟨d, nr, nw, ro, wo⟩ := p
  simp only at hr hw hro
  subst hr hw hro
  have hit : pipewrite_iter ⟨d, -2147483648, -2147483647, 1, wo⟩ m addr 1 0 = WIter.fault := by
    simp [pipewrite_iter, pipewrite_size, wrap32, toU64, MIN, addSize, PIPESIZE,
      tmod_wrap_values.2.2]
  rw [hit]
  rfl

/-- C4 fails on the code.  On the pipe that `pipealloc` set up, 4194303 rounds
of `pipewrite` of 512 bytes and `piperead` of 512 bytes reach an empty pipe
with `nread = nwrite = 2147483136` (occupancy 0).  One `pipewrite` iteration
for `n = 512` there copies a chunk and leaves `nwrite = -2147483648`, so that
`nwrite - nread = -4294966784`, outside `[0, PIPESIZE]`.  When that
`pipewrite`, a `piperead` of 512 bytes and a `pipewrite` of one byte have
returned, the occupancy is 1, and one `pipewrite` iteration for `n = 1`
addresses `data[-511]`. -/
theorem pipe_iter_occupancy_breaks :
    ∃ (p q r t : Pipe) (m m1 : Nat → UInt8),
      pipeRounds 600 100 1000 512 4194303 (samplePagePipe, abMem) = some (p, m) ∧
      (0 ≤ p.nwrite - p.nread ∧ p.nwrite - p.nread ≤ PIPESIZE) ∧
      (pipewrite_iter p m 100 512 0).pipe.map
          (fun s => (s.nread, s.nwrite, s.nwrite - s.nread))
        = some (2147483136, -2147483648, -4294966784) ∧
      pipewrite 600 p m 100 512 = some (PipeRes.ret 512 q m) ∧
      piperead 600 q m 1000 512 = some (PipeRes.ret 512 r m1) ∧
      pipewrite 600 r m1 100 1 = some (PipeRes.ret 1 t m1) ∧
      (0 ≤ t.nwrite - t.nread ∧ t.nwrite - t.nread ≤ PIPESIZE) ∧
      Int.tmod t.nwrite PIPESIZE = -511 ∧
      (pipewrite_iter t m1 100 1 0).isFault = true := by
  obtain ⟨p, m, hp, hp1, hp2, hp3, hp4⟩ :=
    pipeRounds_full 100 1000 4194303 samplePagePipe abMem 0 (le_refl 0) (by norm_num) rfl rfl
      rfl rfl
  have hp1n : p.nread = 2147483136 := by rw [hp1]; norm_num
  have hp2n : p.nwrite = 2147483136 := by rw [hp2]; norm_num
  obtain ⟨q, hq, hq1, hq2, hq3, hq4⟩ := pipewrite_at_wrap 598 p m 100 hp1n hp2n hp3
  obtain ⟨r, m1, hr, hr1, hr2, hr3, hr4⟩ := piperead_at_wrap 598 q m 1000 hq1 hq2
  obtain ⟨t, ht, ht1, ht2, ht3, ht4⟩ :=
    pipewrite_after_wrap 598 r m1 100 hr1 hr2 (by rw [hr3, hq3])
  refine ⟨p, q, r, t, m, m1, hp, ?_, pipewrite_iter_at_wrap p m 100 hp1n hp2n hp3, hq, hr, ht,
    ?_, ?_, pipewrite_iter_negative_index t m1 100 ht1 ht2 ht3⟩
  · rw [hp1n, hp2n]
    decide
  · rw [ht1, ht2]
    decide
  · rw [ht2]
    exact tmod_wrap_values.2.2

end IterProps

end Ucore
